import Mathlib

/-! umaumax/llvm : type derivation and serialisation of the IR model

A shallow embedding of `ir/constant/expr_memory.go` (the getelementptr
constant expression and `gepType`) and of `ir/inst_other.go` (the icmp, fcmp,
phi, select and call instructions), followed by the properties established
about them.

Conventions of the embedding.

* A Go `panic` (explicit, or a run-time index-out-of-range) is the result
  `none`.
* A method that fills a cache field of its receiver returns the updated
  receiver next to its result.
* `fmt.Sprintf`/`Fprintf` with `%s` verbs is string concatenation of the
  `String()` texts of the arguments.
-/

set_option autoImplicit false

/-! ## Package `types` -/

namespace types

/-- Modelled from the spec: the floating-point kinds of `Float{kind}`; the
package `ir/types` is not among the sources. -/
inductive FloatKind
  | half | bfloat | float | double | fp128 | x86_fp80 | ppc_fp128
  deriving DecidableEq, Repr

/-- Modelled from the spec: the tagged variant of IR types of section 3 (`Void`,
`Int{bits}`, `Float{kind}`, `Pointer{elem, addr_space}`,
`Vector{len, scalable, elem}`, `Array{len, elem}`,
`Struct{name?, fields, packed, opaque}`, `Func{ret, params, variadic}`, `Label`,
`Token`, `Metadata`); the package `ir/types` is not among the sources. The
constructors carry the Go names the sources use in their type switches. -/
inductive Typ
  | VoidType
  | IntType (bits : Nat)
  | FloatType (kind : FloatKind)
  | PointerType (ElemType : Typ) (AddrSpace : Nat)
  | VectorType (Len : Nat) (Scalable : Bool) (ElemType : Typ)
  | ArrayType (Len : Nat) (ElemType : Typ)
  | StructType (name : Option String) (Fields : List Typ) (Packed : Bool) (Opaque : Bool)
  | FuncType (RetType : Typ) (Params : List Typ) (Variadic : Bool)
  | LabelType
  | TokenType
  | MetadataType

/-- Modelled from the spec: `types.Void`. -/
def Void : Typ := Typ.VoidType

/-- Modelled from the spec: `types.I1`, the one-bit integer type. -/
def I1 : Typ := Typ.IntType 1

/-- Modelled from the spec: `types.Token`. -/
def Token : Typ := Typ.TokenType

/-- Modelled from the spec: `types.NewPointer(elem)`, the pointer to `elem` in
the default address space. -/
def NewPointer (elem : Typ) : Typ := Typ.PointerType elem 0

/-- Modelled from the spec: `types.NewVector(len, elem)`, the fixed-length
vector type. -/
def NewVector (len : Nat) (elem : Typ) : Typ := Typ.VectorType len false elem

/-- Modelled from the spec: `t.Equal(types.Void)`; structural equality with the
void type holds for the void type alone. -/
def Typ.EqualVoid : Typ → Bool
  | Typ.VoidType => true
  | _ => false

end types

/-! ## Package `constant` -/

namespace constant

open types

/-- Modelled from the spec: the constants that `gepType` inspects. `Int`
(`Typ *types.IntType`, `X *big.Int`), `Vector` (`Typ *types.VectorType`,
`Elems`), `ZeroInitializer` and the getelementptr `Index` wrapper of
`expr_memory.go`; `Other` stands for every remaining kind of constant (null,
undef, floating-point, expressions, globals), of which only the type is
observed. -/
inductive Constant
  | Int (bits : Nat) (X : Int)
  | Vector (Len : Nat) (Scalable : Bool) (ElemType : Typ) (Elems : List Constant)
  | ZeroInitializer (Typ : Typ)
  | Index (Constant : Constant) (InRange : Bool)
  | Other (Typ : Typ)

/-- `NewIndex(index)`: a gep element index without the inrange tag. -/
def NewIndex (index : Constant) : Constant := Constant.Index index false

/-- The method `Type()` of a constant; `Index` embeds its constant and so
answers with the type of the constant it wraps. -/
def Constant.type : Constant → Typ
  | Constant.Int bits _ => Typ.IntType bits
  | Constant.Vector len scalable elem _ => Typ.VectorType len scalable elem
  | Constant.ZeroInitializer t => t
  | Constant.Index c _ => c.type
  | Constant.Other t => t

/-- Go's `(*big.Int).Int64`: the low 64 bits of the magnitude read as a signed
64-bit integer, negated (with wrap-around) for a negative number. -/
def bigInt64 (x : Int) : Int :=
  let low : Int := (x.natAbs % 2 ^ 64 : Nat)
  let v : Int := if low < 2 ^ 63 then low else low - 2 ^ 64
  if x < 0 then (if v = -(2 ^ 63) then v else -v) else v

/-- Go's slice indexing `fields[i]` with a signed index: a run-time panic
outside `0 <= i < len(fields)`. -/
def sliceAt {α : Type} (xs : List α) (i : Int) : Option α :=
  if i < 0 then none else xs[i.toNat]?

/-- The `if idx, ok := index.(*Index); ok` unpacking of `gepType`: one `Index`
wrapper is removed, whatever its `InRange` flag. -/
def unpackIndex : Constant → Constant
  | Constant.Index c _ => c
  | c => c

/-- The sanity loop of the `*Vector` case of `gepType`: every element must be
an `*Int` whose `Int64` value equals `i`. -/
def sameLanes (i : Int) : List Constant → Bool
  | [] => true
  | Constant.Int _ X :: rest => if i ≠ bigInt64 X then false else sameLanes i rest
  | _ :: _ => false

/-- The type switch of the loop body of `gepType` for an index at position
`i >= 1`, applied to the current type `e` and the unpacked index. -/
def gepStep (e : Typ) (index : Constant) : Option Typ :=
  match e with
  | Typ.PointerType _ _ => none
  | Typ.VectorType _ _ elem => some elem
  | Typ.ArrayType _ elem => some elem
  | Typ.StructType _ fields _ _ =>
    match index with
    | Constant.Int _ X => sliceAt fields (bigInt64 X)
    | Constant.Vector _ _ _ elems =>
      match elems with
      | [] => none
      | Constant.Int _ X :: _ =>
        let i := bigInt64 X
        if sameLanes i elems then sliceAt fields i else none
      | _ :: _ => none
    | Constant.ZeroInitializer _ => sliceAt fields 0
    | _ => none
  | _ => none

/-- The `for i, index := range indices` loop of `gepType` on the indices after
the 0th: each index is unpacked and the current type advanced by `gepStep`. -/
def gepWalk (e : Typ) : List Constant → Option Typ
  | [] => some e
  | index :: rest =>
    match gepStep e (unpackIndex index) with
    | none => none
    | some e2 => gepWalk e2 rest

/-- The final wrapping of `gepType`: a vector of pointers when the type of the
unpacked 0th index is a vector type, a pointer otherwise. -/
def gepWrap (index0 : Constant) (e : Typ) : Typ :=
  match (unpackIndex index0).type with
  | Typ.VectorType len _ _ => NewVector len (NewPointer e)
  | _ => NewPointer e

/-- The function `gepType(elemType, indices)`. The 0th index is skipped by the
loop (`if i == 0 { continue }`) and is consulted only after the loop. -/
def gepType (elemType : Typ) (indices : List Constant) : Option Typ :=
  match indices with
  | [] => some (NewPointer elemType)
  | index0 :: rest =>
    match gepWalk elemType rest with
    | none => none
    | some e => some (gepWrap index0 e)

end constant

/-! ## Package `value` -/

namespace value

open types

/-- Modelled from the spec: the capability set `Type()`, `Ident()` and
`String()` of an operand (`value.Value`); the package `ir/value` is not among
the sources. An operand is observed only through these three answers. -/
structure Value where
  type : Typ
  Ident : String
  string : String

end value

/-! ## Textual form of types -/

namespace types

/-- Modelled from the spec: the text of a floating-point kind. -/
def FloatKind.string : FloatKind → String
  | FloatKind.half => "half"
  | FloatKind.bfloat => "bfloat"
  | FloatKind.float => "float"
  | FloatKind.double => "double"
  | FloatKind.fp128 => "fp128"
  | FloatKind.x86_fp80 => "x86_fp80"
  | FloatKind.ppc_fp128 => "ppc_fp128"

/-- Modelled from the spec: the characters `[A-Za-z0-9._$-]` that an IR-name may
hold without being quoted (section 6, identifier syntax). -/
def isIdentChar (c : Char) : Bool :=
  c.isAlphanum || c == '.' || c == '_' || c == '$' || c == '-'

/-- The hexadecimal digit of a value below 16, in upper case. -/
def hexDigit (n : Nat) : Char :=
  ['0', '1', '2', '3', '4', '5', '6', '7', '8', '9', 'A', 'B', 'C', 'D', 'E', 'F'].getD n '0'

/-- Modelled from the spec: the LLVM-style escape of one character of a quoted
name. A printable ASCII character other than the double quote and the backslash
stands for itself; every other character is written byte by byte (UTF-8) as a
backslash and two hexadecimal digits. -/
def escapeChar (c : Char) : String :=
  if 32 ≤ c.toNat ∧ c.toNat ≤ 126 ∧ c.toNat ≠ 34 ∧ c.toNat ≠ 92 then String.singleton c
  else String.join ((String.utf8EncodeChar c).map fun b =>
    String.mk [Char.ofNat 92, hexDigit (b.toNat / 16), hexDigit (b.toNat % 16)])

/-- Modelled from the spec: an IR-name as it is emitted after the sigil: as it
is when all its characters are in `[A-Za-z0-9._$-]`, otherwise between double
quotes with LLVM-style escapes. -/
def escapeIdent (name : String) : String :=
  if name.data.all isIdentChar then name
  else "\x22" ++ String.join (name.data.map escapeChar) ++ "\x22"

mutual
/-- Modelled from the spec: the canonical textual form `String()` of a type, in
the syntax of the LLVM language reference; the package `ir/types` is not among
the sources. A named struct prints as its name after `%`, quoted when the name
needs it; a literal struct without fields prints as an empty pair of braces. -/
def Typ.string : Typ → String
  | Typ.VoidType => "void"
  | Typ.IntType bits => "i" ++ toString bits
  | Typ.FloatType kind => kind.string
  | Typ.PointerType elem addrSpace =>
    if addrSpace = 0 then elem.string ++ "*"
    else elem.string ++ " addrspace(" ++ toString addrSpace ++ ")*"
  | Typ.VectorType len scalable elem =>
    if scalable then "<vscale x " ++ toString len ++ " x " ++ elem.string ++ ">"
    else "<" ++ toString len ++ " x " ++ elem.string ++ ">"
  | Typ.ArrayType len elem => "[" ++ toString len ++ " x " ++ elem.string ++ "]"
  | Typ.StructType (some name) _ _ _ => "%" ++ escapeIdent name
  | Typ.StructType none fields packed opaq =>
    if opaq then "opaque"
    else if fields.isEmpty then (if packed then "<\x7b\x7d>" else "\x7b\x7d")
    else if packed then "<\x7b " ++ ", ".intercalate (Typ.strings fields) ++ " \x7d>"
    else "\x7b " ++ ", ".intercalate (Typ.strings fields) ++ " \x7d"
  | Typ.FuncType ret params variadic =>
    ret.string ++ " (" ++ ", ".intercalate (Typ.strings params)
      ++ (if variadic then (if params.isEmpty then "..." else ", ...") else "") ++ ")"
  | Typ.LabelType => "label"
  | Typ.TokenType => "token"
  | Typ.MetadataType => "metadata"
/-- The texts of a list of types, in order. -/
def Typ.strings : List Typ → List String
  | [] => []
  | t :: ts => t.string :: Typ.strings ts
end

end types

/-! ## Package `enum` -/

namespace enum

/-- Modelled from the spec: the integer comparison predicates
(eq, ne, ugt, uge, ult, ule, sgt, sge, slt, sle); the package `ir/enum` is not
among the sources. -/
inductive IPred
  | IPredEQ | IPredNE | IPredUGT | IPredUGE | IPredULT | IPredULE
  | IPredSGT | IPredSGE | IPredSLT | IPredSLE
  deriving DecidableEq, Repr

/-- Modelled from the spec: the keyword of an integer comparison predicate. -/
def IPred.string : IPred → String
  | IPred.IPredEQ => "eq"
  | IPred.IPredNE => "ne"
  | IPred.IPredUGT => "ugt"
  | IPred.IPredUGE => "uge"
  | IPred.IPredULT => "ult"
  | IPred.IPredULE => "ule"
  | IPred.IPredSGT => "sgt"
  | IPred.IPredSGE => "sge"
  | IPred.IPredSLT => "slt"
  | IPred.IPredSLE => "sle"

/-- Modelled from the spec: the sixteen floating-point comparison predicates;
the package `ir/enum` is not among the sources. -/
inductive FPred
  | FPredFalse | FPredOEQ | FPredOGE | FPredOGT | FPredOLE | FPredOLT | FPredONE
  | FPredORD | FPredTrue | FPredUEQ | FPredUGE | FPredUGT | FPredULE | FPredULT
  | FPredUNE | FPredUNO
  deriving DecidableEq, Repr

/-- Modelled from the spec: the keyword of a floating-point comparison
predicate. -/
def FPred.string : FPred → String
  | FPred.FPredFalse => "false"
  | FPred.FPredOEQ => "oeq"
  | FPred.FPredOGE => "oge"
  | FPred.FPredOGT => "ogt"
  | FPred.FPredOLE => "ole"
  | FPred.FPredOLT => "olt"
  | FPred.FPredONE => "one"
  | FPred.FPredORD => "ord"
  | FPred.FPredTrue => "true"
  | FPred.FPredUEQ => "ueq"
  | FPred.FPredUGE => "uge"
  | FPred.FPredUGT => "ugt"
  | FPred.FPredULE => "ule"
  | FPred.FPredULT => "ult"
  | FPred.FPredUNE => "une"
  | FPred.FPredUNO => "uno"

/-- Modelled from the spec: the tail marker of a call, `TailNone` being the zero
value that prints nothing; the package `ir/enum` is not among the sources. -/
inductive Tail
  | TailNone | TailMustTail | TailNoTail | TailTail
  deriving DecidableEq, Repr

/-- Modelled from the spec: the keyword of a tail marker. -/
def Tail.string : Tail → String
  | Tail.TailNone => "none"
  | Tail.TailMustTail => "musttail"
  | Tail.TailNoTail => "notail"
  | Tail.TailTail => "tail"

/-- Modelled from the spec: a fast-math flag, kept as the keyword its `String()`
yields; the package `ir/enum` is not among the sources. -/
structure FastMathFlag where
  string : String
  deriving DecidableEq, Repr

/-- Modelled from the spec: a calling convention, `CallingConvNone` being the
zero value that prints nothing; any other convention is kept as the text that
`callingConvString` yields for it. Neither the package `ir/enum` nor
`callingConvString` is among the sources. -/
inductive CallingConv
  | CallingConvNone
  | Conv (text : String)
  deriving DecidableEq, Repr

end enum

/-! ## Package `ir` -/

namespace ir

open types value enum

/-- Modelled from the spec: the identifier of a local (section 6: a percent sign
followed by a decimal number or an IR-name); `body` is the text after the
percent sign. The declaration of `LocalIdent` is not among the sources. -/
structure LocalIdent where
  body : String
  deriving DecidableEq, Repr

/-- Modelled from the spec: `LocalIdent.Ident()`. -/
def LocalIdent.Ident (i : LocalIdent) : String := "%" ++ i.body

/-- Modelled from the spec: the zero value of `LocalIdent`, an unnamed local
with the numeric id 0. -/
def LocalIdent.zero : LocalIdent := { body := "0" }

/-- Modelled from the spec: a metadata attachment, kept as the text its
`String()` yields; `Metadata` is the ordered list of attachments of an
instruction. The declarations are not among the sources. -/
structure MetadataAttachment where
  string : String
  deriving DecidableEq, Repr

/-- Modelled from the spec: a return attribute, kept as the text it prints. -/
structure ReturnAttribute where
  string : String
  deriving DecidableEq, Repr

/-- Modelled from the spec: a function attribute, kept as the text it prints. -/
structure FuncAttribute where
  string : String
  deriving DecidableEq, Repr

/-- Modelled from the spec: an operand bundle, kept as the text it prints. -/
structure OperandBundle where
  string : String
  deriving DecidableEq, Repr

/-- Modelled from the spec: `callingConvString`, the text of a calling
convention. -/
def callingConvString : CallingConv → String
  | CallingConv.CallingConvNone => "none"
  | CallingConv.Conv text => text

/-- Modelled from the spec: `AddrSpace.String()`, the text of a non-default
address space. -/
def addrSpaceString (addrSpace : Nat) : String := "addrspace(" ++ toString addrSpace ++ ")"

/-- The text appended by `for _, md := range inst.Metadata`: every attachment
preceded by a comma and a space. -/
def metadataString (mds : List MetadataAttachment) : String :=
  String.join (mds.map fun md => ", " ++ md.string)

/-! ### icmp -/

/-- The struct `InstICmp`; `Typ` is `none` while the type is not cached. -/
structure InstICmp where
  LocalIdent : LocalIdent
  Pred : IPred
  X : Value
  Y : Value
  Typ : Option types.Typ
  Metadata : List MetadataAttachment

/-- The method `InstICmp.Type`: the cached type if present, otherwise derived
from the type of `X` and stored. -/
def InstICmp.type (inst : InstICmp) : Option (types.Typ × InstICmp) :=
  match inst.Typ with
  | some t => some (t, inst)
  | none =>
    match inst.X.type with
    | Typ.IntType _ => some (I1, { inst with Typ := some I1 })
    | Typ.PointerType _ _ => some (I1, { inst with Typ := some I1 })
    | Typ.VectorType len _ _ => some (NewVector len I1, { inst with Typ := some (NewVector len I1) })
    | _ => none

/-- The constructor `NewICmp(pred, x, y)`; the local identifier and the metadata
start out as zero values. -/
def NewICmp (pred : IPred) (x y : Value) : Option InstICmp :=
  let inst : InstICmp :=
    { LocalIdent := LocalIdent.zero, Pred := pred, X := x, Y := y, Typ := none, Metadata := [] }
  match inst.type with
  | none => none
  | some (_, inst2) => some inst2

/-! ### fcmp -/

/-- The struct `InstFCmp`. -/
structure InstFCmp where
  LocalIdent : LocalIdent
  Pred : FPred
  X : Value
  Y : Value
  Typ : Option types.Typ
  FastMathFlags : List FastMathFlag
  Metadata : List MetadataAttachment

/-- The method `InstFCmp.Type`. -/
def InstFCmp.type (inst : InstFCmp) : Option (types.Typ × InstFCmp) :=
  match inst.Typ with
  | some t => some (t, inst)
  | none =>
    match inst.X.type with
    | Typ.FloatType _ => some (I1, { inst with Typ := some I1 })
    | Typ.VectorType len _ _ => some (NewVector len I1, { inst with Typ := some (NewVector len I1) })
    | _ => none

/-- The constructor `NewFCmp(pred, x, y)`. -/
def NewFCmp (pred : FPred) (x y : Value) : Option InstFCmp :=
  let inst : InstFCmp :=
    { LocalIdent := LocalIdent.zero, Pred := pred, X := x, Y := y, Typ := none,
      FastMathFlags := [], Metadata := [] }
  match inst.type with
  | none => none
  | some (_, inst2) => some inst2

/-! ### phi -/

/-- The struct `Incoming`. The predecessor is a non-owning reference to a basic
block, of which only `Ident()` is used; it is kept as the local identifier of
that block. -/
structure Incoming where
  X : Value
  Pred : LocalIdent

/-- The constructor `NewIncoming(x, pred)`. -/
def NewIncoming (x : Value) (pred : LocalIdent) : Incoming := { X := x, Pred := pred }

/-- The struct `InstPhi`. -/
structure InstPhi where
  LocalIdent : LocalIdent
  Incs : List Incoming
  Typ : Option types.Typ
  Metadata : List MetadataAttachment

/-- The method `InstPhi.Type`: `inst.Incs[0]` is a run-time panic on an empty
list. -/
def InstPhi.type (inst : InstPhi) : Option (types.Typ × InstPhi) :=
  match inst.Typ with
  | some t => some (t, inst)
  | none =>
    match inst.Incs with
    | [] => none
    | inc :: _ => some (inc.X.type, { inst with Typ := some inc.X.type })

/-- The constructor `NewPhi(incs...)`. -/
def NewPhi (incs : List Incoming) : Option InstPhi :=
  let inst : InstPhi :=
    { LocalIdent := LocalIdent.zero, Incs := incs, Typ := none, Metadata := [] }
  match inst.type with
  | none => none
  | some (_, inst2) => some inst2

/-! ### call -/

/-- The struct `InstCall`. `Typ` holds the result type, or the function
signature of the callee when the callee is variadic. -/
structure InstCall where
  LocalIdent : LocalIdent
  Callee : Value
  Args : List Value
  Typ : Option types.Typ
  Tail : Tail
  FastMathFlags : List FastMathFlag
  CallingConv : CallingConv
  ReturnAttrs : List ReturnAttribute
  AddrSpace : Nat
  FuncAttrs : List FuncAttribute
  OperandBundles : List OperandBundle
  Metadata : List MetadataAttachment

/-- The `if inst.Typ == nil` block of `InstCall.Type`: the value of the `Typ`
field after it, or `none` when the callee is not a pointer to a function. -/
def InstCall.cacheTyp (inst : InstCall) : Option types.Typ :=
  match inst.Typ with
  | some t => some t
  | none =>
    match inst.Callee.type with
    | Typ.PointerType elem _ =>
      match elem with
      | Typ.FuncType ret params variadic =>
        if variadic then some (Typ.FuncType ret params variadic) else some ret
      | _ => none
    | _ => none

/-- The tail of `InstCall.Type`, `if t, ok := inst.Typ.(*types.FuncType); ok
{ return t.RetType }; return inst.Typ`: a cached function type answers with its
return type and any other cached type with itself. -/
def retTypeOrSelf (typ : types.Typ) : types.Typ :=
  match typ with
  | Typ.FuncType ret _ _ => ret
  | _ => typ

/-- The method `InstCall.Type`: the cache is filled if need be and the answer is
read off the cached `Typ`. -/
def InstCall.type (inst : InstCall) : Option (types.Typ × InstCall) :=
  match inst.cacheTyp with
  | none => none
  | some t => some (retTypeOrSelf t, { inst with Typ := some t })

/-- The constructor `NewCall(callee, args...)`. -/
def NewCall (callee : Value) (args : List Value) : Option InstCall :=
  let inst : InstCall :=
    { LocalIdent := LocalIdent.zero, Callee := callee, Args := args, Typ := none,
      Tail := Tail.TailNone, FastMathFlags := [], CallingConv := CallingConv.CallingConvNone,
      ReturnAttrs := [], AddrSpace := 0, FuncAttrs := [], OperandBundles := [], Metadata := [] }
  match inst.type with
  | none => none
  | some (_, inst2) => some inst2

/-- The type that `InstCall.LLString` prints before the callee: the result of
`Type()`, replaced by the cached `Typ` when that is a variadic function type. -/
def InstCall.printedType (inst : InstCall) (typ : types.Typ) : types.Typ :=
  match inst.Typ with
  | some (Typ.FuncType ret params variadic) =>
    if variadic then Typ.FuncType ret params variadic else typ
  | _ => typ

/-- The text `InstCall.LLString` writes between the keyword `call` and the type:
the fast-math flags, the calling convention, the return attributes and the
address space, each preceded by a space and printed only when present. -/
def InstCall.modifiers (inst : InstCall) : String :=
  String.join (inst.FastMathFlags.map fun flag => " " ++ flag.string)
    ++ (if inst.CallingConv ≠ CallingConv.CallingConvNone then " " ++ callingConvString inst.CallingConv
        else "")
    ++ String.join (inst.ReturnAttrs.map fun attr => " " ++ attr.string)
    ++ (if inst.AddrSpace ≠ 0 then " " ++ addrSpaceString inst.AddrSpace else "")

/-- The text `InstCall.LLString` writes before the type: the optional result
identifier with the equals sign, the optional tail marker, the keyword and the
modifiers. `resultType` is the outcome of the first `inst.Type()`. -/
def InstCall.beforeType (inst : InstCall) (resultType : types.Typ) : String :=
  (if !resultType.EqualVoid then inst.LocalIdent.Ident ++ " = " else "")
    ++ (if inst.Tail ≠ Tail.TailNone then inst.Tail.string ++ " " else "")
    ++ "call"
    ++ inst.modifiers

/-- The text `InstCall.LLString` writes after the opening parenthesis: the
arguments, the closing parenthesis, the function attributes, the operand
bundles and the metadata attachments. -/
def InstCall.afterCallee (inst : InstCall) : String :=
  ", ".intercalate (inst.Args.map fun arg => arg.string)
    ++ ")"
    ++ String.join (inst.FuncAttrs.map fun attr => " " ++ attr.string)
    ++ (if inst.OperandBundles.length > 0 then
          " [ " ++ ", ".intercalate (inst.OperandBundles.map fun b => b.string) ++ " ]"
        else "")
    ++ metadataString inst.Metadata

/-- The method `InstCall.LLString`. It calls `Type()` twice; both calls may fill
the cache, so the instruction is threaded through them. -/
def InstCall.LLString (inst : InstCall) : Option (String × InstCall) :=
  match inst.type with
  | none => none
  | some (resultType, inst1) =>
    match inst1.type with
    | none => none
    | some (typ, inst2) =>
      some (inst2.beforeType resultType ++ " " ++ (inst2.printedType typ).string ++ " "
          ++ inst2.Callee.Ident ++ "(" ++ inst2.afterCallee, inst2)

end ir

/-! ## Package `constant`: the getelementptr expression -/

namespace types

/-- Go's rendering, under the `%s` verb, of a `types.Type` field: the text of
the type, or `%!s(<nil>)` while the field is still nil. -/
def typeText : Option Typ → String
  | some t => t.string
  | none => "%!s(<nil>)"

end types

namespace constant

open types

/-- The method `String()` of a constant. `Index.String` is the method of
`expr_memory.go`: `inrange` and the wrapped constant when `InRange` is set, the
wrapped constant alone otherwise. The `String()` methods of the other constants
are declared outside the sources and are taken as the parameter `str`. -/
def Constant.string (str : Constant → String) : Constant → String
  | Constant.Index c inRange =>
    if inRange then "inrange " ++ Constant.string str c else Constant.string str c
  | Constant.Int bits X => str (Constant.Int bits X)
  | Constant.Vector len sc elem elems => str (Constant.Vector len sc elem elems)
  | Constant.ZeroInitializer t => str (Constant.ZeroInitializer t)
  | Constant.Other t => str (Constant.Other t)

/-- The struct `ExprGetElementPtr`; `ElemType` and `Typ` are `none` while they
are not cached. -/
structure ExprGetElementPtr where
  ElemType : Option types.Typ
  Src : Constant
  Indices : List Constant
  Typ : Option types.Typ
  InBounds : Bool

/-- The `if e.ElemType == nil` block of `ExprGetElementPtr.Type`: the value of
`ElemType` after it, or `none` when the source is neither a pointer nor a
vector of pointers. -/
def ExprGetElementPtr.cacheElemType (e : ExprGetElementPtr) : Option types.Typ :=
  match e.ElemType with
  | some t => some t
  | none =>
    match e.Src.type with
    | Typ.PointerType elem _ => some elem
    | Typ.VectorType _ _ elem =>
      match elem with
      | Typ.PointerType elem2 _ => some elem2
      | _ => none
    | _ => none

/-- The method `ExprGetElementPtr.Type`: the element type is cached first, then
the type, computed by `gepType` when it is not present. -/
def ExprGetElementPtr.type (e : ExprGetElementPtr) : Option (types.Typ × ExprGetElementPtr) :=
  match e.cacheElemType with
  | none => none
  | some elemType =>
    match e.Typ with
    | some t => some (t, { e with ElemType := some elemType })
    | none =>
      match gepType elemType e.Indices with
      | none => none
      | some t => some (t, { e with ElemType := some elemType, Typ := some t })

/-- The constructor `NewGetElementPtr(src, indices...)`. -/
def NewGetElementPtr (src : Constant) (indices : List Constant) : Option ExprGetElementPtr :=
  let e : ExprGetElementPtr :=
    { ElemType := none, Src := src, Indices := indices, Typ := none, InBounds := false }
  match e.type with
  | none => none
  | some (_, e2) => some e2

/-- The method `ExprGetElementPtr.Ident`. -/
def ExprGetElementPtr.Ident (str : Constant → String) (e : ExprGetElementPtr) : String :=
  "getelementptr"
    ++ (if e.InBounds then " inbounds" else "")
    ++ " (" ++ typeText e.ElemType ++ ", " ++ Constant.string str e.Src
    ++ String.join (e.Indices.map fun index => ", " ++ Constant.string str index)
    ++ ")"

/-- The method `ExprGetElementPtr.String`: `Type()` is evaluated before
`Ident()`, which therefore reads the cached element type. -/
def ExprGetElementPtr.string (str : Constant → String) (e : ExprGetElementPtr) :
    Option (String × ExprGetElementPtr) :=
  match e.type with
  | none => none
  | some (t, e2) => some (t.string ++ " " ++ e2.Ident str, e2)

end constant

/-! ## Package `ir`: textual form of icmp, fcmp and phi -/

namespace enum

/-- Modelled from the spec: the clause type of a landingpad clause, an
enumeration over an unsigned integer in which `catch` has the value 1 and
`filter` the value 2; the package `ir/enum` is not among the sources. -/
structure ClauseType where
  val : Nat
  deriving DecidableEq, Repr

/-- Modelled from the spec: `enum.ClauseTypeCatch`. -/
def ClauseTypeCatch : ClauseType := { val := 1 }

/-- Modelled from the spec: `enum.ClauseTypeFilter`. -/
def ClauseTypeFilter : ClauseType := { val := 2 }

/-- Modelled from the spec: the keyword of a clause type; a value that is no
variant prints as its number inside `ClauseType(...)`. -/
def ClauseType.string (c : ClauseType) : String :=
  if c.val = 1 then "catch"
  else if c.val = 2 then "filter"
  else "ClauseType(" ++ toString c.val ++ ")"

end enum

namespace ir

open types value enum

/-- The method `InstICmp.LLString`. -/
def InstICmp.LLString (inst : InstICmp) : String :=
  inst.LocalIdent.Ident ++ " = "
    ++ "icmp " ++ inst.Pred.string ++ " " ++ inst.X.string ++ ", " ++ inst.Y.Ident
    ++ metadataString inst.Metadata

/-- The method `InstICmp.String`: `Type()` is evaluated before `Ident()`. -/
def InstICmp.string (inst : InstICmp) : Option (String × InstICmp) :=
  match inst.type with
  | none => none
  | some (t, inst2) => some (t.string ++ " " ++ inst2.LocalIdent.Ident, inst2)

/-- The method `InstFCmp.LLString`. -/
def InstFCmp.LLString (inst : InstFCmp) : String :=
  inst.LocalIdent.Ident ++ " = "
    ++ "fcmp"
    ++ String.join (inst.FastMathFlags.map fun flag => " " ++ flag.string)
    ++ " " ++ inst.Pred.string ++ " " ++ inst.X.string ++ ", " ++ inst.Y.Ident
    ++ metadataString inst.Metadata

/-- The method `InstFCmp.String`. -/
def InstFCmp.string (inst : InstFCmp) : Option (String × InstFCmp) :=
  match inst.type with
  | none => none
  | some (t, inst2) => some (t.string ++ " " ++ inst2.LocalIdent.Ident, inst2)

/-- The method `Incoming.String`. -/
def Incoming.string (inc : Incoming) : String :=
  "[ " ++ inc.X.Ident ++ ", " ++ inc.Pred.Ident ++ " ]"

/-- The method `InstPhi.LLString`; it prints the field `Typ` as it is, cached or
not. -/
def InstPhi.LLString (inst : InstPhi) : String :=
  inst.LocalIdent.Ident ++ " = "
    ++ "phi " ++ typeText inst.Typ ++ " "
    ++ ", ".intercalate (inst.Incs.map fun inc => inc.string)
    ++ metadataString inst.Metadata

/-- The method `InstPhi.String`. -/
def InstPhi.string (inst : InstPhi) : Option (String × InstPhi) :=
  match inst.type with
  | none => none
  | some (t, inst2) => some (t.string ++ " " ++ inst2.LocalIdent.Ident, inst2)

/-- The method `InstCall.String`. -/
def InstCall.string (inst : InstCall) : Option (String × InstCall) :=
  match inst.type with
  | none => none
  | some (t, inst2) => some (t.string ++ " " ++ inst2.LocalIdent.Ident, inst2)

/-! ### select -/

/-- The struct `InstSelect`. -/
structure InstSelect where
  LocalIdent : LocalIdent
  Cond : Value
  X : Value
  Y : Value
  Typ : Option types.Typ
  FastMathFlags : List FastMathFlag
  Metadata : List MetadataAttachment

/-- The method `InstSelect.Type`: the cached type if present, otherwise the type
of `X`, stored. -/
def InstSelect.type (inst : InstSelect) : types.Typ × InstSelect :=
  match inst.Typ with
  | some t => (t, inst)
  | none => (inst.X.type, { inst with Typ := some inst.X.type })

/-- The constructor `NewSelect(cond, x, y)`. -/
def NewSelect (cond x y : Value) : InstSelect :=
  let inst : InstSelect :=
    { LocalIdent := LocalIdent.zero, Cond := cond, X := x, Y := y, Typ := none,
      FastMathFlags := [], Metadata := [] }
  (inst.type).2

/-- The method `InstSelect.String`. -/
def InstSelect.string (inst : InstSelect) : String × InstSelect :=
  ((inst.type).1.string ++ " " ++ (inst.type).2.LocalIdent.Ident, (inst.type).2)

/-- The method `InstSelect.LLString`. -/
def InstSelect.LLString (inst : InstSelect) : String :=
  inst.LocalIdent.Ident ++ " = "
    ++ "select"
    ++ String.join (inst.FastMathFlags.map fun flag => " " ++ flag.string)
    ++ " " ++ inst.Cond.string ++ ", " ++ inst.X.string ++ ", " ++ inst.Y.string
    ++ metadataString inst.Metadata

/-! ### va_arg -/

/-- The struct `InstVAArg`. -/
structure InstVAArg where
  LocalIdent : LocalIdent
  ArgList : Value
  ArgType : types.Typ
  Metadata : List MetadataAttachment

/-- The constructor `NewVAArg(argList, argType)`. -/
def NewVAArg (argList : Value) (argType : types.Typ) : InstVAArg :=
  { LocalIdent := LocalIdent.zero, ArgList := argList, ArgType := argType, Metadata := [] }

/-- The method `InstVAArg.Type`. -/
def InstVAArg.type (inst : InstVAArg) : types.Typ := inst.ArgType

/-- The method `InstVAArg.String`. -/
def InstVAArg.string (inst : InstVAArg) : String :=
  inst.type.string ++ " " ++ inst.LocalIdent.Ident

/-- The method `InstVAArg.LLString`. -/
def InstVAArg.LLString (inst : InstVAArg) : String :=
  inst.LocalIdent.Ident ++ " = "
    ++ "va_arg " ++ inst.ArgList.string ++ ", " ++ inst.ArgType.string
    ++ metadataString inst.Metadata

/-! ### landingpad -/

/-- The struct `Clause`; the field `Type` of the source is `clauseType`. -/
structure Clause where
  clauseType : ClauseType
  X : Value

/-- The constructor `NewClause(clauseType, x)`. -/
def NewClause (clauseType : ClauseType) (x : Value) : Clause :=
  { clauseType := clauseType, X := x }

/-- The method `Clause.String`. -/
def Clause.string (clause : Clause) : String :=
  clause.clauseType.string ++ " " ++ clause.X.string

/-- The struct `InstLandingPad`. -/
structure InstLandingPad where
  LocalIdent : LocalIdent
  ResultType : types.Typ
  Cleanup : Bool
  Clauses : List Clause
  Metadata : List MetadataAttachment

/-- The constructor `NewLandingPad(resultType, clauses...)`. -/
def NewLandingPad (resultType : types.Typ) (clauses : List Clause) : InstLandingPad :=
  { LocalIdent := LocalIdent.zero, ResultType := resultType, Cleanup := false,
    Clauses := clauses, Metadata := [] }

/-- The method `InstLandingPad.Type`. -/
def InstLandingPad.type (inst : InstLandingPad) : types.Typ := inst.ResultType

/-- The method `InstLandingPad.String`. -/
def InstLandingPad.string (inst : InstLandingPad) : String :=
  inst.type.string ++ " " ++ inst.LocalIdent.Ident

/-- The method `InstLandingPad.LLString`. -/
def InstLandingPad.LLString (inst : InstLandingPad) : String :=
  inst.LocalIdent.Ident ++ " = "
    ++ "landingpad " ++ inst.ResultType.string
    ++ (if inst.Cleanup then "\n\t\tcleanup" else "")
    ++ String.join (inst.Clauses.map fun clause => "\n\t\t" ++ clause.string)
    ++ metadataString inst.Metadata

end ir

/-! ## Package `ir`: exception pads, terminators and blocks -/

namespace ir

open types value enum

/-- Modelled from the spec: an exception scope (another pad or the `none`
sentinel), a non-owning reference of which only `Ident()` is used; the
declaration of `ExceptionScope` is not among the sources. -/
structure ExceptionScope where
  Ident : String

/-- Modelled from the spec: an unwind target (a basic block or the caller), a
non-owning reference of which only `Ident()` is used; the declaration of
`UnwindTarget` is not among the sources. -/
structure UnwindTarget where
  Ident : String

/-- Modelled from the spec: the catchswitch terminator, which records the
exception scope, the handler blocks and the unwind target it is built from;
the file of the terminators is not among the sources. Blocks are referred to by
their local identifiers. -/
structure TermCatchSwitch where
  LocalIdent : LocalIdent
  Scope : ExceptionScope
  Handlers : List ir.LocalIdent
  UnwindTarget : UnwindTarget
  Metadata : List MetadataAttachment

/-- Modelled from the spec: the constructor `NewCatchSwitch`. -/
def NewCatchSwitch (scope : ExceptionScope) (handlers : List LocalIdent)
    (unwindTarget : UnwindTarget) : TermCatchSwitch :=
  { LocalIdent := LocalIdent.zero, Scope := scope, Handlers := handlers,
    UnwindTarget := unwindTarget, Metadata := [] }

/-! ### catchpad -/

/-- The struct `InstCatchPad`. -/
structure InstCatchPad where
  LocalIdent : LocalIdent
  Scope : TermCatchSwitch
  Args : List Value
  Metadata : List MetadataAttachment

/-- The constructor `NewCatchPad(scope, args...)`. -/
def NewCatchPad (scope : TermCatchSwitch) (args : List Value) : InstCatchPad :=
  { LocalIdent := LocalIdent.zero, Scope := scope, Args := args, Metadata := [] }

/-- The method `InstCatchPad.Type`. -/
def InstCatchPad.type (_inst : InstCatchPad) : types.Typ := Token

/-- The method `InstCatchPad.String`. -/
def InstCatchPad.string (inst : InstCatchPad) : String :=
  inst.type.string ++ " " ++ inst.LocalIdent.Ident

/-- The method `InstCatchPad.LLString`. -/
def InstCatchPad.LLString (inst : InstCatchPad) : String :=
  inst.LocalIdent.Ident ++ " = "
    ++ "catchpad within " ++ inst.Scope.LocalIdent.Ident ++ " ["
    ++ ", ".intercalate (inst.Args.map fun arg => arg.string)
    ++ "]"
    ++ metadataString inst.Metadata

/-! ### cleanuppad -/

/-- The struct `InstCleanupPad`. -/
structure InstCleanupPad where
  LocalIdent : LocalIdent
  Scope : ExceptionScope
  Args : List Value
  Metadata : List MetadataAttachment

/-- The constructor `NewCleanupPad(scope, args...)`. -/
def NewCleanupPad (scope : ExceptionScope) (args : List Value) : InstCleanupPad :=
  { LocalIdent := LocalIdent.zero, Scope := scope, Args := args, Metadata := [] }

/-- The method `InstCleanupPad.Type`. -/
def InstCleanupPad.type (_inst : InstCleanupPad) : types.Typ := Token

/-- The method `InstCleanupPad.String`. -/
def InstCleanupPad.string (inst : InstCleanupPad) : String :=
  inst.type.string ++ " " ++ inst.LocalIdent.Ident

/-- The method `InstCleanupPad.LLString`. -/
def InstCleanupPad.LLString (inst : InstCleanupPad) : String :=
  inst.LocalIdent.Ident ++ " = "
    ++ "cleanuppad within " ++ inst.Scope.Ident ++ " ["
    ++ ", ".intercalate (inst.Args.map fun arg => arg.string)
    ++ "]"
    ++ metadataString inst.Metadata

/-! ### terminators -/

/-- Modelled from the spec: the ret terminator; no return value is a void
return. The file of the terminators is not among the sources. -/
structure TermRet where
  X : Option Value
  Metadata : List MetadataAttachment

/-- Modelled from the spec: the constructor `NewRet`. -/
def NewRet (x : Option Value) : TermRet := { X := x, Metadata := [] }

/-- Modelled from the spec: the unconditional br terminator. -/
structure TermBr where
  Target : LocalIdent
  Metadata : List MetadataAttachment

/-- Modelled from the spec: the constructor `NewBr`. -/
def NewBr (target : LocalIdent) : TermBr := { Target := target, Metadata := [] }

/-- Modelled from the spec: the conditional br terminator. -/
structure TermCondBr where
  Cond : Value
  TargetTrue : LocalIdent
  TargetFalse : LocalIdent
  Metadata : List MetadataAttachment

/-- Modelled from the spec: the constructor `NewCondBr`. -/
def NewCondBr (cond : Value) (targetTrue targetFalse : LocalIdent) : TermCondBr :=
  { Cond := cond, TargetTrue := targetTrue, TargetFalse := targetFalse, Metadata := [] }

/-- Modelled from the spec: a case of a switch terminator. -/
structure Case where
  X : Value
  Target : LocalIdent

/-- Modelled from the spec: the switch terminator. -/
structure TermSwitch where
  X : Value
  TargetDefault : LocalIdent
  Cases : List Case
  Metadata : List MetadataAttachment

/-- Modelled from the spec: the constructor `NewSwitch`. -/
def NewSwitch (x : Value) (targetDefault : LocalIdent) (cases : List Case) : TermSwitch :=
  { X := x, TargetDefault := targetDefault, Cases := cases, Metadata := [] }

/-- Modelled from the spec: the indirectbr terminator. -/
structure TermIndirectBr where
  Addr : constant.Constant
  ValidTargets : List LocalIdent
  Metadata : List MetadataAttachment

/-- Modelled from the spec: the constructor `NewIndirectBr`. -/
def NewIndirectBr (addr : constant.Constant) (validTargets : List LocalIdent) : TermIndirectBr :=
  { Addr := addr, ValidTargets := validTargets, Metadata := [] }

/-- Modelled from the spec: the invoke terminator, which like a call caches the
type derived from its invokee. -/
structure TermInvoke where
  LocalIdent : LocalIdent
  Invokee : Value
  Args : List Value
  Normal : ir.LocalIdent
  Exception : ir.LocalIdent
  Typ : Option types.Typ
  Metadata : List MetadataAttachment

/-- Modelled from the spec: the constructor `NewInvoke`. Terminators follow the
pattern of the instructions, and a non-pointer callee type is an invariant
violation at construction, so the type is derived as for a call: the invokee
must be a pointer to a function, whose signature is cached when variadic and
whose return type is cached otherwise. -/
def NewInvoke (invokee : Value) (args : List Value) (normal exception : LocalIdent) :
    Option TermInvoke :=
  match invokee.type with
  | Typ.PointerType elem _ =>
    match elem with
    | Typ.FuncType ret params variadic =>
      some { LocalIdent := LocalIdent.zero, Invokee := invokee, Args := args, Normal := normal,
             Exception := exception,
             Typ := some (if variadic then Typ.FuncType ret params variadic else ret),
             Metadata := [] }
    | _ => none
  | _ => none

/-- Modelled from the spec: the resume terminator. -/
structure TermResume where
  X : Value
  Metadata : List MetadataAttachment

/-- Modelled from the spec: the constructor `NewResume`. -/
def NewResume (x : Value) : TermResume := { X := x, Metadata := [] }

/-- Modelled from the spec: the catchret terminator. -/
structure TermCatchRet where
  From : InstCatchPad
  To : LocalIdent
  Metadata : List MetadataAttachment

/-- Modelled from the spec: the constructor `NewCatchRet`. -/
def NewCatchRet (src : InstCatchPad) (target : LocalIdent) : TermCatchRet :=
  { From := src, To := target, Metadata := [] }

/-- Modelled from the spec: the cleanupret terminator. -/
structure TermCleanupRet where
  From : InstCleanupPad
  To : UnwindTarget
  Metadata : List MetadataAttachment

/-- Modelled from the spec: the constructor `NewCleanupRet`. -/
def NewCleanupRet (src : InstCleanupPad) (target : UnwindTarget) : TermCleanupRet :=
  { From := src, To := target, Metadata := [] }

/-- Modelled from the spec: the unreachable terminator. -/
structure TermUnreachable where
  Metadata : List MetadataAttachment

/-- Modelled from the spec: the constructor `NewUnreachable`. -/
def NewUnreachable : TermUnreachable := { Metadata := [] }

/-- Modelled from the spec: the closed set of terminators that the field `Term`
of a block may hold. -/
inductive Terminator
  | Ret (term : TermRet)
  | Br (term : TermBr)
  | CondBr (term : TermCondBr)
  | Switch (term : TermSwitch)
  | IndirectBr (term : TermIndirectBr)
  | Invoke (term : TermInvoke)
  | Resume (term : TermResume)
  | CatchSwitch (term : TermCatchSwitch)
  | CatchRet (term : TermCatchRet)
  | CleanupRet (term : TermCleanupRet)
  | Unreachable (term : TermUnreachable)

/-- Modelled from the spec: the instructions that the list `Insts` of a block
may hold: the nine instructions of `inst_other.go`, and `Other` for an
instruction of any other family, kept as the text it prints. -/
inductive Instruction
  | ICmp (inst : InstICmp)
  | FCmp (inst : InstFCmp)
  | Phi (inst : InstPhi)
  | Select (inst : InstSelect)
  | Call (inst : InstCall)
  | VAArg (inst : InstVAArg)
  | LandingPad (inst : InstLandingPad)
  | CatchPad (inst : InstCatchPad)
  | CleanupPad (inst : InstCleanupPad)
  | Other (text : String)

/-- Modelled from the spec: a basic block, which owns an ordered list of
instructions and a terminator (`none` while no terminator is set); the
declaration of `Block` is not among the sources. -/
structure Block where
  LocalIdent : LocalIdent
  Insts : List Instruction
  Term : Option Terminator

end ir

/-! ## Package `ir`: the helpers of a block -/

namespace ir

open types value enum

/-- The statement `block.Insts = append(block.Insts, inst)`. -/
def Block.appendInst (block : Block) (inst : Instruction) : Block :=
  { block with Insts := block.Insts ++ [inst] }

/-- The statement `block.Term = term`. -/
def Block.setTerm (block : Block) (term : Terminator) : Block :=
  { block with Term := some term }

/-- The method `Block.NewICmp`. The result pairs what the call returns (`none`
when the constructor panics, before the append is reached) with the block as
the call leaves it. -/
def Block.NewICmp (block : Block) (pred : IPred) (x y : Value) : Option InstICmp × Block :=
  match ir.NewICmp pred x y with
  | none => (none, block)
  | some inst => (some inst, block.appendInst (Instruction.ICmp inst))

/-- The method `Block.NewFCmp`. -/
def Block.NewFCmp (block : Block) (pred : FPred) (x y : Value) : Option InstFCmp × Block :=
  match ir.NewFCmp pred x y with
  | none => (none, block)
  | some inst => (some inst, block.appendInst (Instruction.FCmp inst))

/-- The method `Block.NewPhi`. -/
def Block.NewPhi (block : Block) (incs : List Incoming) : Option InstPhi × Block :=
  match ir.NewPhi incs with
  | none => (none, block)
  | some inst => (some inst, block.appendInst (Instruction.Phi inst))

/-- The method `Block.NewSelect`. -/
def Block.NewSelect (block : Block) (cond x y : Value) : InstSelect × Block :=
  (ir.NewSelect cond x y, block.appendInst (Instruction.Select (ir.NewSelect cond x y)))

/-- The method `Block.NewCall`. -/
def Block.NewCall (block : Block) (callee : Value) (args : List Value) :
    Option InstCall × Block :=
  match ir.NewCall callee args with
  | none => (none, block)
  | some inst => (some inst, block.appendInst (Instruction.Call inst))

/-- The method `Block.NewVAArg`. -/
def Block.NewVAArg (block : Block) (vaList : Value) (argType : types.Typ) : InstVAArg × Block :=
  (ir.NewVAArg vaList argType, block.appendInst (Instruction.VAArg (ir.NewVAArg vaList argType)))

/-- The method `Block.NewLandingPad`. -/
def Block.NewLandingPad (block : Block) (resultType : types.Typ) (clauses : List Clause) :
    InstLandingPad × Block :=
  (ir.NewLandingPad resultType clauses,
    block.appendInst (Instruction.LandingPad (ir.NewLandingPad resultType clauses)))

/-- The method `Block.NewCatchPad`. -/
def Block.NewCatchPad (block : Block) (scope : TermCatchSwitch) (args : List Value) :
    InstCatchPad × Block :=
  (ir.NewCatchPad scope args, block.appendInst (Instruction.CatchPad (ir.NewCatchPad scope args)))

/-- The method `Block.NewCleanupPad`. -/
def Block.NewCleanupPad (block : Block) (scope : ExceptionScope) (args : List Value) :
    InstCleanupPad × Block :=
  (ir.NewCleanupPad scope args,
    block.appendInst (Instruction.CleanupPad (ir.NewCleanupPad scope args)))

/-- The method `Block.NewRet`. -/
def Block.NewRet (block : Block) (x : Option Value) : TermRet × Block :=
  (ir.NewRet x, block.setTerm (Terminator.Ret (ir.NewRet x)))

/-- The method `Block.NewBr`. -/
def Block.NewBr (block : Block) (target : ir.LocalIdent) : TermBr × Block :=
  (ir.NewBr target, block.setTerm (Terminator.Br (ir.NewBr target)))

/-- The method `Block.NewCondBr`. -/
def Block.NewCondBr (block : Block) (cond : Value) (targetTrue targetFalse : ir.LocalIdent) :
    TermCondBr × Block :=
  (ir.NewCondBr cond targetTrue targetFalse,
    block.setTerm (Terminator.CondBr (ir.NewCondBr cond targetTrue targetFalse)))

/-- The method `Block.NewSwitch`. -/
def Block.NewSwitch (block : Block) (x : Value) (targetDefault : ir.LocalIdent)
    (cases : List Case) : TermSwitch × Block :=
  (ir.NewSwitch x targetDefault cases,
    block.setTerm (Terminator.Switch (ir.NewSwitch x targetDefault cases)))

/-- The method `Block.NewIndirectBr`. -/
def Block.NewIndirectBr (block : Block) (addr : constant.Constant)
    (validTargets : List ir.LocalIdent) : TermIndirectBr × Block :=
  (ir.NewIndirectBr addr validTargets,
    block.setTerm (Terminator.IndirectBr (ir.NewIndirectBr addr validTargets)))

/-- The method `Block.NewInvoke`. -/
def Block.NewInvoke (block : Block) (invokee : Value) (args : List Value)
    (normal exception : ir.LocalIdent) : Option TermInvoke × Block :=
  match ir.NewInvoke invokee args normal exception with
  | none => (none, block)
  | some term => (some term, block.setTerm (Terminator.Invoke term))

/-- The method `Block.NewResume`. -/
def Block.NewResume (block : Block) (x : Value) : TermResume × Block :=
  (ir.NewResume x, block.setTerm (Terminator.Resume (ir.NewResume x)))

/-- The method `Block.NewCatchSwitch`. -/
def Block.NewCatchSwitch (block : Block) (scope : ExceptionScope)
    (handlers : List ir.LocalIdent) (unwindTarget : UnwindTarget) : TermCatchSwitch × Block :=
  (ir.NewCatchSwitch scope handlers unwindTarget,
    block.setTerm (Terminator.CatchSwitch (ir.NewCatchSwitch scope handlers unwindTarget)))

/-- The method `Block.NewCatchRet`. -/
def Block.NewCatchRet (block : Block) (src : InstCatchPad) (target : ir.LocalIdent) :
    TermCatchRet × Block :=
  (ir.NewCatchRet src target, block.setTerm (Terminator.CatchRet (ir.NewCatchRet src target)))

/-- The method `Block.NewCleanupRet`. -/
def Block.NewCleanupRet (block : Block) (src : InstCleanupPad) (target : UnwindTarget) :
    TermCleanupRet × Block :=
  (ir.NewCleanupRet src target,
    block.setTerm (Terminator.CleanupRet (ir.NewCleanupRet src target)))

/-- The method `Block.NewUnreachable`. -/
def Block.NewUnreachable (block : Block) : TermUnreachable × Block :=
  (ir.NewUnreachable, block.setTerm (Terminator.Unreachable ir.NewUnreachable))

end ir

/-! ## Package `asm/enum`: the keyword lookups -/

namespace enum

/-- Modelled from the spec: a function attribute, an enumeration over an
unsigned integer whose 42 variants have the values 0 (`alwaysinline`) to 41
(`writeonly`); the package `ir/enum` is not among the sources. -/
structure FuncAttr where
  val : Nat
  deriving DecidableEq, Repr

end enum

namespace asmenum

open enum

/-- The constant `_ClauseType_name`. -/
def _ClauseType_name : String := "catchfilter"

/-- The table `_ClauseType_index`. -/
def _ClauseType_index : List Nat := [0, 5, 11]

/-- The constant `_FuncAttr_name`. -/
def _FuncAttr_name : String :=
  "alwaysinlineargmemonlybuiltincoldconvergentinaccessiblemem_or_argmemonlyinaccessiblememonlyinlinehintjumptableminsizenakednobuiltinnoduplicatenofreenoimplicitfloatnoinlinenonlazybindnorecursenoredzonenoreturnnosyncnounwindoptnoneoptsizereadnonereadonlyreturns_twicesafestacksanitize_addresssanitize_hwaddresssanitize_memorysanitize_memtagsanitize_threadspeculatablespeculative_load_hardeningsspsspreqsspstrongstrictfpuwtablewillreturnwriteonly"

/-- The table `_FuncAttr_index`. -/
def _FuncAttr_index : List Nat :=
  [0, 12, 22, 29, 33, 43, 72, 91, 101, 110, 117, 122, 131, 142, 148, 163, 171, 182, 191, 200,
   208, 214, 222, 229, 236, 244, 252, 265, 274, 290, 308, 323, 338, 353, 365, 391, 394, 400,
   409, 417, 424, 434, 443]

/-- Go's slice expression `name[lo:hi]` on a string of one-byte characters. -/
def sliceString (name : String) (lo hi : Nat) : String :=
  String.mk ((name.data.drop lo).take (hi - lo))

/-- The loop `for i := range index[:len(index)-1]` of the lookups: the first
position `i` at which `s == name[index[i]:index[i+1]]`, or `none` when the loop
runs to its end. -/
def lookup (name : String) (index : List Nat) (s : String) : Option Nat :=
  (List.range (index.length - 1)).find? fun i =>
    s == sliceString name (index.getD i 0) (index.getD (i + 1) 0)

/-- The function `ClauseTypeFromString`: the empty string gives the value 0, a
string found at position `i` the value `i + 1`, and any other string the
panic. -/
def ClauseTypeFromString (s : String) : Option ClauseType :=
  if s.length = 0 then some { val := 0 }
  else
    match lookup _ClauseType_name _ClauseType_index s with
    | some i => some { val := i + 1 }
    | none => none

/-- The function `FuncAttrFromString`: the empty string gives the value 0, a
string found at position `i` the value `i`, and any other string the panic. -/
def FuncAttrFromString (s : String) : Option FuncAttr :=
  if s.length = 0 then some { val := 0 }
  else
    match lookup _FuncAttr_name _FuncAttr_index s with
    | some i => some { val := i }
    | none => none

end asmenum

open types constant value enum ir

/-! ## The descent of the specification -/

/-- The constant under an inrange tag: an index of the specification is an
integer constant, an integer vector, or an inrange-tagged wrapper of one. -/
def specUntag : Constant → Constant
  | Constant.Index c _ => c
  | c => c

/-- Whether a lane is the integer constant of value `k`. -/
def isIntOfValue (k : Int) : Constant → Bool
  | Constant.Int _ x => decide (x = k)
  | _ => false

/-- The compile-time integer of a struct index in the words of the
specification: `k` for an integer constant `k` and for a vector index that is
uniform across its lanes (at least one lane, all lanes the integer constant
`k`), and 0 for a zeroinitializer index. -/
def specFieldIndex : Constant → Option Int
  | Constant.Int _ k => some k
  | Constant.Vector _ _ _ (Constant.Int _ k :: lanes) =>
    if lanes.all (isIntOfValue k) then some k else none
  | Constant.ZeroInitializer _ => some 0
  | _ => none

/-- The one-step descent in the words of the specification: an array or a
vector descends to its element type for any index whatsoever, a struct to
`fields[k]` for an index, inrange-tagged or not, whose compile-time integer is
`k` (an integer constant `k`, a uniform vector of `k`, or a zeroinitializer
for `k = 0`); nothing else is a well-typed step. -/
def specDescend (t : Typ) (index : Constant) : Option Typ :=
  match t with
  | Typ.ArrayType _ elem => some elem
  | Typ.VectorType _ _ elem => some elem
  | Typ.StructType _ fields _ _ =>
    match specFieldIndex (specUntag index) with
    | some k => if 0 ≤ k then fields[k.toNat]? else none
    | none => none
  | _ => none

/-- The fold of `specDescend` over the indices after the 0th; `none` when some
step is not well-typed. -/
def specLeaf (t : Typ) : List Constant → Option Typ
  | [] => some t
  | index :: rest =>
    match specDescend t index with
    | none => none
    | some t2 => specLeaf t2 rest

/-- The field lists of the structs met on the walk are Go slices, whose length
is an `int`: each of them has fewer than `2^63` fields. -/
def fieldsFit (t : Typ) : List Constant → Prop
  | [] => True
  | index :: rest =>
    (match t with
      | Typ.StructType _ fields _ _ => fields.length < 2 ^ 63
      | _ => True)
    ∧ (match specDescend t index with
      | some t2 => fieldsFit t2 rest
      | none => True)

/-- The index in which every `Index` wrapper is replaced by the constant it
wraps, in the words of the specification of the inrange tag. -/
def stripInRange : Constant → Constant
  | Constant.Index c _ => stripInRange c
  | Constant.Int bits X => Constant.Int bits X
  | Constant.Vector len sc elem elems => Constant.Vector len sc elem elems
  | Constant.ZeroInitializer t => Constant.ZeroInitializer t
  | Constant.Other t => Constant.Other t

/-- An index whose `Index` wrapper, if any, does not wrap another `Index`. -/
def singlyWrapped : Constant → Prop
  | Constant.Index (Constant.Index _ _) _ => False
  | _ => True

/-- The frame of an append-on-block helper: the instruction list of `b2` is that
of `b` with `inst` appended at the end, so the earlier instructions and their
order are unchanged and the length grows by one, and the terminator is
unchanged. -/
def appendedTo (b b2 : Block) (inst : Instruction) : Prop :=
  b2.Insts = b.Insts ++ [inst]
    ∧ b2.Insts.take b.Insts.length = b.Insts
    ∧ b2.Insts.length = b.Insts.length + 1
    ∧ b2.Term = b.Term

/-- The frame of a terminator helper: the terminator of `b2` is `term` and the
instruction list is that of `b`. -/
def terminatedBy (b b2 : Block) (term : Terminator) : Prop :=
  b2.Term = some term ∧ b2.Insts = b.Insts

/-- The keywords of the clause types, in the order of their values 1 and 2. -/
def clauseTypeKeywords : List String := ["catch", "filter"]

/-- The 42 keywords of the function attributes, `alwaysinline` to `writeonly`,
in the order of their values 0 to 41. -/
def funcAttrKeywords : List String :=
  ["alwaysinline", "argmemonly", "builtin", "cold", "convergent",
   "inaccessiblemem_or_argmemonly", "inaccessiblememonly", "inlinehint", "jumptable",
   "minsize", "naked", "nobuiltin", "noduplicate", "nofree", "noimplicitfloat", "noinline",
   "nonlazybind", "norecurse", "noredzone", "noreturn", "nosync", "nounwind", "optnone",
   "optsize", "readnone", "readonly", "returns_twice", "safestack", "sanitize_address",
   "sanitize_hwaddress", "sanitize_memory", "sanitize_memtag", "sanitize_thread",
   "speculatable", "speculative_load_hardening", "ssp", "sspreq", "sspstrong", "strictfp",
   "uwtable", "willreturn", "writeonly"]

/-- An index of value `k` in the words of the claim on struct steps: an integer
constant of value `k`, or a constant vector with at least one lane whose lanes
are all integer constants of value `k`. -/
def indexOfValue (c : Constant) (k : Int) : Prop :=
  (∃ b, c = Constant.Int b k)
    ∨ ∃ len sc elem b0 lanes,
        c = Constant.Vector len sc elem (Constant.Int b0 k :: lanes)
          ∧ ∀ lane ∈ lanes, ∃ b, lane = Constant.Int b k

/-! ## Sample values -/

/-- The struct type `{ i32, [10 x i8] }` of the scenario of the specification. -/
def structS : Typ :=
  Typ.StructType none [Typ.IntType 32, Typ.ArrayType 10 (Typ.IntType 8)] false false

/-- The operand `<4 x i32> %a` of the scenario of the specification. -/
def vecA : Value :=
  { type := Typ.VectorType 4 false (Typ.IntType 32), Ident := "%a", string := "<4 x i32> %a" }

/-- The operand `<4 x i32> %b`. -/
def vecB : Value :=
  { type := Typ.VectorType 4 false (Typ.IntType 32), Ident := "%b", string := "<4 x i32> %b" }

/-- A callee of type `i32 ()* ()*`: a pointer to a non-variadic function whose
return type is itself a function type. -/
def calleeReturningFunc : Value :=
  { type := Typ.PointerType (Typ.FuncType (Typ.FuncType (Typ.IntType 32) [] false) [] false) 0,
    Ident := "@f", string := "i32 ()* ()* @f" }

/-- The callee `i32 (i8*, ...)* @printf` of the scenario of the specification. -/
def calleePrintf : Value :=
  { type := Typ.PointerType
      (Typ.FuncType (Typ.IntType 32) [Typ.PointerType (Typ.IntType 8) 0] true) 0,
    Ident := "@printf", string := "i32 (i8*, ...)* @printf" }

/-- A non-variadic callee `i32 (i8*)* @puts`. -/
def calleePuts : Value :=
  { type := Typ.PointerType
      (Typ.FuncType (Typ.IntType 32) [Typ.PointerType (Typ.IntType 8) 0] false) 0,
    Ident := "@puts", string := "i32 (i8*)* @puts" }

/-- The argument `i8* %s`. -/
def argS : Value :=
  { type := Typ.PointerType (Typ.IntType 8) 0, Ident := "%s", string := "i8* %s" }

/-- The call `call void @f(i32 %x)` of the scenario of the specification, before
its type is derived. -/
def callVoidF : InstCall :=
  { LocalIdent := LocalIdent.zero,
    Callee := { type := Typ.PointerType (Typ.FuncType Typ.VoidType [Typ.IntType 32] false) 0,
                Ident := "@f", string := "void (i32)* @f" },
    Args := [{ type := Typ.IntType 32, Ident := "%x", string := "i32 %x" }],
    Typ := none, Tail := Tail.TailNone, FastMathFlags := [],
    CallingConv := CallingConv.CallingConvNone, ReturnAttrs := [], AddrSpace := 0,
    FuncAttrs := [], OperandBundles := [], Metadata := [] }

/-- Two incomings of different types: `i32 %a` from `%bb1` and `i64 %b` from
`%bb2`. -/
def mixedIncs : List Incoming :=
  [ NewIncoming { type := Typ.IntType 32, Ident := "%a", string := "i32 %a" } { body := "bb1" },
    NewIncoming { type := Typ.IntType 64, Ident := "%b", string := "i64 %b" } { body := "bb2" } ]

/-- Two incomings of the same type: `i32 %a` from `%bb1` and `i32 %c` from
`%bb2`. -/
def sameIncs : List Incoming :=
  [ NewIncoming { type := Typ.IntType 32, Ident := "%a", string := "i32 %a" } { body := "bb1" },
    NewIncoming { type := Typ.IntType 32, Ident := "%c", string := "i32 %c" } { body := "bb2" } ]

/-- The named struct type `%T = type { i8, i16, i64 }`. -/
def structT : Typ :=
  Typ.StructType (some "T") [Typ.IntType 8, Typ.IntType 16, Typ.IntType 64] false false

/-- The index `inrange i32 0`. -/
def inrangeZero : Constant := Constant.Index (Constant.Int 32 0) true

/-- An index wrapped twice: `Index` around `inrange i32 2`. -/
def twiceWrappedTwo : Constant := Constant.Index (Constant.Index (Constant.Int 32 2) true) true

/-- The vector index `<2 x i32> <i32 1, i32 1>`, uniform across its lanes. -/
def uniformLanes : Constant :=
  Constant.Vector 2 false (Typ.IntType 32) [Constant.Int 32 1, Constant.Int 32 1]

/-- A sample of the `String()` methods declared outside the sources: an integer
prints as its type and value, a zeroinitializer as its type and the keyword,
and any other constant as the global `@g` of its type. -/
def sampleString : Constant → String
  | Constant.Int bits X => "i" ++ toString bits ++ " " ++ toString X
  | Constant.ZeroInitializer t => t.string ++ " zeroinitializer"
  | Constant.Other t => t.string ++ " @g"
  | _ => "<>"

/-- The expression `getelementptr inbounds (%T, %T* @g, inrange i32 0, i32 2)` of
the scenario of the specification, with its types cached. -/
def gepInrange : ExprGetElementPtr :=
  { ElemType := some structT, Src := Constant.Other (Typ.PointerType structT 0),
    Indices := [inrangeZero, Constant.Int 32 2],
    Typ := some (Typ.PointerType (Typ.IntType 64) 0), InBounds := true }

/-- The operand `i32 %a`. -/
def valA : Value := { type := Typ.IntType 32, Ident := "%a", string := "i32 %a" }

/-- The operand `i32 %b`. -/
def valB : Value := { type := Typ.IntType 32, Ident := "%b", string := "i32 %b" }

/-- A block `%entry` that already holds one instruction and a terminator. -/
def blockEntry : Block :=
  { LocalIdent := { body := "entry" }, Insts := [Instruction.Other "%x = add i32 1, 2"],
    Term := some (Terminator.Unreachable NewUnreachable) }

/-- The operand `<4 x float> %v`. -/
def vecFloat : Value :=
  { type := Typ.VectorType 4 false (Typ.FloatType FloatKind.float), Ident := "%v",
    string := "<4 x float> %v" }

/-- The landingpad result type `{ i8*, i32 }`. -/
def padResult : Typ :=
  Typ.StructType none [Typ.PointerType (Typ.IntType 8) 0, Typ.IntType 32] false false

/-- The call built by `NewCall` on `i32 (i8*, ...)* @printf` with the argument
`i8* %s`: the signature of the variadic callee is cached. -/
def callPrintf : InstCall :=
  { LocalIdent := LocalIdent.zero, Callee := calleePrintf, Args := [argS],
    Typ := some (Typ.FuncType (Typ.IntType 32) [Typ.PointerType (Typ.IntType 8) 0] true),
    Tail := Tail.TailNone, FastMathFlags := [], CallingConv := CallingConv.CallingConvNone,
    ReturnAttrs := [], AddrSpace := 0, FuncAttrs := [], OperandBundles := [], Metadata := [] }

/-- The icmp built by `NewICmp eq i32 %a, %b`, with its type `i1` cached. -/
def icmpAB : InstICmp :=
  { LocalIdent := LocalIdent.zero, Pred := IPred.IPredEQ, X := valA, Y := valB,
    Typ := some (Typ.IntType 1), Metadata := [] }

/-! ## Lemmas on `gepType` -/

theorem bigInt64_of_small (k : Int) (h0 : 0 ≤ k) (h1 : k < 2 ^ 63) : bigInt64 k = k := by
  obtain ⟨n, rfl⟩ := Int.eq_ofNat_of_zero_le h0
  have hn : n < 2 ^ 63 := by exact_mod_cast h1
  have hmod : n % 2 ^ 64 = n := Nat.mod_eq_of_lt (by omega)
  simp only [bigInt64, Int.natAbs_ofNat, hmod]
  have h2 : ¬ ((n : Int) < 0) := by omega
  simp only [h2, if_false]
  rw [if_pos h1]

theorem gepWrap_of_scalar (index0 : Constant) (e : Typ)
    (h : ∀ len sc el, (unpackIndex index0).type ≠ Typ.VectorType len sc el) :
    gepWrap index0 e = NewPointer e := by
  unfold gepWrap
  split
  · next len sc el heq => exact absurd heq (h len sc el)
  · rfl

theorem gepWrap_of_vector (index0 : Constant) (e : Typ) (len : Nat) (sc : Bool) (el : Typ)
    (h : (unpackIndex index0).type = Typ.VectorType len sc el) :
    gepWrap index0 e = NewVector len (NewPointer e) := by
  unfold gepWrap
  rw [h]

theorem unpackIndex_type_of_type (c : Constant) (len : Nat) (sc : Bool) (el : Typ)
    (h : (unpackIndex c).type = Typ.VectorType len sc el) :
    ∃ len2 sc2 el2, c.type = Typ.VectorType len2 sc2 el2 := by
  cases c with
  | Index c2 r => exact ⟨len, sc, el, by simpa [unpackIndex, Constant.type] using h⟩
  | Int bits k => exact ⟨len, sc, el, by simpa [unpackIndex] using h⟩
  | Vector l s e es => exact ⟨len, sc, el, by simpa [unpackIndex] using h⟩
  | ZeroInitializer t => exact ⟨len, sc, el, by simpa [unpackIndex] using h⟩
  | Other t => exact ⟨len, sc, el, by simpa [unpackIndex] using h⟩

theorem gepWalk_append (pre : List Constant) :
    ∀ (t : Typ) (post : List Constant),
      gepWalk t (pre ++ post) =
        match gepWalk t pre with
        | none => none
        | some t2 => gepWalk t2 post := by
  induction pre with
  | nil => intro t post; simp [gepWalk]
  | cons index pre ih =>
    intro t post
    simp only [List.cons_append, gepWalk]
    cases gepStep t (unpackIndex index) with
    | none => rfl
    | some t2 => exact ih t2 post

theorem gepType_cons (E : Typ) (i0 : Constant) (rest : List Constant) (leaf : Typ)
    (h : gepWalk E rest = some leaf) : gepType E (i0 :: rest) = some (gepWrap i0 leaf) := by
  simp [gepType, h]

theorem gepType_cons_some (E : Typ) (i0 : Constant) (rest : List Constant) (T : Typ)
    (h : gepType E (i0 :: rest) = some T) :
    ∃ leaf, gepWalk E rest = some leaf ∧ T = gepWrap i0 leaf := by
  simp only [gepType] at h
  cases hw : gepWalk E rest with
  | none => simp [hw] at h
  | some leaf =>
    simp only [hw, Option.some.injEq] at h
    exact ⟨leaf, rfl, h.symm⟩

theorem gepWrap_shape (i0 : Constant) (leaf : Typ) :
    gepWrap i0 leaf = NewPointer leaf ∨ ∃ n, gepWrap i0 leaf = NewVector n (NewPointer leaf) := by
  unfold gepWrap
  split
  · next len sc el _ => exact Or.inr ⟨len, rfl⟩
  · exact Or.inl rfl

/-! ## getelementptr: the claims -/

/-- C3: whenever `gepType E indices` succeeds with `T`, there is a leaf type
such that `T` is the pointer to the leaf or a vector of pointers to the leaf,
and replacing the 0th index by any constant `j0` gives the vector of `n`
pointers to the same leaf when the type of `j0` (after unpacking an `Index`) is
a vector of length `n`, and the pointer to the same leaf otherwise. Moreover
`gepType E []` and `gepType E [j0]` for a non-vector `j0` are the pointer to
`E`. -/
theorem C3_zeroth_index_decides_only_wrapper (E : Typ) (indices : List Constant) (T : Typ)
    (h : gepType E indices = some T) :
    (∃ leaf : Typ,
        (T = NewPointer leaf ∨ ∃ n, T = NewVector n (NewPointer leaf))
        ∧ ∀ i0 rest, indices = i0 :: rest → ∀ j0 : Constant,
            (∀ n sc el, (unpackIndex j0).type = Typ.VectorType n sc el →
                gepType E (j0 :: rest) = some (NewVector n (NewPointer leaf)))
            ∧ ((∀ n sc el, (unpackIndex j0).type ≠ Typ.VectorType n sc el) →
                gepType E (j0 :: rest) = some (NewPointer leaf)))
      ∧ gepType E [] = some (NewPointer E)
      ∧ ∀ j0 : Constant, (∀ n sc el, (unpackIndex j0).type ≠ Typ.VectorType n sc el) →
          gepType E [j0] = some (NewPointer E) := by
  refine ⟨?_, rfl, ?_⟩
  · cases indices with
    | nil =>
      refine ⟨E, Or.inl ?_, ?_⟩
      · simpa [gepType] using h.symm
      · intro i0 rest hnil; cases hnil
    | cons i0 rest =>
      obtain ⟨leaf, hw, hT⟩ := gepType_cons_some E i0 rest T h
      refine ⟨leaf, ?_, ?_⟩
      · rw [hT]; exact gepWrap_shape i0 leaf
      · intro i1 rest1 heq j0
        cases heq
        refine ⟨?_, ?_⟩
        · intro n sc el hv
          rw [gepType_cons E j0 rest leaf hw, gepWrap_of_vector j0 leaf n sc el hv]
        · intro hs
          rw [gepType_cons E j0 rest leaf hw, gepWrap_of_scalar j0 leaf hs]
  · intro j0 hs
    rw [gepType_cons E j0 [] E rfl, gepWrap_of_scalar j0 E hs]

/-- C3 at `S = { i32, [10 x i8] }` with the indices `(i32 0, i32 1)`: putting
the vector constant `<2 x i64> <0, 0>` in place of the 0th index gives
`<2 x [10 x i8]*>`, the same leaf under the vector wrapper. -/
theorem C3_zeroth_index_decides_only_wrapper_witness :
    gepType structS [Constant.Int 32 0, Constant.Int 32 1]
        = some (NewPointer (Typ.ArrayType 10 (Typ.IntType 8)))
      ∧ gepType structS
          [Constant.Vector 2 false (Typ.IntType 64) [Constant.Int 64 0, Constant.Int 64 0],
            Constant.Int 32 1]
        = some (NewVector 2 (NewPointer (Typ.ArrayType 10 (Typ.IntType 8))))
      ∧ gepType structS [] = some (NewPointer structS) :=
  ⟨rfl, rfl,
    (C3_zeroth_index_decides_only_wrapper structS [Constant.Int 32 0, Constant.Int 32 1]
      (NewPointer (Typ.ArrayType 10 (Typ.IntType 8))) rfl).2.1⟩

/-- C10: when the walk over the indices `pre` that follow the 0th index has
reached a pointer type, `gepType` fails on every longer index list, whatever
the next index `idx` and the indices after it are. In particular
`gepType (Pointer T) [j0, j1]` fails for all `T`, `j0`, `j1`, while
`gepType (Pointer T) [j0]` returns a type. -/
theorem C10_pointer_reached_midwalk_fails (E : Typ) (i0 : Constant) (pre : List Constant)
    (idx : Constant) (post : List Constant) (T : Typ) (a : Nat)
    (h : gepWalk E pre = some (Typ.PointerType T a)) :
    gepType E (i0 :: (pre ++ idx :: post)) = none
      ∧ (∀ (T2 : Typ) (a2 : Nat) (j0 j1 : Constant),
          gepType (Typ.PointerType T2 a2) [j0, j1] = none)
      ∧ (∀ (T2 : Typ) (a2 : Nat) (j0 : Constant),
          ∃ R, gepType (Typ.PointerType T2 a2) [j0] = some R) := by
  refine ⟨?_, ?_, ?_⟩
  · have hw : gepWalk E (pre ++ idx :: post) = none := by
      rw [gepWalk_append pre E (idx :: post), h]
      simp [gepWalk, gepStep]
    simp [gepType, hw]
  · intro T2 a2 j0 j1
    simp [gepType, gepWalk, gepStep]
  · intro T2 a2 j0
    exact ⟨gepWrap j0 (Typ.PointerType T2 a2), rfl⟩

/-- C10 at `{ i32* }`: after the index `i32 0` into the struct the current type
is `i32*`, and one more index makes `gepType` fail. -/
theorem C10_pointer_reached_midwalk_fails_witness :
    gepWalk (Typ.StructType none [Typ.PointerType (Typ.IntType 32) 0] false false)
        [Constant.Int 32 0] = some (Typ.PointerType (Typ.IntType 32) 0)
      ∧ gepType (Typ.StructType none [Typ.PointerType (Typ.IntType 32) 0] false false)
          [Constant.Int 64 0, Constant.Int 32 0, Constant.Int 64 5] = none :=
  ⟨rfl, (C10_pointer_reached_midwalk_fails
    (Typ.StructType none [Typ.PointerType (Typ.IntType 32) 0] false false)
    (Constant.Int 64 0) [Constant.Int 32 0] (Constant.Int 64 5) [] (Typ.IntType 32) 0 rfl).1⟩

/-! ## icmp and fcmp: the claims -/

/-- C4: an icmp built on an `X` of integer or pointer type has the type `i1`
and on an `X` of vector type of length `n` the type `<n x i1>`; an fcmp built
on an `X` of floating-point type has the type `i1` and on a vector of length
`n` the type `<n x i1>`. In each case the constructor succeeds and `Type()`
answers from the instruction it returns, leaving it unchanged; two
constructions whose `X` operands have the same type give the same type,
whatever the predicates and the `Y` operands are. -/
theorem C4_cmp_type_from_X_only (x y : Value) :
    (∀ (pred : IPred) (bits : Nat), x.type = Typ.IntType bits →
        ∃ inst, NewICmp pred x y = some inst ∧ inst.type = some (I1, inst))
      ∧ (∀ (pred : IPred) (elem : Typ) (a : Nat), x.type = Typ.PointerType elem a →
        ∃ inst, NewICmp pred x y = some inst ∧ inst.type = some (I1, inst))
      ∧ (∀ (pred : IPred) (n : Nat) (sc : Bool) (elem : Typ), x.type = Typ.VectorType n sc elem →
        ∃ inst, NewICmp pred x y = some inst ∧ inst.type = some (NewVector n I1, inst))
      ∧ (∀ (pred : FPred) (kind : FloatKind), x.type = Typ.FloatType kind →
        ∃ inst, NewFCmp pred x y = some inst ∧ inst.type = some (I1, inst))
      ∧ (∀ (pred : FPred) (n : Nat) (sc : Bool) (elem : Typ), x.type = Typ.VectorType n sc elem →
        ∃ inst, NewFCmp pred x y = some inst ∧ inst.type = some (NewVector n I1, inst))
      ∧ (∀ (pred pred2 : IPred) (x2 y2 : Value), x2.type = x.type →
        (NewICmp pred x y).bind (fun inst => inst.type.map Prod.fst)
          = (NewICmp pred2 x2 y2).bind (fun inst => inst.type.map Prod.fst))
      ∧ (∀ (pred pred2 : FPred) (x2 y2 : Value), x2.type = x.type →
        (NewFCmp pred x y).bind (fun inst => inst.type.map Prod.fst)
          = (NewFCmp pred2 x2 y2).bind (fun inst => inst.type.map Prod.fst)) := by
  refine ⟨?_, ?_, ?_, ?_, ?_, ?_, ?_⟩
  · intro pred bits h
    refine ⟨{ LocalIdent := LocalIdent.zero, Pred := pred, X := x, Y := y, Typ := some I1,
              Metadata := [] }, ?_, ?_⟩
    · simp [NewICmp, InstICmp.type, h]
    · simp [InstICmp.type]
  · intro pred elem a h
    refine ⟨{ LocalIdent := LocalIdent.zero, Pred := pred, X := x, Y := y, Typ := some I1,
              Metadata := [] }, ?_, ?_⟩
    · simp [NewICmp, InstICmp.type, h]
    · simp [InstICmp.type]
  · intro pred n sc elem h
    refine ⟨{ LocalIdent := LocalIdent.zero, Pred := pred, X := x, Y := y,
              Typ := some (NewVector n I1), Metadata := [] }, ?_, ?_⟩
    · simp [NewICmp, InstICmp.type, h]
    · simp [InstICmp.type]
  · intro pred kind h
    refine ⟨{ LocalIdent := LocalIdent.zero, Pred := pred, X := x, Y := y, Typ := some I1,
              FastMathFlags := [], Metadata := [] }, ?_, ?_⟩
    · simp [NewFCmp, InstFCmp.type, h]
    · simp [InstFCmp.type]
  · intro pred n sc elem h
    refine ⟨{ LocalIdent := LocalIdent.zero, Pred := pred, X := x, Y := y,
              Typ := some (NewVector n I1), FastMathFlags := [], Metadata := [] }, ?_, ?_⟩
    · simp [NewFCmp, InstFCmp.type, h]
    · simp [InstFCmp.type]
  · intro pred pred2 x2 y2 h
    simp only [NewICmp, InstICmp.type, h]
    cases x.type <;> simp [InstICmp.type]
  · intro pred pred2 x2 y2 h
    simp only [NewFCmp, InstFCmp.type, h]
    cases x.type <;> simp [InstFCmp.type]

/-- C4, the scenario of the specification: `icmp slt <4 x i32> %a, %b` has the
type `<4 x i1>`. -/
theorem C4_cmp_type_from_X_only_witness :
    vecA.type = Typ.VectorType 4 false (Typ.IntType 32)
      ∧ ∃ inst, NewICmp IPred.IPredSLT vecA vecB = some inst
          ∧ inst.type = some (Typ.VectorType 4 false (Typ.IntType 1), inst) :=
  ⟨rfl, (C4_cmp_type_from_X_only vecA vecB).2.2.1 IPred.IPredSLT 4 false (Typ.IntType 32) rfl⟩

/-! ## call: lemmas -/

theorem callType_some (inst : InstCall) (r : Typ) (inst1 : InstCall)
    (h : inst.type = some (r, inst1)) :
    ∃ t, inst.cacheTyp = some t ∧ r = retTypeOrSelf t ∧ inst1 = { inst with Typ := some t } := by
  unfold InstCall.type at h
  cases hc : inst.cacheTyp with
  | none => simp [hc] at h
  | some t =>
    simp only [hc, Option.some.injEq, Prod.mk.injEq] at h
    exact ⟨t, rfl, h.1.symm, h.2.symm⟩

theorem callType_cached (inst : InstCall) (t : Typ) (h : inst.Typ = some t) :
    inst.type = some (retTypeOrSelf t, inst) := by
  have hc : inst.cacheTyp = some t := by simp [InstCall.cacheTyp, h]
  simp only [InstCall.type, hc, Option.some.injEq, Prod.mk.injEq, true_and]
  cases inst
  simp only [InstCall.mk.injEq, and_true, true_and] at *
  exact h.symm

theorem callType_twice (inst : InstCall) (r : Typ) (inst1 : InstCall)
    (h : inst.type = some (r, inst1)) : inst1.type = some (r, inst1) := by
  obtain ⟨t, _, hr, hi⟩ := callType_some inst r inst1 h
  have h1 : inst1.Typ = some t := by rw [hi]
  rw [callType_cached inst1 t h1, hr]

theorem NewCall_of_func (callee : Value) (args : List Value) (ret : Typ) (params : List Typ)
    (variadic : Bool) (a : Nat)
    (hc : callee.type = Typ.PointerType (Typ.FuncType ret params variadic) a) :
    NewCall callee args = some
      { LocalIdent := LocalIdent.zero, Callee := callee, Args := args,
        Typ := some (if variadic then Typ.FuncType ret params variadic else ret),
        Tail := Tail.TailNone, FastMathFlags := [], CallingConv := CallingConv.CallingConvNone,
        ReturnAttrs := [], AddrSpace := 0, FuncAttrs := [], OperandBundles := [],
        Metadata := [] } := by
  cases variadic <;> simp [NewCall, InstCall.type, InstCall.cacheTyp, hc]

theorem retTypeOrSelf_of_not_func (t : Typ) (h : ∀ r p v, t ≠ Typ.FuncType r p v) :
    retTypeOrSelf t = t := by
  cases t with
  | FuncType r p v => exact absurd rfl (h r p v)
  | _ => rfl

theorem ret_ne_func (ret : Typ) (params : List Typ) (variadic : Bool) :
    ret ≠ Typ.FuncType ret params variadic := by
  intro h
  have hs := congrArg sizeOf h
  simp only [Typ.FuncType.sizeOf_spec] at hs
  omega

theorem equalVoid_iff (t : Typ) : t.EqualVoid = true ↔ t = Typ.VoidType := by
  cases t <;> simp [Typ.EqualVoid]

theorem append_ne_of_head (a b r1 r2 : String) (c1 c2 : Char) (as bs : List Char)
    (ha : a.data = c1 :: as) (hb : b.data = c2 :: bs) (hne : c1 ≠ c2) :
    a ++ r1 ≠ b ++ r2 := by
  intro h
  have hd := congrArg String.data h
  simp only [String.data_append, ha, hb, List.cons_append, List.cons.injEq] at hd
  exact hne hd.1

/-! ## call: the claims -/

/-- C5 at the failing input: the callee `@f` has the type pointer to the
non-variadic signature `i32 () ()`, whose return type is `i32 ()`. `NewCall`
caches that return type in `Typ`, and `Type()` then reads the cached function
type as a signature and answers `i32`, not the return type `i32 ()`. -/
theorem C5_failing_input_function_typed_return :
    calleeReturningFunc.type
        = Typ.PointerType (Typ.FuncType (Typ.FuncType (Typ.IntType 32) [] false) [] false) 0
      ∧ (NewCall calleeReturningFunc []).bind (fun inst => inst.type.map Prod.fst)
          = some (Typ.IntType 32)
      ∧ (NewCall calleeReturningFunc []).bind (fun inst => inst.type.map Prod.fst)
          ≠ some (Typ.FuncType (Typ.IntType 32) [] false) := by
  refine ⟨rfl, rfl, ?_⟩
  have h : (NewCall calleeReturningFunc []).bind (fun inst => inst.type.map Prod.fst)
      = some (Typ.IntType 32) := rfl
  rw [h]
  simp

/-- C5 away from the failing input: for every callee whose type is a pointer to
a function type `sig` that is variadic or whose return type is not itself a
function type, `NewCall` succeeds and `Type()` of the call is the return type of
`sig`. -/
theorem C5_call_type_is_return_type (callee : Value) (args : List Value) (ret : Typ)
    (params : List Typ) (variadic : Bool) (a : Nat)
    (hc : callee.type = Typ.PointerType (Typ.FuncType ret params variadic) a)
    (hret : variadic = true ∨ ∀ r p v, ret ≠ Typ.FuncType r p v) :
    ∃ inst, NewCall callee args = some inst ∧ inst.type = some (ret, inst) := by
  refine ⟨_, NewCall_of_func callee args ret params variadic a hc, ?_⟩
  cases variadic with
  | true =>
    exact callType_cached
      { LocalIdent := LocalIdent.zero, Callee := callee, Args := args,
        Typ := some (Typ.FuncType ret params true),
        Tail := Tail.TailNone, FastMathFlags := [], CallingConv := CallingConv.CallingConvNone,
        ReturnAttrs := [], AddrSpace := 0, FuncAttrs := [], OperandBundles := [],
        Metadata := [] } (Typ.FuncType ret params true) rfl
  | false =>
    have hr : ∀ r p v, ret ≠ Typ.FuncType r p v := by
      rcases hret with h | h
      · cases h
      · exact h
    have h1 := callType_cached
      { LocalIdent := LocalIdent.zero, Callee := callee, Args := args,
        Typ := some ret,
        Tail := Tail.TailNone, FastMathFlags := [], CallingConv := CallingConv.CallingConvNone,
        ReturnAttrs := [], AddrSpace := 0, FuncAttrs := [], OperandBundles := [],
        Metadata := [] } ret rfl
    rw [retTypeOrSelf_of_not_func ret hr] at h1
    simpa using h1

/-- C5 at the variadic callee `i32 (i8*, ...)* @printf`: the type of the call is
`i32`. -/
theorem C5_call_type_is_return_type_witness :
    ∃ inst, NewCall calleePrintf [argS] = some inst ∧ inst.type = some (Typ.IntType 32, inst) :=
  C5_call_type_is_return_type calleePrintf [argS] (Typ.IntType 32)
    [Typ.PointerType (Typ.IntType 8) 0] true 0 rfl (Or.inl rfl)

theorem printedType_cached (inst : InstCall) (t : Typ) (h : inst.Typ = some t)
    (hok : ∀ r p, t ≠ Typ.FuncType r p false) :
    inst.printedType (retTypeOrSelf t) = t := by
  unfold InstCall.printedType
  rw [h]
  cases t with
  | FuncType r p v =>
    cases v with
    | true => simp
    | false => exact absurd rfl (hok r p)
  | _ => rfl

theorem callLLString_cached (inst : InstCall) (t : Typ) (h : inst.Typ = some t) :
    inst.LLString = some
      (inst.beforeType (retTypeOrSelf t) ++ " " ++ (inst.printedType (retTypeOrSelf t)).string
        ++ " " ++ inst.Callee.Ident ++ "(" ++ inst.afterCallee, inst) := by
  have h1 := callType_cached inst t h
  simp only [InstCall.LLString, h1]

/-- C6 at the failing input: for the non-variadic callee `@f` whose return type
is the function type `i32 ()`, `LLString` prints `i32` before the callee, which
is neither the signature `i32 () ()` nor the return type `i32 ()`. -/
theorem C6_failing_input_function_typed_return :
    calleeReturningFunc.type
        = Typ.PointerType (Typ.FuncType (Typ.FuncType (Typ.IntType 32) [] false) [] false) 0
      ∧ (Typ.FuncType (Typ.IntType 32) [] false).string = "i32 ()"
      ∧ (NewCall calleeReturningFunc []).bind (fun inst => inst.LLString.map Prod.fst)
          = some "%0 = call i32 @f()"
      ∧ (NewCall calleeReturningFunc []).bind (fun inst => inst.LLString.map Prod.fst)
          ≠ some "%0 = call i32 () @f()" := by
  refine ⟨rfl, rfl, rfl, ?_⟩
  have h : (NewCall calleeReturningFunc []).bind (fun inst => inst.LLString.map Prod.fst)
      = some "%0 = call i32 @f()" := rfl
  rw [h]
  decide

/-- C6 away from the failing input: for every callee whose type is a pointer to
a function type `sig` that is variadic or whose return type is not a
non-variadic function type, the call built by `NewCall` holds in `Typ` the full function type when
the callee is variadic and the return type otherwise (and so the full function
type exactly when the callee is variadic), and `LLString` prints, between the
text before the type and the callee identifier, the full function type when the
callee is variadic and the return type when it is not. -/
theorem C6_call_prints_signature_iff_variadic (callee : Value) (args : List Value) (ret : Typ)
    (params : List Typ) (variadic : Bool) (a : Nat)
    (hc : callee.type = Typ.PointerType (Typ.FuncType ret params variadic) a)
    (hret : variadic = true ∨ ∀ r p, ret ≠ Typ.FuncType r p false) :
    ∃ inst, NewCall callee args = some inst
      ∧ inst.Typ = some (if variadic then Typ.FuncType ret params variadic else ret)
      ∧ (inst.Typ = some (Typ.FuncType ret params variadic) ↔ variadic = true)
      ∧ ∃ r, inst.type = some (r, inst)
          ∧ inst.LLString = some
              (inst.beforeType r ++ " "
                ++ (if variadic then Typ.FuncType ret params variadic else ret).string
                ++ " " ++ callee.Ident ++ "(" ++ inst.afterCallee, inst) := by
  refine ⟨_, NewCall_of_func callee args ret params variadic a hc, rfl, ?_, ?_⟩
  · cases variadic with
    | true => simp
    | false =>
      simp only [Bool.false_eq_true, if_false, Option.some.injEq, iff_false]
      exact ret_ne_func ret params false
  · have hok : ∀ r p, (if variadic then Typ.FuncType ret params variadic else ret)
        ≠ Typ.FuncType r p false := by
      cases variadic with
      | true => intro r p h; simp at h
      | false =>
        rcases hret with h | h
        · cases h
        · simpa using h
    refine ⟨retTypeOrSelf (if variadic then Typ.FuncType ret params variadic else ret),
      callType_cached _ _ rfl, ?_⟩
    rw [callLLString_cached _ _ rfl, printedType_cached _ _ rfl hok]

/-- C6, the scenario of the specification: the call of
`i32 (i8*, ...)* @printf` prints the full function type `i32 (i8*, ...)`, where
the call of the non-variadic `i32 (i8*)* @puts` prints `i32`. -/
theorem C6_call_prints_signature_iff_variadic_witness :
    (∃ inst, NewCall calleePrintf [argS] = some inst
      ∧ inst.Typ = some (Typ.FuncType (Typ.IntType 32) [Typ.PointerType (Typ.IntType 8) 0] true)
      ∧ inst.LLString = some ("%0 = call i32 (i8*, ...) @printf(i8* %s)", inst))
    ∧ (∃ inst, NewCall calleePuts [argS] = some inst
      ∧ inst.Typ = some (Typ.IntType 32)
      ∧ inst.LLString = some ("%0 = call i32 @puts(i8* %s)", inst)) := by
  refine ⟨?_, ?_⟩
  · obtain ⟨inst, h1, h2, _, r, _, h5⟩ :=
      C6_call_prints_signature_iff_variadic calleePrintf [argS] (Typ.IntType 32)
        [Typ.PointerType (Typ.IntType 8) 0] true 0 rfl (Or.inl rfl)
    refine ⟨inst, h1, h2, ?_⟩
    have he : NewCall calleePrintf [argS] = some
        { LocalIdent := LocalIdent.zero, Callee := calleePrintf, Args := [argS],
          Typ := some (Typ.FuncType (Typ.IntType 32) [Typ.PointerType (Typ.IntType 8) 0] true),
          Tail := Tail.TailNone, FastMathFlags := [],
          CallingConv := CallingConv.CallingConvNone,
          ReturnAttrs := [], AddrSpace := 0, FuncAttrs := [], OperandBundles := [],
          Metadata := [] } := rfl
    rw [he] at h1
    cases h1
    rfl
  · obtain ⟨inst, h1, h2, _, r, _, h5⟩ :=
      C6_call_prints_signature_iff_variadic calleePuts [argS] (Typ.IntType 32)
        [Typ.PointerType (Typ.IntType 8) 0] false 0 rfl (Or.inr (by intro r p h; cases h))
    refine ⟨inst, h1, h2, ?_⟩
    have he : NewCall calleePuts [argS] = some
        { LocalIdent := LocalIdent.zero, Callee := calleePuts, Args := [argS],
          Typ := some (Typ.IntType 32),
          Tail := Tail.TailNone, FastMathFlags := [],
          CallingConv := CallingConv.CallingConvNone,
          ReturnAttrs := [], AddrSpace := 0, FuncAttrs := [], OperandBundles := [],
          Metadata := [] } := rfl
    rw [he] at h1
    cases h1
    rfl

theorem tail_string_head (t : Tail) (h : t ≠ Tail.TailNone) :
    ∃ c cs, t.string.data = c :: cs ∧ c ≠ '%' := by
  cases t with
  | TailNone => exact absurd rfl h
  | TailMustTail => exact ⟨'m', "usttail".data, rfl, by decide⟩
  | TailNoTail => exact ⟨'n', "otail".data, rfl, by decide⟩
  | TailTail => exact ⟨'t', "ail".data, rfl, by decide⟩

/-- C7: for every call instruction whose type derivation succeeds with the
result type `r`, `LLString` returns a text, and that text begins with the
result identifier followed by `" = "` if and only if `r` is not void; for a
void result the text begins with `call` when there is no tail marker and with
the tail marker followed by `" call"` when there is one. -/
theorem C7_call_result_prefix_iff_not_void (inst : InstCall) (r : Typ) (inst1 : InstCall)
    (h : inst.type = some (r, inst1)) :
    ∃ s inst2, inst.LLString = some (s, inst2)
      ∧ ((∃ rest, s = inst.LocalIdent.Ident ++ " = " ++ rest) ↔ r ≠ Typ.VoidType)
      ∧ (r = Typ.VoidType →
          (inst.Tail = Tail.TailNone → ∃ rest, s = "call" ++ rest)
          ∧ (inst.Tail ≠ Tail.TailNone → ∃ rest, s = inst.Tail.string ++ " call" ++ rest)) := by
  have h1 := callType_twice inst r inst1 h
  obtain ⟨t, _, _, hi⟩ := callType_some inst r inst1 h
  have hid : inst1.LocalIdent = inst.LocalIdent := by rw [hi]
  have htl : inst1.Tail = inst.Tail := by rw [hi]
  have hLL : inst.LLString = some
      (inst1.beforeType r ++ " " ++ (inst1.printedType r).string ++ " " ++ inst1.Callee.Ident
        ++ "(" ++ inst1.afterCallee, inst1) := by
    simp only [InstCall.LLString, h, h1]
  refine ⟨_, inst1, hLL, ?_, ?_⟩
  · constructor
    · rintro ⟨rest, hs⟩ hvoid
      have hv : r.EqualVoid = true := (equalVoid_iff r).2 hvoid
      simp only [InstCall.beforeType, hv, Bool.not_true, Bool.false_eq_true, if_false, htl,
        String.append_assoc, String.empty_append, LocalIdent.Ident] at hs
      by_cases ht : inst.Tail = Tail.TailNone
      · simp only [ht, ne_eq, not_true_eq_false, if_false, String.empty_append] at hs
        exact append_ne_of_head "call" "%" _ _ 'c' '%' "all".data [] rfl rfl (by decide) hs
      · obtain ⟨c, cs, hc, hne⟩ := tail_string_head inst.Tail ht
        simp only [ne_eq, ht, not_false_eq_true, if_true, String.append_assoc] at hs
        exact append_ne_of_head inst.Tail.string "%" _ _ c '%' cs [] hc rfl hne hs
    · intro hnv
      have hv : r.EqualVoid = false := by
        cases hb : r.EqualVoid with
        | false => rfl
        | true => exact absurd ((equalVoid_iff r).1 hb) hnv
      refine ⟨(if inst.Tail ≠ Tail.TailNone then inst.Tail.string ++ " " else "") ++ "call"
        ++ inst1.modifiers ++ " " ++ (inst1.printedType r).string ++ " " ++ inst1.Callee.Ident
        ++ "(" ++ inst1.afterCallee, ?_⟩
      simp only [InstCall.beforeType, hv, Bool.not_false, if_true, hid, htl, String.append_assoc]
  · intro hvoid
    have hv : r.EqualVoid = true := (equalVoid_iff r).2 hvoid
    constructor
    · intro ht
      refine ⟨inst1.modifiers ++ " " ++ (inst1.printedType r).string ++ " "
        ++ inst1.Callee.Ident ++ "(" ++ inst1.afterCallee, ?_⟩
      simp only [InstCall.beforeType, hv, Bool.not_true, Bool.false_eq_true, if_false, htl, ht,
        ne_eq, not_true_eq_false, String.append_assoc, String.empty_append]
    · intro ht
      refine ⟨inst1.modifiers ++ " " ++ (inst1.printedType r).string ++ " "
        ++ inst1.Callee.Ident ++ "(" ++ inst1.afterCallee, ?_⟩
      simp only [InstCall.beforeType, hv, Bool.not_true, Bool.false_eq_true, if_false, htl, ht,
        ne_eq, not_false_eq_true, if_true, String.append_assoc, String.empty_append]
      have e : (" call" : String) = " " ++ "call" := rfl
      rw [e, String.append_assoc]

/-- C7, the scenario of the specification: `call void @f(i32 %x)` serialises
with no result identifier and no equals sign. -/
theorem C7_call_result_prefix_iff_not_void_witness :
    callVoidF.LLString.map Prod.fst = some "call void @f(i32 %x)"
      ∧ ∃ s inst2, callVoidF.LLString = some (s, inst2)
        ∧ ((∃ rest, s = callVoidF.LocalIdent.Ident ++ " = " ++ rest)
            ↔ Typ.VoidType ≠ Typ.VoidType)
        ∧ (Typ.VoidType = Typ.VoidType →
            (callVoidF.Tail = Tail.TailNone → ∃ rest, s = "call" ++ rest)
            ∧ (callVoidF.Tail ≠ Tail.TailNone →
                ∃ rest, s = callVoidF.Tail.string ++ " call" ++ rest)) :=
  ⟨rfl, C7_call_result_prefix_iff_not_void callVoidF Typ.VoidType
    { callVoidF with Typ := some Typ.VoidType } rfl⟩

/-! ## phi: the claims -/

/-- C8: `NewPhi` on a non-empty incoming list returns a phi whose cached type
and whose `Type()` are the type of the value of the first incoming, whatever
the remaining incomings are; on the empty list it fails. -/
theorem C8_phi_type_is_first_incoming :
    (∀ (inc : Incoming) (rest : List Incoming),
        ∃ inst, NewPhi (inc :: rest) = some inst
          ∧ inst.Incs = inc :: rest
          ∧ inst.Typ = some inc.X.type
          ∧ inst.type = some (inc.X.type, inst))
      ∧ NewPhi [] = none := by
  refine ⟨?_, rfl⟩
  intro inc rest
  exact ⟨{ LocalIdent := LocalIdent.zero, Incs := inc :: rest, Typ := some inc.X.type,
           Metadata := [] }, rfl, rfl, rfl, rfl⟩

/-- C9, as stated, fails: `NewPhi` returns a phi of type `i32` for the incomings
`i32 %a` and `i64 %b`, and the second incoming value does not have the type of
the first. -/
theorem C9_counterexample_mixed_incomings :
    ∃ inst, NewPhi mixedIncs = some inst
      ∧ inst.type = some (Typ.IntType 32, inst)
      ∧ ¬ (∀ inc ∈ inst.Incs, inc.X.type = Typ.IntType 32) := by
  refine ⟨{ LocalIdent := LocalIdent.zero, Incs := mixedIncs, Typ := some (Typ.IntType 32),
            Metadata := [] }, rfl, rfl, ?_⟩
  intro h
  have h2 := h (NewIncoming { type := Typ.IntType 64, Ident := "%b", string := "i64 %b" }
    { body := "bb2" }) (by simp [mixedIncs])
  simp [NewIncoming] at h2

/-- C9, amended: a phi that `NewPhi` returns keeps the incoming list it was
given, unchecked, and its type is the type of the first incoming value; the
incoming values all have that type exactly when the incomings passed after the
first had it. -/
theorem C9_phi_keeps_incomings_unchecked (incs : List Incoming) (inst : InstPhi)
    (h : NewPhi incs = some inst) :
    inst.Incs = incs
      ∧ ∃ first rest, incs = first :: rest
        ∧ inst.type = some (first.X.type, inst)
        ∧ ((∀ inc ∈ inst.Incs, inc.X.type = first.X.type)
            ↔ ∀ inc ∈ rest, inc.X.type = first.X.type) := by
  cases incs with
  | nil => simp [NewPhi, InstPhi.type] at h
  | cons first rest =>
    simp only [NewPhi, InstPhi.type, Option.some.injEq] at h
    subst h
    refine ⟨rfl, first, rest, rfl, rfl, ?_⟩
    simp

/-- C9, amended, at two incomings of type `i32`: the phi keeps both and has the
type `i32`. -/
theorem C9_phi_keeps_incomings_unchecked_witness :
    NewPhi sameIncs
        = some { LocalIdent := LocalIdent.zero, Incs := sameIncs, Typ := some (Typ.IntType 32),
                 Metadata := [] }
      ∧ ∃ first rest, sameIncs = first :: rest
        ∧ InstPhi.type { LocalIdent := LocalIdent.zero, Incs := sameIncs,
                         Typ := some (Typ.IntType 32), Metadata := [] }
            = some (first.X.type, { LocalIdent := LocalIdent.zero, Incs := sameIncs,
                                    Typ := some (Typ.IntType 32), Metadata := [] })
        ∧ ((∀ inc ∈ sameIncs, inc.X.type = first.X.type)
            ↔ ∀ inc ∈ rest, inc.X.type = first.X.type) :=
  ⟨rfl, (C9_phi_keeps_incomings_unchecked sameIncs
    { LocalIdent := LocalIdent.zero, Incs := sameIncs, Typ := some (Typ.IntType 32),
      Metadata := [] } rfl).2⟩

/-! ## getelementptr: struct steps and the inrange tag -/

theorem bigInt64_of_int64 (x : Int) (h0 : -(2 ^ 63) ≤ x) (h1 : x < 2 ^ 63) : bigInt64 x = x := by
  by_cases hx : 0 ≤ x
  · exact bigInt64_of_small x hx h1
  · have hneg : x < 0 := by omega
    obtain ⟨n, hn⟩ : ∃ n : Nat, x = -(n : Int) := ⟨x.natAbs, by omega⟩
    subst hn
    have hn1 : n ≤ 2 ^ 63 := by omega
    have hmod : n % 2 ^ 64 = n := Nat.mod_eq_of_lt (by omega)
    simp only [bigInt64, Int.natAbs_neg, Int.natAbs_ofNat, hmod, hneg, if_true]
    by_cases hlt : (n : Int) < 2 ^ 63
    · rw [if_pos hlt]
      have hv : ¬ ((n : Int) = -(2 ^ 63)) := by omega
      rw [if_neg hv]
    · rw [if_neg hlt]
      have hv : (n : Int) - 2 ^ 64 = -(2 ^ 63) := by omega
      rw [if_pos hv]
      omega

theorem sameLanes_iff (i : Int) (elems : List Constant) :
    sameLanes i elems = true ↔ ∀ c ∈ elems, ∃ b x, c = Constant.Int b x ∧ bigInt64 x = i := by
  induction elems with
  | nil => simp [sameLanes]
  | cons c rest ih =>
    cases c with
    | Int b x =>
      by_cases hx : i = bigInt64 x
      · simp only [sameLanes, ne_eq, hx, not_true_eq_false, if_false, List.mem_cons,
          forall_eq_or_imp]
        rw [← hx, ih]
        constructor
        · intro h; exact ⟨⟨b, x, rfl, hx.symm⟩, h⟩
        · intro h; exact h.2
      · simp only [sameLanes, ne_eq, hx, not_false_eq_true, if_true, List.mem_cons,
          forall_eq_or_imp, Bool.false_eq_true, false_iff, not_and]
        intro h
        obtain ⟨b2, x2, heq, hv⟩ := h
        cases heq
        exact absurd hv.symm hx
    | Vector l s e es =>
      simp only [sameLanes, Bool.false_eq_true, List.mem_cons, forall_eq_or_imp, false_iff,
        not_and]
      intro h
      obtain ⟨b2, x2, heq, _⟩ := h
      cases heq
    | ZeroInitializer t =>
      simp only [sameLanes, Bool.false_eq_true, List.mem_cons, forall_eq_or_imp, false_iff,
        not_and]
      intro h
      obtain ⟨b2, x2, heq, _⟩ := h
      cases heq
    | Index c2 r =>
      simp only [sameLanes, Bool.false_eq_true, List.mem_cons, forall_eq_or_imp, false_iff,
        not_and]
      intro h
      obtain ⟨b2, x2, heq, _⟩ := h
      cases heq
    | Other t =>
      simp only [sameLanes, Bool.false_eq_true, List.mem_cons, forall_eq_or_imp, false_iff,
        not_and]
      intro h
      obtain ⟨b2, x2, heq, _⟩ := h
      cases heq

theorem gepType_none_of_step (E : Typ) (i0 : Constant) (pre : List Constant) (idx : Constant)
    (post : List Constant) (t : Typ) (h : gepWalk E pre = some t)
    (hs : gepStep t (unpackIndex idx) = none) :
    gepType E (i0 :: (pre ++ idx :: post)) = none := by
  have hw : gepWalk E (pre ++ idx :: post) = none := by
    rw [gepWalk_append pre E (idx :: post), h]
    simp [gepWalk, hs]
  simp [gepType, hw]

theorem gepWalk_snoc (E : Typ) (pre : List Constant) (idx : Constant) (t t2 : Typ)
    (h : gepWalk E pre = some t) (hs : gepStep t (unpackIndex idx) = some t2) :
    gepWalk E (pre ++ [idx]) = some t2 := by
  rw [gepWalk_append pre E [idx], h]
  simp [gepWalk, hs]

theorem gepStep_struct_vector_none (name : Option String) (fields : List Typ)
    (packed opaq : Bool) (len : Nat) (sc : Bool) (elem : Typ) (lanes : List Constant)
    (h : ¬ ∃ i, ∀ c ∈ lanes, ∃ b x, c = Constant.Int b x ∧ bigInt64 x = i) :
    gepStep (Typ.StructType name fields packed opaq) (Constant.Vector len sc elem lanes)
      = none := by
  cases lanes with
  | nil => rfl
  | cons first rest =>
    cases first with
    | Int b x =>
      have hf : sameLanes (bigInt64 x) (Constant.Int b x :: rest) = false := by
        cases hb : sameLanes (bigInt64 x) (Constant.Int b x :: rest) with
        | false => rfl
        | true => exact absurd ⟨bigInt64 x, (sameLanes_iff _ _).1 hb⟩ h
      simp [gepStep, hf]
    | Vector l s e es => rfl
    | ZeroInitializer t => rfl
    | Index c2 r => rfl
    | Other t => rfl

/-- C11 for lane values in the `int64` range, where `Int64()` is exact: at a
step of the walk whose current type is a struct (reached over the indices `pre`
that follow the 0th index), with `idx` the index of that step after one `Index`
wrapper is unpacked: a constant vector whose lanes are all
integer constants of one value `k` (at least one lane, `k` in the `int64`
range) moves the walk to `fields[k]`; two integer lanes of different values,
or a lane that is no integer constant, make `gepType` fail; and so does an
index that is neither an integer, a vector nor a zeroinitializer. -/
theorem C11_struct_step_needs_constant_integer (E : Typ) (pre : List Constant)
    (name : Option String) (fields : List Typ) (packed opaq : Bool)
    (h : gepWalk E pre = some (Typ.StructType name fields packed opaq)) :
    (∀ (idx : Constant) (len : Nat) (sc : Bool) (elem : Typ) (b0 : Nat) (k : Int)
        (lanes : List Constant) (T : Typ),
        unpackIndex idx = Constant.Vector len sc elem (Constant.Int b0 k :: lanes) →
        (∀ c ∈ lanes, ∃ b, c = Constant.Int b k) →
        0 ≤ k → k < 2 ^ 63 → fields[k.toNat]? = some T →
        gepWalk E (pre ++ [idx]) = some T)
      ∧ (∀ (idx i0 : Constant) (post : List Constant) (len : Nat) (sc : Bool) (elem : Typ)
          (lanes : List Constant) (b1 b2 : Nat) (x1 x2 : Int),
          unpackIndex idx = Constant.Vector len sc elem lanes →
          Constant.Int b1 x1 ∈ lanes → Constant.Int b2 x2 ∈ lanes → x1 ≠ x2 →
          -(2 ^ 63) ≤ x1 → x1 < 2 ^ 63 → -(2 ^ 63) ≤ x2 → x2 < 2 ^ 63 →
          gepType E (i0 :: (pre ++ idx :: post)) = none)
      ∧ (∀ (idx i0 : Constant) (post : List Constant) (len : Nat) (sc : Bool) (elem : Typ)
          (lanes : List Constant) (c : Constant),
          unpackIndex idx = Constant.Vector len sc elem lanes →
          c ∈ lanes → (∀ b x, c ≠ Constant.Int b x) →
          gepType E (i0 :: (pre ++ idx :: post)) = none)
      ∧ (∀ (idx i0 : Constant) (post : List Constant),
          (∀ b x, unpackIndex idx ≠ Constant.Int b x) →
          (∀ len sc elem lanes, unpackIndex idx ≠ Constant.Vector len sc elem lanes) →
          (∀ t, unpackIndex idx ≠ Constant.ZeroInitializer t) →
          gepType E (i0 :: (pre ++ idx :: post)) = none) := by
  refine ⟨?_, ?_, ?_, ?_⟩
  · intro idx len sc elem b0 k lanes T hidx hlanes hk0 hk1 hT
    apply gepWalk_snoc E pre idx _ T h
    rw [hidx]
    have hk : bigInt64 k = k := bigInt64_of_small k hk0 hk1
    have hsame : sameLanes (bigInt64 k) (Constant.Int b0 k :: lanes) = true := by
      rw [sameLanes_iff]
      intro c hc
      rcases List.mem_cons.1 hc with hc | hc
      · exact ⟨b0, k, hc, rfl⟩
      · obtain ⟨b, hb⟩ := hlanes c hc
        exact ⟨b, k, hb, rfl⟩
    have hneg : ¬ (k < 0) := by omega
    have hsame2 : sameLanes k (Constant.Int b0 k :: lanes) = true := by
      rw [hk] at hsame
      exact hsame
    simp [gepStep, hsame2, sliceAt, hk, hneg, hT]
  · intro idx i0 post len sc elem lanes b1 b2 x1 x2 hidx h1 h2 hne l1 u1 l2 u2
    apply gepType_none_of_step E i0 pre idx post _ h
    rw [hidx]
    apply gepStep_struct_vector_none
    rintro ⟨i, hi⟩
    obtain ⟨b, x, heq, hv⟩ := hi _ h1
    obtain ⟨b', x', heq', hv'⟩ := hi _ h2
    cases heq
    cases heq'
    rw [bigInt64_of_int64 x1 l1 u1] at hv
    rw [bigInt64_of_int64 x2 l2 u2] at hv'
    exact hne (hv.trans hv'.symm)
  · intro idx i0 post len sc elem lanes c hidx hc hnot
    apply gepType_none_of_step E i0 pre idx post _ h
    rw [hidx]
    apply gepStep_struct_vector_none
    rintro ⟨i, hi⟩
    obtain ⟨b, x, heq, _⟩ := hi c hc
    exact hnot b x heq
  · intro idx i0 post hint hvec hzero
    apply gepType_none_of_step E i0 pre idx post _ h
    cases hu : unpackIndex idx with
    | Int b x => exact absurd hu (hint b x)
    | Vector l s e es => exact absurd hu (hvec l s e es)
    | ZeroInitializer t => exact absurd hu (hzero t)
    | Index c2 r => rfl
    | Other t => rfl

/-- C11 at `S = { i32, [10 x i8] }`: the uniform vector index
`<2 x i32> <i32 1, i32 1>` moves the walk to field 1, `[10 x i8]`. -/
theorem C11_struct_step_needs_constant_integer_witness :
    gepWalk structS [] = some structS
      ∧ gepWalk structS ([] ++ [uniformLanes]) = some (Typ.ArrayType 10 (Typ.IntType 8)) :=
  ⟨rfl, (C11_struct_step_needs_constant_integer structS [] none
      [Typ.IntType 32, Typ.ArrayType 10 (Typ.IntType 8)] false false rfl).1
    uniformLanes 2 false (Typ.IntType 32) 32 1 [Constant.Int 32 1] (Typ.ArrayType 10 (Typ.IntType 8))
    rfl
    (by
      intro c hc
      simp only [List.mem_singleton] at hc
      exact ⟨32, hc⟩)
    (by norm_num) (by norm_num) rfl⟩

/-- C12: `NewCall callee args` fails exactly when the type of the callee is not
a pointer to a function type, and whether it succeeds does not depend on the
argument list. -/
theorem C12_NewCall_fails_iff_callee_not_function_pointer (callee : Value) (args : List Value) :
    (NewCall callee args = none ↔
        ¬ ∃ ret params variadic a,
          callee.type = Typ.PointerType (Typ.FuncType ret params variadic) a)
      ∧ ∀ args2 : List Value, (NewCall callee args).isSome = (NewCall callee args2).isSome := by
  constructor
  · constructor
    · rintro hnone ⟨ret, params, variadic, a, hc⟩
      rw [NewCall_of_func callee args ret params variadic a hc] at hnone
      cases hnone
    · intro hnot
      cases hc : callee.type with
      | PointerType elem a =>
        cases elem with
        | FuncType ret params variadic => exact absurd ⟨ret, params, variadic, a, hc⟩ hnot
        | _ => simp [NewCall, InstCall.type, InstCall.cacheTyp, hc]
      | _ => simp [NewCall, InstCall.type, InstCall.cacheTyp, hc]
  · intro args2
    cases hc : callee.type with
    | PointerType elem a =>
      cases elem with
      | FuncType ret params variadic =>
        rw [NewCall_of_func callee args ret params variadic a hc,
          NewCall_of_func callee args2 ret params variadic a hc]
        rfl
      | _ => simp [NewCall, InstCall.type, InstCall.cacheTyp, hc]
    | _ => simp [NewCall, InstCall.type, InstCall.cacheTyp, hc]

theorem unpackIndex_strip (c : Constant) (h : singlyWrapped c) :
    unpackIndex (stripInRange c) = unpackIndex c := by
  cases c with
  | Index c2 r =>
    cases c2 with
    | Index c3 r3 => exact absurd h (by simp [singlyWrapped])
    | Int b x => rfl
    | Vector l s e es => rfl
    | ZeroInitializer t => rfl
    | Other t => rfl
  | Int b x => rfl
  | Vector l s e es => rfl
  | ZeroInitializer t => rfl
  | Other t => rfl

theorem gepWalk_strip (rest : List Constant) :
    ∀ E : Typ, (∀ c ∈ rest, singlyWrapped c) →
      gepWalk E (rest.map stripInRange) = gepWalk E rest := by
  induction rest with
  | nil => intro E _; rfl
  | cons c rest ih =>
    intro E h
    simp only [List.map_cons, gepWalk]
    rw [unpackIndex_strip c (h c (List.mem_cons_self _ _))]
    cases gepStep E (unpackIndex c) with
    | none => rfl
    | some t => exact ih t (fun d hd => h d (List.mem_cons_of_mem _ hd))

/-- C13, as stated, fails: on `%T = { i8, i16, i64 }` with the indices
`(i32 0, Index(inrange i32 2))`, the second index wrapped twice, `gepType`
fails, while on the list whose wrappers are replaced by the constants they
wrap, `(i32 0, i32 2)`, it returns `i64*`. -/
theorem C13_counterexample_twice_wrapped_index :
    gepType structT [Constant.Int 32 0, twiceWrappedTwo] = none
      ∧ [Constant.Int 32 0, twiceWrappedTwo].map stripInRange
          = [Constant.Int 32 0, Constant.Int 32 2]
      ∧ gepType structT ([Constant.Int 32 0, twiceWrappedTwo].map stripInRange)
          = some (Typ.PointerType (Typ.IntType 64) 0) :=
  ⟨rfl, rfl, rfl⟩

/-- C13, amended: for every element type and every index list in which no
`Index` wraps another `Index`, `gepType` has the same outcome (the same type,
or failure in both) on the list and on the list in which every `Index` wrapper
is replaced by the constant it wraps. -/
theorem C13_inrange_transparent_when_singly_wrapped (E : Typ) (indices : List Constant)
    (h : ∀ c ∈ indices, singlyWrapped c) :
    gepType E (indices.map stripInRange) = gepType E indices := by
  cases indices with
  | nil => rfl
  | cons i0 rest =>
    have hw := gepWalk_strip rest E (fun c hc => h c (List.mem_cons_of_mem _ hc))
    have h0 := unpackIndex_strip i0 (h i0 (List.mem_cons_self _ _))
    simp only [List.map_cons, gepType, hw, gepWrap, h0]

/-- C13, amended, the scenario of the specification: with the indices
`(inrange i32 0, i32 2)` on `%T = { i8, i16, i64 }` the result is the pointer to
field 2, as for `(i32 0, i32 2)`. -/
theorem C13_inrange_transparent_when_singly_wrapped_witness :
    gepType structT [Constant.Int 32 0, Constant.Int 32 2]
        = gepType structT [inrangeZero, Constant.Int 32 2]
      ∧ gepType structT [inrangeZero, Constant.Int 32 2]
        = some (Typ.PointerType (Typ.IntType 64) 0) :=
  ⟨C13_inrange_transparent_when_singly_wrapped structT [inrangeZero, Constant.Int 32 2]
    (by
      intro c hc
      simp only [List.mem_cons, List.not_mem_nil, or_false] at hc
      rcases hc with rfl | rfl <;> simp [singlyWrapped, inrangeZero]),
    rfl⟩

/-! ## getelementptr: the textual form -/

theorem gepIdent_congr (str : Constant → String) (e e2 : ExprGetElementPtr)
    (h1 : e2.ElemType = e.ElemType) (h2 : e2.Src = e.Src) (h3 : e2.Indices = e.Indices)
    (h4 : e2.InBounds = e.InBounds) : e2.Ident str = e.Ident str := by
  simp only [ExprGetElementPtr.Ident, h1, h2, h3, h4]

theorem gepType_some_fields (e : ExprGetElementPtr) (t : Typ) (e2 : ExprGetElementPtr)
    (h : e.type = some (t, e2)) :
    ∃ elemType, e.cacheElemType = some elemType ∧ e2.ElemType = some elemType
      ∧ e2.Typ = some t ∧ e2.Src = e.Src ∧ e2.Indices = e.Indices
      ∧ e2.InBounds = e.InBounds := by
  unfold ExprGetElementPtr.type at h
  cases hc : e.cacheElemType with
  | none => simp [hc] at h
  | some elemType =>
    simp only [hc] at h
    cases ht : e.Typ with
    | some t0 =>
      simp only [ht, Option.some.injEq, Prod.mk.injEq] at h
      obtain ⟨h1, h2⟩ := h
      subst h1
      subst h2
      exact ⟨elemType, rfl, rfl, rfl, rfl, rfl, rfl⟩
    | none =>
      simp only [ht] at h
      cases hg : gepType elemType e.Indices with
      | none => simp [hg] at h
      | some t1 =>
        simp only [hg, Option.some.injEq, Prod.mk.injEq] at h
        obtain ⟨h1, h2⟩ := h
        subst h1
        subst h2
        exact ⟨elemType, rfl, rfl, rfl, rfl, rfl, rfl⟩

/-- C14: for a getelementptr expression whose element type `E` is cached,
`Ident()` is `getelementptr`, then ` inbounds` exactly when `InBounds` is set,
then ` (`, the element type, `, ` and the source as a type-value pair, then
`, ` and the index for every index in order, then `)`. An `Index` with
`InRange` set prints as `inrange ` followed by the constant it wraps, and one
without it prints exactly as that constant. When `Type()` returns `t`,
`String()` is the text of `t`, one space and `Ident()`. -/
theorem C14_gep_ident_text (str : Constant → String) (e : ExprGetElementPtr) (E : Typ)
    (h : e.ElemType = some E) :
    e.Ident str
        = "getelementptr" ++ (if e.InBounds then " inbounds" else "")
          ++ " (" ++ E.string ++ ", " ++ Constant.string str e.Src
          ++ String.join (e.Indices.map fun index => ", " ++ Constant.string str index)
          ++ ")"
      ∧ (∀ c : Constant,
          Constant.string str (Constant.Index c true) = "inrange " ++ Constant.string str c
          ∧ Constant.string str (Constant.Index c false) = Constant.string str c)
      ∧ (∀ (t : Typ) (e2 : ExprGetElementPtr), e.type = some (t, e2) →
          e.string str = some (t.string ++ " " ++ e.Ident str, e2)) := by
  refine ⟨?_, ?_, ?_⟩
  · simp only [ExprGetElementPtr.Ident, h, typeText]
  · intro c
    exact ⟨by simp [Constant.string], by simp [Constant.string]⟩
  · intro t e2 ht
    obtain ⟨elemType, hc, h1, _, h2, h3, h4⟩ := gepType_some_fields e t e2 ht
    have hE : e2.ElemType = e.ElemType := by
      have : e.cacheElemType = some E := by simp [ExprGetElementPtr.cacheElemType, h]
      rw [this] at hc
      rw [h1, h, ← Option.some.inj hc]
    simp only [ExprGetElementPtr.string, ht, gepIdent_congr str e e2 hE h2 h3 h4]

/-- C14, the scenario of the specification: the expression prints as
`getelementptr inbounds (%T, %T* @g, inrange i32 0, i32 2)`, the inrange token
included, and as a type-value pair with `i64*` in front. -/
theorem C14_gep_ident_text_witness :
    gepInrange.Ident sampleString
        = "getelementptr inbounds (%T, %T* @g, inrange i32 0, i32 2)"
      ∧ gepInrange.string sampleString
        = some ("i64* getelementptr inbounds (%T, %T* @g, inrange i32 0, i32 2)", gepInrange) := by
  have hc := C14_gep_ident_text sampleString gepInrange structT rfl
  refine ⟨?_, ?_⟩
  · rw [hc.1]
    decide
  · rw [hc.2.2 (Typ.PointerType (Typ.IntType 64) 0) gepInrange rfl, hc.1]
    rfl

/-! ## Blocks: the helpers -/

theorem appendedTo_appendInst (b : Block) (inst : Instruction) :
    appendedTo b (b.appendInst inst) inst := by
  refine ⟨rfl, ?_, ?_, rfl⟩
  · simp [Block.appendInst]
  · simp [Block.appendInst]

theorem terminatedBy_setTerm (b : Block) (term : Terminator) :
    terminatedBy b (b.setTerm term) term :=
  ⟨rfl, rfl⟩

/-- C15: for every block `b` and each of the nine instruction helpers, when the
standalone constructor builds `inst` the helper returns `inst` and leaves a
block whose instruction list is that of `b` with `inst` appended at the end
(earlier instructions unchanged, length one more) and whose terminator is that
of `b`; the constructors of select, va_arg, landingpad, catchpad and cleanuppad
always build an instruction. -/
theorem C15_instruction_helpers_append (b : Block) :
    (∀ pred x y inst, NewICmp pred x y = some inst →
        (b.NewICmp pred x y).1 = some inst
          ∧ appendedTo b (b.NewICmp pred x y).2 (Instruction.ICmp inst))
      ∧ (∀ pred x y inst, NewFCmp pred x y = some inst →
        (b.NewFCmp pred x y).1 = some inst
          ∧ appendedTo b (b.NewFCmp pred x y).2 (Instruction.FCmp inst))
      ∧ (∀ incs inst, NewPhi incs = some inst →
        (b.NewPhi incs).1 = some inst
          ∧ appendedTo b (b.NewPhi incs).2 (Instruction.Phi inst))
      ∧ (∀ cond x y,
        (b.NewSelect cond x y).1 = NewSelect cond x y
          ∧ appendedTo b (b.NewSelect cond x y).2 (Instruction.Select (NewSelect cond x y)))
      ∧ (∀ callee args inst, NewCall callee args = some inst →
        (b.NewCall callee args).1 = some inst
          ∧ appendedTo b (b.NewCall callee args).2 (Instruction.Call inst))
      ∧ (∀ vaList argType,
        (b.NewVAArg vaList argType).1 = NewVAArg vaList argType
          ∧ appendedTo b (b.NewVAArg vaList argType).2
              (Instruction.VAArg (NewVAArg vaList argType)))
      ∧ (∀ resultType clauses,
        (b.NewLandingPad resultType clauses).1 = NewLandingPad resultType clauses
          ∧ appendedTo b (b.NewLandingPad resultType clauses).2
              (Instruction.LandingPad (NewLandingPad resultType clauses)))
      ∧ (∀ scope args,
        (b.NewCatchPad scope args).1 = NewCatchPad scope args
          ∧ appendedTo b (b.NewCatchPad scope args).2
              (Instruction.CatchPad (NewCatchPad scope args)))
      ∧ (∀ scope args,
        (b.NewCleanupPad scope args).1 = NewCleanupPad scope args
          ∧ appendedTo b (b.NewCleanupPad scope args).2
              (Instruction.CleanupPad (NewCleanupPad scope args))) := by
  refine ⟨?_, ?_, ?_, ?_, ?_, ?_, ?_, ?_, ?_⟩
  · intro pred x y inst h
    simp only [Block.NewICmp, h]
    exact ⟨trivial, appendedTo_appendInst b _⟩
  · intro pred x y inst h
    simp only [Block.NewFCmp, h]
    exact ⟨trivial, appendedTo_appendInst b _⟩
  · intro incs inst h
    simp only [Block.NewPhi, h]
    exact ⟨trivial, appendedTo_appendInst b _⟩
  · intro cond x y
    exact ⟨rfl, appendedTo_appendInst b _⟩
  · intro callee args inst h
    simp only [Block.NewCall, h]
    exact ⟨trivial, appendedTo_appendInst b _⟩
  · intro vaList argType
    exact ⟨rfl, appendedTo_appendInst b _⟩
  · intro resultType clauses
    exact ⟨rfl, appendedTo_appendInst b _⟩
  · intro scope args
    exact ⟨rfl, appendedTo_appendInst b _⟩
  · intro scope args
    exact ⟨rfl, appendedTo_appendInst b _⟩

/-- C15 at the block `%entry`, which holds one instruction and a terminator:
after `NewICmp eq i32 %a, %b` it holds two instructions, the icmp last, and the
same terminator. -/
theorem C15_instruction_helpers_append_witness :
    ∃ inst, NewICmp IPred.IPredEQ valA valB = some inst
      ∧ (blockEntry.NewICmp IPred.IPredEQ valA valB).1 = some inst
      ∧ (blockEntry.NewICmp IPred.IPredEQ valA valB).2.Insts
          = [Instruction.Other "%x = add i32 1, 2", Instruction.ICmp inst]
      ∧ (blockEntry.NewICmp IPred.IPredEQ valA valB).2.Term
          = some (Terminator.Unreachable NewUnreachable) := by
  refine ⟨{ LocalIdent := LocalIdent.zero, Pred := IPred.IPredEQ, X := valA, Y := valB,
            Typ := some I1, Metadata := [] }, rfl, ?_⟩
  have h := (C15_instruction_helpers_append blockEntry).1 IPred.IPredEQ valA valB
    { LocalIdent := LocalIdent.zero, Pred := IPred.IPredEQ, X := valA, Y := valB,
      Typ := some I1, Metadata := [] } rfl
  exact ⟨h.1, h.2.1, h.2.2.2.2⟩

/-- C16: for every block `b`, whatever terminator it held, each of the eleven
terminator helpers returns the terminator its standalone constructor builds
and leaves a block whose terminator is that terminator and whose instruction
list is that of `b`; for invoke this holds whenever the constructor builds a
terminator. -/
theorem C16_terminator_helpers_set_term (b : Block) :
    (∀ x, (b.NewRet x).1 = NewRet x
        ∧ terminatedBy b (b.NewRet x).2 (Terminator.Ret (NewRet x)))
      ∧ (∀ target, (b.NewBr target).1 = NewBr target
        ∧ terminatedBy b (b.NewBr target).2 (Terminator.Br (NewBr target)))
      ∧ (∀ cond t f, (b.NewCondBr cond t f).1 = NewCondBr cond t f
        ∧ terminatedBy b (b.NewCondBr cond t f).2 (Terminator.CondBr (NewCondBr cond t f)))
      ∧ (∀ x d cases, (b.NewSwitch x d cases).1 = NewSwitch x d cases
        ∧ terminatedBy b (b.NewSwitch x d cases).2 (Terminator.Switch (NewSwitch x d cases)))
      ∧ (∀ addr targets, (b.NewIndirectBr addr targets).1 = NewIndirectBr addr targets
        ∧ terminatedBy b (b.NewIndirectBr addr targets).2
            (Terminator.IndirectBr (NewIndirectBr addr targets)))
      ∧ (∀ invokee args normal exc term, NewInvoke invokee args normal exc = some term →
        (b.NewInvoke invokee args normal exc).1 = some term
          ∧ terminatedBy b (b.NewInvoke invokee args normal exc).2 (Terminator.Invoke term))
      ∧ (∀ x, (b.NewResume x).1 = NewResume x
        ∧ terminatedBy b (b.NewResume x).2 (Terminator.Resume (NewResume x)))
      ∧ (∀ scope handlers unwind,
        (b.NewCatchSwitch scope handlers unwind).1 = NewCatchSwitch scope handlers unwind
          ∧ terminatedBy b (b.NewCatchSwitch scope handlers unwind).2
              (Terminator.CatchSwitch (NewCatchSwitch scope handlers unwind)))
      ∧ (∀ src target, (b.NewCatchRet src target).1 = NewCatchRet src target
        ∧ terminatedBy b (b.NewCatchRet src target).2
            (Terminator.CatchRet (NewCatchRet src target)))
      ∧ (∀ src target, (b.NewCleanupRet src target).1 = NewCleanupRet src target
        ∧ terminatedBy b (b.NewCleanupRet src target).2
            (Terminator.CleanupRet (NewCleanupRet src target)))
      ∧ ((b.NewUnreachable).1 = NewUnreachable
        ∧ terminatedBy b (b.NewUnreachable).2 (Terminator.Unreachable NewUnreachable)) := by
  refine ⟨?_, ?_, ?_, ?_, ?_, ?_, ?_, ?_, ?_, ?_, ?_⟩
  · intro x; exact ⟨rfl, terminatedBy_setTerm b _⟩
  · intro target; exact ⟨rfl, terminatedBy_setTerm b _⟩
  · intro cond t f; exact ⟨rfl, terminatedBy_setTerm b _⟩
  · intro x d cases; exact ⟨rfl, terminatedBy_setTerm b _⟩
  · intro addr targets; exact ⟨rfl, terminatedBy_setTerm b _⟩
  · intro invokee args normal exc term h
    simp only [Block.NewInvoke, h]
    exact ⟨trivial, terminatedBy_setTerm b _⟩
  · intro x; exact ⟨rfl, terminatedBy_setTerm b _⟩
  · intro scope handlers unwind; exact ⟨rfl, terminatedBy_setTerm b _⟩
  · intro src target; exact ⟨rfl, terminatedBy_setTerm b _⟩
  · intro src target; exact ⟨rfl, terminatedBy_setTerm b _⟩
  · exact ⟨rfl, terminatedBy_setTerm b _⟩

/-- C16 at the block `%entry`, whose terminator is `unreachable`: after
`NewRet` of `i32 %a` the terminator is that ret and the one instruction is
still there. -/
theorem C16_terminator_helpers_set_term_witness :
    blockEntry.Term = some (Terminator.Unreachable NewUnreachable)
      ∧ (blockEntry.NewRet (some valA)).2.Term = some (Terminator.Ret (NewRet (some valA)))
      ∧ (blockEntry.NewRet (some valA)).2.Insts = [Instruction.Other "%x = add i32 1, 2"] :=
  ⟨rfl, ((C16_terminator_helpers_set_term blockEntry).1 (some valA)).2.1,
    ((C16_terminator_helpers_set_term blockEntry).1 (some valA)).2.2⟩

/-! ## Type derivation is idempotent -/

theorem icmpType_twice (inst : InstICmp) (t : Typ) (inst1 : InstICmp)
    (h : inst.type = some (t, inst1)) : inst1.type = some (t, inst1) := by
  unfold InstICmp.type at h
  cases hT : inst.Typ with
  | some t0 =>
    simp only [hT, Option.some.injEq, Prod.mk.injEq] at h
    obtain ⟨h1, h2⟩ := h
    subst h1
    subst h2
    simp [InstICmp.type, hT]
  | none =>
    simp only [hT] at h
    cases hx : inst.X.type <;> simp only [hx, Option.some.injEq, Prod.mk.injEq] at h <;>
      first
        | (obtain ⟨h1, h2⟩ := h
           subst h1
           subst h2
           simp [InstICmp.type])
        | cases h

theorem fcmpType_twice (inst : InstFCmp) (t : Typ) (inst1 : InstFCmp)
    (h : inst.type = some (t, inst1)) : inst1.type = some (t, inst1) := by
  unfold InstFCmp.type at h
  cases hT : inst.Typ with
  | some t0 =>
    simp only [hT, Option.some.injEq, Prod.mk.injEq] at h
    obtain ⟨h1, h2⟩ := h
    subst h1
    subst h2
    simp [InstFCmp.type, hT]
  | none =>
    simp only [hT] at h
    cases hx : inst.X.type <;> simp only [hx, Option.some.injEq, Prod.mk.injEq] at h <;>
      first
        | (obtain ⟨h1, h2⟩ := h
           subst h1
           subst h2
           simp [InstFCmp.type])
        | cases h

theorem phiType_twice (inst : InstPhi) (t : Typ) (inst1 : InstPhi)
    (h : inst.type = some (t, inst1)) : inst1.type = some (t, inst1) := by
  unfold InstPhi.type at h
  cases hT : inst.Typ with
  | some t0 =>
    simp only [hT, Option.some.injEq, Prod.mk.injEq] at h
    obtain ⟨h1, h2⟩ := h
    subst h1
    subst h2
    simp [InstPhi.type, hT]
  | none =>
    simp only [hT] at h
    cases hi : inst.Incs with
    | nil => simp [hi] at h
    | cons inc rest =>
      simp only [hi, Option.some.injEq, Prod.mk.injEq] at h
      obtain ⟨h1, h2⟩ := h
      subst h1
      subst h2
      simp [InstPhi.type]

theorem selectType_twice (inst : InstSelect) : (inst.type).2.type = inst.type := by
  unfold InstSelect.type
  cases hT : inst.Typ with
  | some t0 => simp [hT]
  | none => simp

theorem gepExprType_twice (e : ExprGetElementPtr) (t : Typ) (e1 : ExprGetElementPtr)
    (h : e.type = some (t, e1)) : e1.type = some (t, e1) := by
  obtain ⟨elemType, _, h1, h2, _, _, _⟩ := gepType_some_fields e t e1 h
  have hc : e1.cacheElemType = some elemType := by simp [ExprGetElementPtr.cacheElemType, h1]
  simp only [ExprGetElementPtr.type, hc, h2, Option.some.injEq, Prod.mk.injEq, true_and]
  cases e1
  simp only [ExprGetElementPtr.mk.injEq, and_true, true_and] at *
  exact ⟨h1.symm, h2.symm⟩

/-- C17: for an icmp, an fcmp, a phi, a call and a getelementptr constant
expression on which `Type()` succeeds with the type `t` and leaves the value
`v1`, a second `Type()` on `v1` returns `t` again and leaves `v1` as it is,
cached type included; `Type()` of a select always succeeds, and a second call
returns the same type and the same value as the first. -/
theorem C17_type_is_idempotent :
    (∀ (inst : InstICmp) (t : Typ) (inst1 : InstICmp),
        inst.type = some (t, inst1) → inst1.type = some (t, inst1))
      ∧ (∀ (inst : InstFCmp) (t : Typ) (inst1 : InstFCmp),
        inst.type = some (t, inst1) → inst1.type = some (t, inst1))
      ∧ (∀ (inst : InstPhi) (t : Typ) (inst1 : InstPhi),
        inst.type = some (t, inst1) → inst1.type = some (t, inst1))
      ∧ (∀ inst : InstSelect, (inst.type).2.type = inst.type)
      ∧ (∀ (inst : InstCall) (t : Typ) (inst1 : InstCall),
        inst.type = some (t, inst1) → inst1.type = some (t, inst1))
      ∧ (∀ (e : ExprGetElementPtr) (t : Typ) (e1 : ExprGetElementPtr),
        e.type = some (t, e1) → e1.type = some (t, e1)) :=
  ⟨icmpType_twice, fcmpType_twice, phiType_twice, selectType_twice, callType_twice,
    gepExprType_twice⟩

/-- C17 at the call `call void @f(i32 %x)`: the first `Type()` caches `void`,
the second returns `void` from the cache and changes nothing. -/
theorem C17_type_is_idempotent_witness :
    callVoidF.type = some (Typ.VoidType, { callVoidF with Typ := some Typ.VoidType })
      ∧ InstCall.type { callVoidF with Typ := some Typ.VoidType }
          = some (Typ.VoidType, { callVoidF with Typ := some Typ.VoidType }) :=
  ⟨rfl, C17_type_is_idempotent.2.2.2.2.1 callVoidF Typ.VoidType
    { callVoidF with Typ := some Typ.VoidType } rfl⟩

/-! ## The textual form of the instructions -/

theorem metadataString_nil : metadataString [] = "" := rfl

theorem callLLString_strip_metadata (inst : InstCall) :
    inst.LLString.map Prod.fst
      = (InstCall.LLString { inst with Metadata := [] }).map
          (fun p => p.1 ++ String.join (inst.Metadata.map fun md => ", " ++ md.string)) := by
  have hc : InstCall.cacheTyp { inst with Metadata := [] } = inst.cacheTyp := rfl
  cases ht : inst.cacheTyp with
  | none =>
    rw [ht] at hc
    simp [InstCall.LLString, InstCall.type, ht, hc]
  | some t =>
    rw [ht] at hc
    have h1 : inst.type = some (retTypeOrSelf t, { inst with Typ := some t }) := by
      simp [InstCall.type, ht]
    have h2 := callType_twice inst _ _ h1
    have h3 : InstCall.type { inst with Metadata := [] }
        = some (retTypeOrSelf t, { inst with Metadata := [], Typ := some t }) := by
      simp [InstCall.type, hc]
    have h4 := callType_twice _ _ _ h3
    simp only [InstCall.LLString, h1, h2, h3, h4, Option.map_some', InstCall.beforeType,
      InstCall.modifiers, InstCall.printedType, InstCall.afterCallee, metadataString,
      List.map_nil, String.join, List.foldl_nil, String.append_empty, String.append_assoc]

/-- C18: for each of the nine instructions of the family, `LLString` of the
instruction is `LLString` of the same instruction with an empty metadata list,
followed by `, ` and the attachment for every metadata attachment in order; for
a call, whose `LLString` derives the type, the two succeed or fail together. -/
theorem C18_metadata_attachments_come_last :
    (∀ inst : InstICmp, inst.LLString
        = InstICmp.LLString { inst with Metadata := [] }
          ++ String.join (inst.Metadata.map fun md => ", " ++ md.string))
      ∧ (∀ inst : InstFCmp, inst.LLString
        = InstFCmp.LLString { inst with Metadata := [] }
          ++ String.join (inst.Metadata.map fun md => ", " ++ md.string))
      ∧ (∀ inst : InstPhi, inst.LLString
        = InstPhi.LLString { inst with Metadata := [] }
          ++ String.join (inst.Metadata.map fun md => ", " ++ md.string))
      ∧ (∀ inst : InstSelect, inst.LLString
        = InstSelect.LLString { inst with Metadata := [] }
          ++ String.join (inst.Metadata.map fun md => ", " ++ md.string))
      ∧ (∀ inst : InstCall, inst.LLString.map Prod.fst
        = (InstCall.LLString { inst with Metadata := [] }).map
            (fun p => p.1 ++ String.join (inst.Metadata.map fun md => ", " ++ md.string)))
      ∧ (∀ inst : InstVAArg, inst.LLString
        = InstVAArg.LLString { inst with Metadata := [] }
          ++ String.join (inst.Metadata.map fun md => ", " ++ md.string))
      ∧ (∀ inst : InstLandingPad, inst.LLString
        = InstLandingPad.LLString { inst with Metadata := [] }
          ++ String.join (inst.Metadata.map fun md => ", " ++ md.string))
      ∧ (∀ inst : InstCatchPad, inst.LLString
        = InstCatchPad.LLString { inst with Metadata := [] }
          ++ String.join (inst.Metadata.map fun md => ", " ++ md.string))
      ∧ (∀ inst : InstCleanupPad, inst.LLString
        = InstCleanupPad.LLString { inst with Metadata := [] }
          ++ String.join (inst.Metadata.map fun md => ", " ++ md.string)) := by
  refine ⟨?_, ?_, ?_, ?_, callLLString_strip_metadata, ?_, ?_, ?_, ?_⟩
  · intro inst
    simp only [InstICmp.LLString, metadataString, List.map_nil, String.join, List.foldl_nil,
      String.append_empty]
  · intro inst
    simp only [InstFCmp.LLString, metadataString, List.map_nil, String.join, List.foldl_nil,
      String.append_empty]
  · intro inst
    simp only [InstPhi.LLString, metadataString, List.map_nil, String.join, List.foldl_nil,
      String.append_empty]
  · intro inst
    simp only [InstSelect.LLString, metadataString, List.map_nil, String.join, List.foldl_nil,
      String.append_empty]
  · intro inst
    simp only [InstVAArg.LLString, metadataString, List.map_nil, String.join, List.foldl_nil,
      String.append_empty]
  · intro inst
    simp only [InstLandingPad.LLString, metadataString, List.map_nil, String.join,
      List.foldl_nil, String.append_empty]
  · intro inst
    simp only [InstCatchPad.LLString, metadataString, List.map_nil, String.join,
      List.foldl_nil, String.append_empty]
  · intro inst
    simp only [InstCleanupPad.LLString, metadataString, List.map_nil, String.join,
      List.foldl_nil, String.append_empty]

/-- C19: `LLString` of an icmp without metadata is the result identifier,
` = icmp `, the predicate, a space, `X` as a type-value pair, `, ` and the
identifier of `Y` alone: the operand type is printed once, with `X`. -/
theorem C19_icmp_text (inst : InstICmp) (h : inst.Metadata = []) :
    inst.LLString
      = inst.LocalIdent.Ident ++ " = icmp " ++ inst.Pred.string ++ " " ++ inst.X.string
        ++ ", " ++ inst.Y.Ident := by
  have e : (" = icmp " : String) = " = " ++ "icmp " := rfl
  simp only [InstICmp.LLString, h, metadataString, List.map_nil, String.join, List.foldl_nil,
    String.append_empty, e, String.append_assoc]

/-- C19, the scenario of the specification: the icmp built by
`NewICmp eq i32 %a, %b`, an unnamed local with the id 0, prints as
`%0 = icmp eq i32 %a, %b` and has the type `i1`. -/
theorem C19_icmp_text_witness :
    ∃ inst, NewICmp IPred.IPredEQ valA valB = some inst
      ∧ inst.Typ = some (Typ.IntType 1)
      ∧ inst.LLString = "%0 = icmp eq i32 %a, %b" := by
  refine ⟨{ LocalIdent := LocalIdent.zero, Pred := IPred.IPredEQ, X := valA, Y := valB,
            Typ := some I1, Metadata := [] }, rfl, rfl, ?_⟩
  rw [C19_icmp_text _ rfl]
  decide

theorem clauseType_string_head (c : ClauseType) :
    ∃ ch rest, c.string.data = ch :: rest ∧ ch ≠ '\t' := by
  unfold ClauseType.string
  by_cases h1 : c.val = 1
  · rw [if_pos h1]
    exact ⟨'c', "atch".data, rfl, by decide⟩
  · rw [if_neg h1]
    by_cases h2 : c.val = 2
    · rw [if_pos h2]
      exact ⟨'f', "ilter".data, rfl, by decide⟩
    · rw [if_neg h2]
      refine ⟨'C', "lauseType(".data ++ (toString c.val ++ ")").data, ?_, by decide⟩
      rw [String.append_assoc, String.data_append]
      rfl

/-- C20: `LLString` of a landingpad is the result identifier, ` = landingpad `
and the result type, then a newline, two tabs and `cleanup` exactly when
`Cleanup` is set, then for every clause in order a newline, two tabs, the
clause type, a space and the operand as a type-value pair, then the metadata
attachments. The text after the two tabs of a continuation line never begins
with a tab (it begins with `cleanup` or with the clause type), so every
continuation line starts with exactly two tabs. -/
theorem C20_landingpad_text (inst : InstLandingPad) :
    inst.LLString
        = inst.LocalIdent.Ident ++ " = landingpad " ++ inst.ResultType.string
          ++ (if inst.Cleanup then "\n\t\tcleanup" else "")
          ++ String.join (inst.Clauses.map fun clause =>
              "\n\t\t" ++ clause.clauseType.string ++ " " ++ clause.X.string)
          ++ String.join (inst.Metadata.map fun md => ", " ++ md.string)
      ∧ (∀ clause : Clause, ∃ ch rest,
          (clause.clauseType.string ++ " " ++ clause.X.string).data = ch :: rest ∧ ch ≠ '\t')
      ∧ "\n\t\tcleanup".data = ['\n', '\t', '\t', 'c', 'l', 'e', 'a', 'n', 'u', 'p'] := by
  refine ⟨?_, ?_, rfl⟩
  · have e : (" = landingpad " : String) = " = " ++ "landingpad " := rfl
    simp only [InstLandingPad.LLString, Clause.string, metadataString, e, String.append_assoc]
  · intro clause
    obtain ⟨ch, rest, hd, hne⟩ := clauseType_string_head clause.clauseType
    refine ⟨ch, rest ++ (" " ++ clause.X.string).data, ?_, hne⟩
    rw [String.append_assoc, String.data_append, hd]
    rfl

/-! ## The keyword lookups -/

theorem clauseType_slices :
    (List.range 2).map (fun i => asmenum.sliceString asmenum._ClauseType_name
        (asmenum._ClauseType_index.getD i 0) (asmenum._ClauseType_index.getD (i + 1) 0))
      = clauseTypeKeywords := by
  decide

set_option maxRecDepth 100000 in
theorem funcAttr_slices :
    (List.range 42).map (fun i => asmenum.sliceString asmenum._FuncAttr_name
        (asmenum._FuncAttr_index.getD i 0) (asmenum._FuncAttr_index.getD (i + 1) 0))
      = funcAttrKeywords := by
  decide

theorem lookup_some (name : String) (index : List Nat) (s : String) (i : Nat)
    (h : asmenum.lookup name index s = some i) :
    i < index.length - 1
      ∧ s = asmenum.sliceString name (index.getD i 0) (index.getD (i + 1) 0) := by
  unfold asmenum.lookup at h
  have h1 := List.find?_some h
  have h2 := List.mem_of_find?_eq_some h
  exact ⟨List.mem_range.1 h2, by simpa using h1⟩

theorem lookup_none_of_not_mem (name : String) (index : List Nat) (s : String)
    (kws : List String)
    (hk : (List.range (index.length - 1)).map (fun i => asmenum.sliceString name
        (index.getD i 0) (index.getD (i + 1) 0)) = kws)
    (hs : s ∉ kws) : asmenum.lookup name index s = none := by
  unfold asmenum.lookup
  rw [List.find?_eq_none]
  intro i hi hb
  apply hs
  rw [← hk]
  have he : s = asmenum.sliceString name (index.getD i 0) (index.getD (i + 1) 0) := by
    simpa using hb
  exact List.mem_map.2 ⟨i, hi, he.symm⟩

theorem string_length_ne_zero (s : String) (h : s ≠ "") : s.length ≠ 0 := by
  intro h0
  apply h
  cases s with
  | mk data =>
    have : data = [] := List.length_eq_zero.1 h0
    subst this
    rfl

set_option maxRecDepth 100000 in
theorem funcAttr_keyword_values :
    ∀ i, i < 42 → asmenum.FuncAttrFromString (funcAttrKeywords.getD i "") = some { val := i } := by
  decide

theorem funcAttr_keywords_nodup : funcAttrKeywords.Nodup := by
  decide

theorem funcAttr_mem_keywords (s : String) (h : s ∈ funcAttrKeywords) :
    ∃ j, j < 42 ∧ s = funcAttrKeywords.getD j "" := by
  obtain ⟨n, hn, rfl⟩ := List.getElem_of_mem h
  have hlen : funcAttrKeywords.length = 42 := rfl
  refine ⟨n, by omega, ?_⟩
  rw [List.getD_eq_getElem _ _ hn]

/-- C23: `ClauseTypeFromString` maps `catch` to `ClauseTypeCatch` (value 1) and
`filter` to `ClauseTypeFilter` (value 2); for every `i` from 0 to 41
`FuncAttrFromString` maps the `i`-th keyword of its table to the variant of
value `i`; the 42 keywords are pairwise distinct and distinct keywords map to
distinct variants, `ssp`, `sspreq` and `sspstrong` among them; and every
variant is the image of exactly one keyword. -/
theorem C23_keyword_lookups_invert_tables :
    asmenum.ClauseTypeFromString "catch" = some ClauseTypeCatch
      ∧ ClauseTypeCatch.val = 1
      ∧ asmenum.ClauseTypeFromString "filter" = some ClauseTypeFilter
      ∧ ClauseTypeFilter.val = 2
      ∧ funcAttrKeywords.length = 42
      ∧ funcAttrKeywords.head? = some "alwaysinline"
      ∧ funcAttrKeywords.getLast? = some "writeonly"
      ∧ (∀ i, i < 42 →
          asmenum.FuncAttrFromString (funcAttrKeywords.getD i "") = some { val := i })
      ∧ (∀ i j, i < 42 → j < 42 → i ≠ j →
          funcAttrKeywords.getD i "" ≠ funcAttrKeywords.getD j ""
            ∧ asmenum.FuncAttrFromString (funcAttrKeywords.getD i "")
                ≠ asmenum.FuncAttrFromString (funcAttrKeywords.getD j ""))
      ∧ asmenum.FuncAttrFromString "ssp" = some { val := 35 }
      ∧ asmenum.FuncAttrFromString "sspreq" = some { val := 36 }
      ∧ asmenum.FuncAttrFromString "sspstrong" = some { val := 37 }
      ∧ (∀ i, i < 42 →
          ∃! s, s ∈ funcAttrKeywords ∧ asmenum.FuncAttrFromString s = some { val := i })
      ∧ (∃! s, s ∈ clauseTypeKeywords ∧ asmenum.ClauseTypeFromString s = some ClauseTypeCatch)
      ∧ (∃! s, s ∈ clauseTypeKeywords
          ∧ asmenum.ClauseTypeFromString s = some ClauseTypeFilter) := by
  refine ⟨by decide, rfl, by decide, rfl, rfl, rfl, rfl, funcAttr_keyword_values, ?_,
    by decide, by decide, by decide, ?_, ?_, ?_⟩
  · intro i j hi hj hij
    have hv : asmenum.FuncAttrFromString (funcAttrKeywords.getD i "")
        ≠ asmenum.FuncAttrFromString (funcAttrKeywords.getD j "") := by
      rw [funcAttr_keyword_values i hi, funcAttr_keyword_values j hj]
      intro h
      simp only [Option.some.injEq, FuncAttr.mk.injEq] at h
      exact hij h
    refine ⟨?_, hv⟩
    intro h
    rw [h] at hv
    exact hv rfl
  · intro i hi
    refine ⟨funcAttrKeywords.getD i "", ⟨?_, funcAttr_keyword_values i hi⟩, ?_⟩
    · have hlen : funcAttrKeywords.length = 42 := rfl
      rw [List.getD_eq_getElem _ _ (by omega)]
      exact List.getElem_mem _
    · rintro s ⟨hs, hv⟩
      obtain ⟨j, hj, rfl⟩ := funcAttr_mem_keywords s hs
      rw [funcAttr_keyword_values j hj] at hv
      simp only [Option.some.injEq, FuncAttr.mk.injEq] at hv
      rw [hv]
  · refine ⟨"catch", ⟨by decide, by decide⟩, ?_⟩
    rintro s ⟨hs, hv⟩
    simp only [clauseTypeKeywords, List.mem_cons, List.mem_singleton, List.not_mem_nil,
      or_false] at hs
    rcases hs with rfl | rfl
    · rfl
    · exact absurd hv (by decide)
  · refine ⟨"filter", ⟨by decide, by decide⟩, ?_⟩
    rintro s ⟨hs, hv⟩
    simp only [clauseTypeKeywords, List.mem_cons, List.mem_singleton, List.not_mem_nil,
      or_false] at hs
    rcases hs with rfl | rfl
    · exact absurd hv (by decide)
    · rfl

/-- C23 at the keyword of index 36, `sspreq`, of which `ssp` is a prefix. -/
theorem C23_keyword_lookups_invert_tables_witness :
    funcAttrKeywords.getD 36 "" = "sspreq"
      ∧ asmenum.FuncAttrFromString (funcAttrKeywords.getD 36 "") = some { val := 36 } :=
  ⟨rfl, C23_keyword_lookups_invert_tables.2.2.2.2.2.2.2.1 36 (by decide)⟩

/-- C24, as stated, fails: the empty string is the keyword of no variant, yet
both lookups return the value 0 for it instead of failing; for the function
attributes that is the value of `alwaysinline`. -/
theorem C24_counterexample_empty_string :
    "" ∉ clauseTypeKeywords ∧ "" ∉ funcAttrKeywords
      ∧ asmenum.ClauseTypeFromString "" = some { val := 0 }
      ∧ asmenum.FuncAttrFromString "" = some { val := 0 }
      ∧ asmenum.FuncAttrFromString "alwaysinline" = some { val := 0 } := by
  refine ⟨by decide, by decide, rfl, rfl, by decide⟩

/-- C24, amended: for every non-empty string that is not the keyword of an enum
variant, `ClauseTypeFromString` and `FuncAttrFromString` fail rather than
return an enum value. -/
theorem C24_unknown_nonempty_keyword_fails (s : String) (hne : s ≠ "") :
    (s ∉ clauseTypeKeywords → asmenum.ClauseTypeFromString s = none)
      ∧ (s ∉ funcAttrKeywords → asmenum.FuncAttrFromString s = none) := by
  have hl := string_length_ne_zero s hne
  constructor
  · intro hs
    have h := lookup_none_of_not_mem asmenum._ClauseType_name asmenum._ClauseType_index s
      clauseTypeKeywords clauseType_slices hs
    simp [asmenum.ClauseTypeFromString, hl, h]
  · intro hs
    have h := lookup_none_of_not_mem asmenum._FuncAttr_name asmenum._FuncAttr_index s
      funcAttrKeywords funcAttr_slices hs
    simp [asmenum.FuncAttrFromString, hl, h]

/-- C24, amended, at the string `cleanup`, which is no clause type and no
function attribute. -/
theorem C24_unknown_nonempty_keyword_fails_witness :
    asmenum.ClauseTypeFromString "cleanup" = none
      ∧ asmenum.FuncAttrFromString "cleanup" = none :=
  ⟨(C24_unknown_nonempty_keyword_fails "cleanup" (by decide)).1 (by decide),
    (C24_unknown_nonempty_keyword_fails "cleanup" (by decide)).2 (by decide)⟩

/-! ## landingpad clauses and the typed reference form -/

/-- C21 at the failing input: `NewLandingPad` on the result type `{ i8*, i32 }`
with no clause returns a landingpad whose `Cleanup` is false and which has no
clause, against the rule of one or more clauses stated on the field
`Clauses`. -/
theorem C21_failing_input_no_clause :
    (NewLandingPad padResult []).Cleanup = false
      ∧ (NewLandingPad padResult []).Clauses.length = 0 :=
  ⟨rfl, rfl⟩

/-- C21, the extent of the defect: `NewLandingPad` leaves `Cleanup` false and
keeps the clause list it is given without a check, so the landingpad it returns
has at least one clause exactly when at least one clause was passed. -/
theorem C21_NewLandingPad_keeps_clauses_unchecked (resultType : Typ) (clauses : List Clause) :
    (NewLandingPad resultType clauses).Cleanup = false
      ∧ (NewLandingPad resultType clauses).Clauses = clauses
      ∧ (1 ≤ (NewLandingPad resultType clauses).Clauses.length ↔ clauses ≠ []) := by
  refine ⟨rfl, rfl, ?_⟩
  cases clauses with
  | nil => simp [NewLandingPad]
  | cons c rest => simp [NewLandingPad]

theorem icmpType_ident (inst : InstICmp) (t : Typ) (inst1 : InstICmp)
    (h : inst.type = some (t, inst1)) : inst1.LocalIdent = inst.LocalIdent := by
  unfold InstICmp.type at h
  cases hT : inst.Typ with
  | some t0 =>
    simp only [hT, Option.some.injEq, Prod.mk.injEq] at h
    rw [← h.2]
  | none =>
    simp only [hT] at h
    cases hx : inst.X.type <;> simp only [hx, Option.some.injEq, Prod.mk.injEq] at h <;>
      first
        | (obtain ⟨_, h2⟩ := h
           rw [← h2])
        | cases h

theorem fcmpType_ident (inst : InstFCmp) (t : Typ) (inst1 : InstFCmp)
    (h : inst.type = some (t, inst1)) : inst1.LocalIdent = inst.LocalIdent := by
  unfold InstFCmp.type at h
  cases hT : inst.Typ with
  | some t0 =>
    simp only [hT, Option.some.injEq, Prod.mk.injEq] at h
    rw [← h.2]
  | none =>
    simp only [hT] at h
    cases hx : inst.X.type <;> simp only [hx, Option.some.injEq, Prod.mk.injEq] at h <;>
      first
        | (obtain ⟨_, h2⟩ := h
           rw [← h2])
        | cases h

theorem phiType_ident (inst : InstPhi) (t : Typ) (inst1 : InstPhi)
    (h : inst.type = some (t, inst1)) : inst1.LocalIdent = inst.LocalIdent := by
  unfold InstPhi.type at h
  cases hT : inst.Typ with
  | some t0 =>
    simp only [hT, Option.some.injEq, Prod.mk.injEq] at h
    rw [← h.2]
  | none =>
    simp only [hT] at h
    cases hi : inst.Incs with
    | nil => simp [hi] at h
    | cons inc rest =>
      simp only [hi, Option.some.injEq, Prod.mk.injEq] at h
      rw [← h.2]

theorem callType_ident (inst : InstCall) (t : Typ) (inst1 : InstCall)
    (h : inst.type = some (t, inst1)) : inst1.LocalIdent = inst.LocalIdent := by
  obtain ⟨t0, _, _, hi⟩ := callType_some inst t inst1 h
  rw [hi]

/-- C22: for each of the nine instructions `String()` is the text of `Type()`,
one space and `Ident()`: for an icmp, fcmp, phi and call whenever `Type()`
succeeds with the type `t`, for the others always. For the call built on the
variadic callee `i32 (i8*, ...)* @printf` the type printed is the return type
`i32`, while `LLString` prints the signature `i32 (i8*, ...)`. -/
theorem C22_string_is_type_and_ident :
    (∀ (inst : InstICmp) (t : Typ) (inst1 : InstICmp), inst.type = some (t, inst1) →
        inst.string = some (t.string ++ " " ++ inst.LocalIdent.Ident, inst1))
      ∧ (∀ (inst : InstFCmp) (t : Typ) (inst1 : InstFCmp), inst.type = some (t, inst1) →
        inst.string = some (t.string ++ " " ++ inst.LocalIdent.Ident, inst1))
      ∧ (∀ (inst : InstPhi) (t : Typ) (inst1 : InstPhi), inst.type = some (t, inst1) →
        inst.string = some (t.string ++ " " ++ inst.LocalIdent.Ident, inst1))
      ∧ (∀ inst : InstSelect,
        inst.string = ((inst.type).1.string ++ " " ++ inst.LocalIdent.Ident, (inst.type).2))
      ∧ (∀ (inst : InstCall) (t : Typ) (inst1 : InstCall), inst.type = some (t, inst1) →
        inst.string = some (t.string ++ " " ++ inst.LocalIdent.Ident, inst1))
      ∧ (∀ inst : InstVAArg, inst.string = inst.type.string ++ " " ++ inst.LocalIdent.Ident)
      ∧ (∀ inst : InstLandingPad,
        inst.string = inst.type.string ++ " " ++ inst.LocalIdent.Ident)
      ∧ (∀ inst : InstCatchPad, inst.string = inst.type.string ++ " " ++ inst.LocalIdent.Ident)
      ∧ (∀ inst : InstCleanupPad,
        inst.string = inst.type.string ++ " " ++ inst.LocalIdent.Ident)
      ∧ NewCall calleePrintf [argS] = some callPrintf
      ∧ callPrintf.string = some ("i32 %0", callPrintf)
      ∧ callPrintf.LLString = some ("%0 = call i32 (i8*, ...) @printf(i8* %s)", callPrintf) := by
  refine ⟨?_, ?_, ?_, ?_, ?_, fun _ => rfl, fun _ => rfl, fun _ => rfl, fun _ => rfl, rfl, rfl,
    rfl⟩
  · intro inst t inst1 h
    simp only [InstICmp.string, h, icmpType_ident inst t inst1 h]
  · intro inst t inst1 h
    simp only [InstFCmp.string, h, fcmpType_ident inst t inst1 h]
  · intro inst t inst1 h
    simp only [InstPhi.string, h, phiType_ident inst t inst1 h]
  · intro inst
    unfold InstSelect.string InstSelect.type
    cases inst.Typ <;> rfl
  · intro inst t inst1 h
    simp only [InstCall.string, h, callType_ident inst t inst1 h]

/-- C22 at `icmp eq i32 %a, %b`, an unnamed local with the id 0: the typed
reference is `i1 %0`. -/
theorem C22_string_is_type_and_ident_witness :
    icmpAB.type = some (Typ.IntType 1, icmpAB)
      ∧ icmpAB.string = some ("i1 %0", icmpAB) := by
  refine ⟨rfl, ?_⟩
  rw [C22_string_is_type_and_ident.1 icmpAB (Typ.IntType 1) icmpAB rfl]
  rfl

/-! ## call: the order of the modifiers -/

/-- C25: for a call whose `Type()` succeeds with the result type `r`,
`LLString` is, in this order: the result identifier and ` = ` unless `r` is
void, the tail marker and a space if there is one, `call`, the fast-math
flags, the calling convention, the return attributes and the address space,
each preceded by a space and printed only when present, then a space, the
type, a space, the callee identifier, `(`, the arguments as type-value pairs
joined by `, `, `)`, the function attributes each preceded by a space, the
operand bundles between ` [ ` and ` ]` when the list is not empty, and the
metadata attachments each preceded by `, `. With every optional modifier
absent this is the optional prefix, `call `, the type, a space, the callee
identifier and the parenthesised arguments. -/
theorem C25_call_text_order (inst : InstCall) (r : Typ) (inst1 : InstCall)
    (h : inst.type = some (r, inst1)) :
    inst.LLString = some
        ((if r.EqualVoid then "" else inst.LocalIdent.Ident ++ " = ")
          ++ (if inst.Tail ≠ Tail.TailNone then inst.Tail.string ++ " " else "")
          ++ "call"
          ++ String.join (inst.FastMathFlags.map fun flag => " " ++ flag.string)
          ++ (if inst.CallingConv ≠ CallingConv.CallingConvNone
                then " " ++ callingConvString inst.CallingConv else "")
          ++ String.join (inst.ReturnAttrs.map fun attr => " " ++ attr.string)
          ++ (if inst.AddrSpace ≠ 0 then " " ++ addrSpaceString inst.AddrSpace else "")
          ++ " " ++ (inst1.printedType r).string ++ " " ++ inst.Callee.Ident ++ "("
          ++ ", ".intercalate (inst.Args.map fun arg => arg.string) ++ ")"
          ++ String.join (inst.FuncAttrs.map fun attr => " " ++ attr.string)
          ++ (if inst.OperandBundles.length > 0
                then " [ " ++ ", ".intercalate (inst.OperandBundles.map fun b => b.string) ++ " ]"
                else "")
          ++ String.join (inst.Metadata.map fun md => ", " ++ md.string), inst1)
      ∧ (inst.Tail = Tail.TailNone → inst.FastMathFlags = [] →
          inst.CallingConv = CallingConv.CallingConvNone → inst.ReturnAttrs = [] →
          inst.AddrSpace = 0 → inst.FuncAttrs = [] → inst.OperandBundles = [] →
          inst.Metadata = [] →
          inst.LLString = some
            ((if r.EqualVoid then "" else inst.LocalIdent.Ident ++ " = ")
              ++ "call " ++ (inst1.printedType r).string ++ " " ++ inst.Callee.Ident ++ "("
              ++ ", ".intercalate (inst.Args.map fun arg => arg.string) ++ ")", inst1)) := by
  have h1 := callType_twice inst r inst1 h
  obtain ⟨t, _, _, hi⟩ := callType_some inst r inst1 h
  have hLL : inst.LLString = some
      (inst1.beforeType r ++ " " ++ (inst1.printedType r).string ++ " " ++ inst1.Callee.Ident
        ++ "(" ++ inst1.afterCallee, inst1) := by
    simp only [InstCall.LLString, h, h1]
  have f1 : inst1.LocalIdent = inst.LocalIdent := by rw [hi]
  have f2 : inst1.Tail = inst.Tail := by rw [hi]
  have f3 : inst1.FastMathFlags = inst.FastMathFlags := by rw [hi]
  have f4 : inst1.CallingConv = inst.CallingConv := by rw [hi]
  have f5 : inst1.ReturnAttrs = inst.ReturnAttrs := by rw [hi]
  have f6 : inst1.AddrSpace = inst.AddrSpace := by rw [hi]
  have f7 : inst1.Callee = inst.Callee := by rw [hi]
  have f8 : inst1.Args = inst.Args := by rw [hi]
  have f9 : inst1.FuncAttrs = inst.FuncAttrs := by rw [hi]
  have f10 : inst1.OperandBundles = inst.OperandBundles := by rw [hi]
  have f11 : inst1.Metadata = inst.Metadata := by rw [hi]
  have hv : (if (!r.EqualVoid) = true then inst.LocalIdent.Ident ++ " = " else "")
      = (if r.EqualVoid = true then "" else inst.LocalIdent.Ident ++ " = ") := by
    cases r.EqualVoid <;> rfl
  have hfull : inst1.beforeType r ++ " " ++ (inst1.printedType r).string ++ " "
      ++ inst1.Callee.Ident ++ "(" ++ inst1.afterCallee
      = (if r.EqualVoid then "" else inst.LocalIdent.Ident ++ " = ")
          ++ (if inst.Tail ≠ Tail.TailNone then inst.Tail.string ++ " " else "")
          ++ "call"
          ++ String.join (inst.FastMathFlags.map fun flag => " " ++ flag.string)
          ++ (if inst.CallingConv ≠ CallingConv.CallingConvNone
                then " " ++ callingConvString inst.CallingConv else "")
          ++ String.join (inst.ReturnAttrs.map fun attr => " " ++ attr.string)
          ++ (if inst.AddrSpace ≠ 0 then " " ++ addrSpaceString inst.AddrSpace else "")
          ++ " " ++ (inst1.printedType r).string ++ " " ++ inst.Callee.Ident ++ "("
          ++ ", ".intercalate (inst.Args.map fun arg => arg.string) ++ ")"
          ++ String.join (inst.FuncAttrs.map fun attr => " " ++ attr.string)
          ++ (if inst.OperandBundles.length > 0
                then " [ " ++ ", ".intercalate (inst.OperandBundles.map fun b => b.string) ++ " ]"
                else "")
          ++ String.join (inst.Metadata.map fun md => ", " ++ md.string) := by
    simp only [InstCall.beforeType, InstCall.modifiers, InstCall.afterCallee, metadataString,
      f1, f2, f3, f4, f5, f6, f7, f8, f9, f10, f11, hv, String.append_assoc]
  refine ⟨by rw [hLL, hfull], ?_⟩
  intro g1 g2 g3 g4 g5 g6 g7 g8
  rw [hLL, hfull]
  have e : ("call " : String) = "call" ++ " " := rfl
  simp only [g1, g2, g3, g4, g5, g6, g7, g8, ne_eq, not_true_eq_false, if_false, List.map_nil,
    String.join, List.foldl_nil, List.length_nil, gt_iff_lt, lt_self_iff_false,
    String.append_empty, String.empty_append, e, String.append_assoc]

/-- C25 at `call void @f(i32 %x)`, which has no optional modifier. -/
theorem C25_call_text_order_witness :
    callVoidF.LLString
      = some ("call void @f(i32 %x)", { callVoidF with Typ := some Typ.VoidType }) := by
  rw [(C25_call_text_order callVoidF Typ.VoidType { callVoidF with Typ := some Typ.VoidType }
    rfl).2 rfl rfl rfl rfl rfl rfl rfl rfl]
  rfl

/-! ## Result types of the remaining instructions -/

/-- C26: the select built by `NewSelect cond x y` has the type of `x`, whatever
`cond` and `y` are; the type of a va_arg is its `ArgType` and of a landingpad
its `ResultType`, whatever their operands are; and the type of every catchpad
and every cleanuppad is the token type. -/
theorem C26_types_of_select_vaarg_and_pads :
    (∀ cond x y : Value,
        (NewSelect cond x y).Typ = some x.type
          ∧ (NewSelect cond x y).type = (x.type, NewSelect cond x y))
      ∧ (∀ cond cond2 x y y2 : Value,
        ((NewSelect cond x y).type).1 = ((NewSelect cond2 x y2).type).1)
      ∧ (∀ inst : InstVAArg, inst.type = inst.ArgType)
      ∧ (∀ (argList : Value) (argType : Typ), (NewVAArg argList argType).type = argType)
      ∧ (∀ inst : InstLandingPad, inst.type = inst.ResultType)
      ∧ (∀ (resultType : Typ) (clauses : List Clause),
        (NewLandingPad resultType clauses).type = resultType)
      ∧ (∀ inst : InstCatchPad, inst.type = Typ.TokenType)
      ∧ (∀ inst : InstCleanupPad, inst.type = Typ.TokenType) :=
  ⟨fun _ _ _ => ⟨rfl, rfl⟩, fun _ _ _ _ _ => rfl, fun _ => rfl, fun _ _ => rfl, fun _ => rfl,
    fun _ _ => rfl, fun _ => rfl, fun _ => rfl⟩

/-! ## NewGetElementPtr -/

/-- C27: `NewGetElementPtr src indices` takes the element type from the source:
the pointee when the source has pointer type, the pointee of the element type
when it is a vector of pointers; it fails when the source is a vector whose
element type is no pointer and when it has any other type. With the element
type `elem` found, the outcome is that of `gepType elem indices`: a failure, or
the expression whose cached type is the type `gepType` returns, which `Type()`
then answers. -/
theorem C27_NewGetElementPtr_element_type (src : Constant) (indices : List Constant) :
    (∀ elem a, src.type = Typ.PointerType elem a →
        NewGetElementPtr src indices
          = (gepType elem indices).map fun t =>
              { ElemType := some elem, Src := src, Indices := indices, Typ := some t,
                InBounds := false })
      ∧ (∀ n sc elem a, src.type = Typ.VectorType n sc (Typ.PointerType elem a) →
        NewGetElementPtr src indices
          = (gepType elem indices).map fun t =>
              { ElemType := some elem, Src := src, Indices := indices, Typ := some t,
                InBounds := false })
      ∧ (∀ n sc velem, src.type = Typ.VectorType n sc velem →
        (∀ elem a, velem ≠ Typ.PointerType elem a) → NewGetElementPtr src indices = none)
      ∧ ((∀ elem a, src.type ≠ Typ.PointerType elem a) →
        (∀ n sc velem, src.type ≠ Typ.VectorType n sc velem) →
        NewGetElementPtr src indices = none)
      ∧ (∀ e, NewGetElementPtr src indices = some e →
        ∃ elem t, e.ElemType = some elem ∧ gepType elem indices = some t
          ∧ e.type = some (t, e)) := by
  have key : ∀ elem, ExprGetElementPtr.cacheElemType
      { ElemType := none, Src := src, Indices := indices, Typ := none, InBounds := false }
        = some elem →
      NewGetElementPtr src indices
        = (gepType elem indices).map fun t =>
            { ElemType := some elem, Src := src, Indices := indices, Typ := some t,
              InBounds := false } := by
    intro elem hc
    simp only [NewGetElementPtr, ExprGetElementPtr.type, hc]
    cases gepType elem indices with
    | none => rfl
    | some t => rfl
  have keyNone : ExprGetElementPtr.cacheElemType
      { ElemType := none, Src := src, Indices := indices, Typ := none, InBounds := false }
        = none → NewGetElementPtr src indices = none := by
    intro hc
    simp only [NewGetElementPtr, ExprGetElementPtr.type, hc]
  refine ⟨?_, ?_, ?_, ?_, ?_⟩
  · intro elem a h
    exact key elem (by simp [ExprGetElementPtr.cacheElemType, h])
  · intro n sc elem a h
    exact key elem (by simp [ExprGetElementPtr.cacheElemType, h])
  · intro n sc velem h hv
    apply keyNone
    cases velem with
    | PointerType elem a => exact absurd rfl (hv elem a)
    | _ => simp [ExprGetElementPtr.cacheElemType, h]
  · intro hp hv
    apply keyNone
    cases hs : src.type with
    | PointerType elem a => exact absurd hs (hp elem a)
    | VectorType n sc velem => exact absurd hs (hv n sc velem)
    | _ => simp [ExprGetElementPtr.cacheElemType, hs]
  · intro e he
    cases hc : ExprGetElementPtr.cacheElemType
        { ElemType := none, Src := src, Indices := indices, Typ := none, InBounds := false } with
    | none =>
      rw [keyNone hc] at he
      cases he
    | some elem =>
      rw [key elem hc] at he
      cases hg : gepType elem indices with
      | none =>
        rw [hg] at he
        cases he
      | some t =>
        rw [hg] at he
        simp only [Option.map_some', Option.some.injEq] at he
        subst he
        exact ⟨elem, t, rfl, hg, by simp [ExprGetElementPtr.type, ExprGetElementPtr.cacheElemType]⟩

/-- C27 at the source `%T* @g` with the indices `(inrange i32 0, i32 2)`: the
element type is `%T` and the type of the expression is `i64*`. -/
theorem C27_NewGetElementPtr_element_type_witness :
    NewGetElementPtr (Constant.Other (Typ.PointerType structT 0))
        [inrangeZero, Constant.Int 32 2]
      = some { ElemType := some structT, Src := Constant.Other (Typ.PointerType structT 0),
               Indices := [inrangeZero, Constant.Int 32 2],
               Typ := some (Typ.PointerType (Typ.IntType 64) 0), InBounds := false } := by
  rw [(C27_NewGetElementPtr_element_type (Constant.Other (Typ.PointerType structT 0))
    [inrangeZero, Constant.Int 32 2]).1 structT 0 rfl]
  rfl

/-! ## icmp operands, stale caches and failing helpers -/

/-- C28 at the failing input: on the operand `<4 x float> %v`, a vector of
floating-point elements, `NewICmp` succeeds and the type is `<4 x i1>`, against
the operand kinds stated on the fields `X, Y` (integer or pointer, scalar or
vector). -/
theorem C28_failing_input_float_vector :
    vecFloat.type = Typ.VectorType 4 false (Typ.FloatType FloatKind.float)
      ∧ NewICmp IPred.IPredEQ vecFloat vecFloat
          = some { LocalIdent := LocalIdent.zero, Pred := IPred.IPredEQ, X := vecFloat,
                   Y := vecFloat, Typ := some (Typ.VectorType 4 false (Typ.IntType 1)),
                   Metadata := [] } :=
  ⟨rfl, rfl⟩

/-- C28, the extent of the defect: type derivation for an icmp succeeds exactly
when the type of `X` is an integer type, a pointer type or a vector type, of
whatever element type; for every other operand type it fails. -/
theorem C28_icmp_succeeds_iff_int_pointer_or_vector (pred : IPred) (x y : Value) :
    (∃ inst, NewICmp pred x y = some inst) ↔
      ((∃ bits, x.type = Typ.IntType bits) ∨ (∃ elem a, x.type = Typ.PointerType elem a)
        ∨ ∃ n sc elem, x.type = Typ.VectorType n sc elem) := by
  cases hx : x.type with
  | IntType bits => simp [NewICmp, InstICmp.type, hx]
  | PointerType elem a => simp [NewICmp, InstICmp.type, hx]
  | VectorType n sc elem => simp [NewICmp, InstICmp.type, hx]
  | VoidType => simp [NewICmp, InstICmp.type, hx]
  | FloatType kind => simp [NewICmp, InstICmp.type, hx]
  | ArrayType len elem => simp [NewICmp, InstICmp.type, hx]
  | StructType name fields packed opaq => simp [NewICmp, InstICmp.type, hx]
  | FuncType ret params v => simp [NewICmp, InstICmp.type, hx]
  | LabelType => simp [NewICmp, InstICmp.type, hx]
  | TokenType => simp [NewICmp, InstICmp.type, hx]
  | MetadataType => simp [NewICmp, InstICmp.type, hx]

/-- C29: once `Typ` holds the type `t`, `Type()` answers from the cache alone:
for an icmp, an fcmp and a select with any `X` put in place of the operand,
for a phi with any incoming list, the empty one included, and for a call with
any callee, the result is what it was before the substitution (`t`, and for a
call the return type of a cached signature), and nothing is recomputed. -/
theorem C29_cached_type_ignores_operands (t : Typ) :
    (∀ (inst : InstICmp) (x2 : Value), inst.Typ = some t →
        inst.type = some (t, inst)
          ∧ InstICmp.type { inst with X := x2 } = some (t, { inst with X := x2 }))
      ∧ (∀ (inst : InstFCmp) (x2 : Value), inst.Typ = some t →
        inst.type = some (t, inst)
          ∧ InstFCmp.type { inst with X := x2 } = some (t, { inst with X := x2 }))
      ∧ (∀ (inst : InstPhi) (incs2 : List Incoming), inst.Typ = some t →
        inst.type = some (t, inst)
          ∧ InstPhi.type { inst with Incs := incs2 } = some (t, { inst with Incs := incs2 }))
      ∧ (∀ (inst : InstSelect) (x2 : Value), inst.Typ = some t →
        inst.type = (t, inst)
          ∧ InstSelect.type { inst with X := x2 } = (t, { inst with X := x2 }))
      ∧ (∀ (inst : InstCall) (callee2 : Value), inst.Typ = some t →
        inst.type = some (retTypeOrSelf t, inst)
          ∧ InstCall.type { inst with Callee := callee2 }
              = some (retTypeOrSelf t, { inst with Callee := callee2 })) := by
  refine ⟨?_, ?_, ?_, ?_, ?_⟩
  · intro inst x2 h
    exact ⟨by simp [InstICmp.type, h], by simp [InstICmp.type, h]⟩
  · intro inst x2 h
    exact ⟨by simp [InstFCmp.type, h], by simp [InstFCmp.type, h]⟩
  · intro inst incs2 h
    exact ⟨by simp [InstPhi.type, h], by simp [InstPhi.type, h]⟩
  · intro inst x2 h
    exact ⟨by simp [InstSelect.type, h], by simp [InstSelect.type, h]⟩
  · intro inst callee2 h
    exact ⟨callType_cached inst t h, callType_cached { inst with Callee := callee2 } t h⟩

/-- C29 at the icmp built on `i32 %a`: with `<4 x i32> %a` put in place of `X`
the type is still `i1`, not `<4 x i1>`. -/
theorem C29_cached_type_ignores_operands_witness :
    icmpAB.type = some (Typ.IntType 1, icmpAB)
      ∧ InstICmp.type { icmpAB with X := vecA }
          = some (Typ.IntType 1, { icmpAB with X := vecA }) :=
  (C29_cached_type_ignores_operands (Typ.IntType 1)).1 icmpAB vecA rfl

/-- C30: whenever the constructor fails, the helper of the block returns no
instruction and leaves the block, instruction list and terminator included,
exactly as it was: `NewICmp` on an operand that is neither an integer, a
pointer nor a vector, `NewFCmp` on an operand that is neither floating-point
nor a vector, `NewPhi` without incomings, and `NewCall` on a callee that is no
pointer to a function. -/
theorem C30_helpers_leave_block_on_failure (b : Block) :
    (∀ pred x y, NewICmp pred x y = none → b.NewICmp pred x y = (none, b))
      ∧ (∀ pred x y, NewFCmp pred x y = none → b.NewFCmp pred x y = (none, b))
      ∧ (∀ incs, NewPhi incs = none → b.NewPhi incs = (none, b))
      ∧ (∀ callee args, NewCall callee args = none → b.NewCall callee args = (none, b))
      ∧ (∀ pred x y, (∀ bits, x.type ≠ Typ.IntType bits) →
          (∀ elem a, x.type ≠ Typ.PointerType elem a) →
          (∀ n sc elem, x.type ≠ Typ.VectorType n sc elem) →
          b.NewICmp pred x y = (none, b))
      ∧ (∀ pred x y, (∀ kind, x.type ≠ Typ.FloatType kind) →
          (∀ n sc elem, x.type ≠ Typ.VectorType n sc elem) →
          b.NewFCmp pred x y = (none, b))
      ∧ b.NewPhi [] = (none, b)
      ∧ (∀ callee args,
          (¬ ∃ ret params variadic a,
            callee.type = Typ.PointerType (Typ.FuncType ret params variadic) a) →
          b.NewCall callee args = (none, b)) := by
  have hi : ∀ pred x y, NewICmp pred x y = none → b.NewICmp pred x y = (none, b) := by
    intro pred x y h
    simp only [Block.NewICmp, h]
  have hf : ∀ pred x y, NewFCmp pred x y = none → b.NewFCmp pred x y = (none, b) := by
    intro pred x y h
    simp only [Block.NewFCmp, h]
  have hc : ∀ callee args, NewCall callee args = none → b.NewCall callee args = (none, b) := by
    intro callee args h
    simp only [Block.NewCall, h]
  refine ⟨hi, hf, ?_, hc, ?_, ?_, rfl, ?_⟩
  · intro incs h
    simp only [Block.NewPhi, h]
  · intro pred x y h1 h2 h3
    apply hi
    cases hx : x.type with
    | IntType bits => exact absurd hx (h1 bits)
    | PointerType elem a => exact absurd hx (h2 elem a)
    | VectorType n sc elem => exact absurd hx (h3 n sc elem)
    | _ => simp [NewICmp, InstICmp.type, hx]
  · intro pred x y h1 h2
    apply hf
    cases hx : x.type with
    | FloatType kind => exact absurd hx (h1 kind)
    | VectorType n sc elem => exact absurd hx (h2 n sc elem)
    | _ => simp [NewFCmp, InstFCmp.type, hx]
  · intro callee args hnot
    apply hc
    cases hx : callee.type with
    | PointerType elem a =>
      cases elem with
      | FuncType ret params variadic => exact absurd ⟨ret, params, variadic, a, hx⟩ hnot
      | _ => simp [NewCall, InstCall.type, InstCall.cacheTyp, hx]
    | _ => simp [NewCall, InstCall.type, InstCall.cacheTyp, hx]

/-- C30 at the block `%entry`: `NewCall` on the callee `i32 %a`, which is no
pointer, returns nothing and the block still holds its one instruction and its
terminator. -/
theorem C30_helpers_leave_block_on_failure_witness :
    NewCall valA [valB] = none
      ∧ blockEntry.NewCall valA [valB] = (none, blockEntry) :=
  ⟨rfl, (C30_helpers_leave_block_on_failure blockEntry).2.2.2.1 valA [valB] rfl⟩

/-! ## getelementptr: the bounds of a struct index -/

theorem sliceAt_eq_none_iff {α : Type} (xs : List α) (i : Int) :
    sliceAt xs i = none ↔ i < 0 ∨ (xs.length : Int) ≤ i := by
  unfold sliceAt
  by_cases hi : i < 0
  · simp [hi]
  · simp only [hi, if_false, false_or, List.getElem?_eq_none_iff]
    omega

theorem sliceAt_eq_some_iff {α : Type} (xs : List α) (i : Int) (t : α) :
    sliceAt xs i = some t ↔ 0 ≤ i ∧ xs[i.toNat]? = some t := by
  unfold sliceAt
  by_cases hi : i < 0
  · simp only [hi, if_true]
    constructor
    · intro h; cases h
    · intro h; omega
  · simp only [hi, if_false]
    constructor
    · intro h; exact ⟨by omega, h⟩
    · intro h; exact h.2

theorem gepStep_struct_of_value (name : Option String) (fields : List Typ)
    (packed opaq : Bool) (c : Constant) (k : Int) (h : indexOfValue c k) :
    gepStep (Typ.StructType name fields packed opaq) c = sliceAt fields (bigInt64 k) := by
  rcases h with ⟨b, rfl⟩ | ⟨len, sc, elem, b0, lanes, rfl, hl⟩
  · rfl
  · have hsame : sameLanes (bigInt64 k) (Constant.Int b0 k :: lanes) = true := by
      rw [sameLanes_iff]
      intro c hc
      rcases List.mem_cons.1 hc with hc | hc
      · exact ⟨b0, k, hc, rfl⟩
      · obtain ⟨b, hb⟩ := hl c hc
        exact ⟨b, k, hb, rfl⟩
    simp [gepStep, hsame]

theorem gepWalk_step (E : Typ) (pre : List Constant) (idx : Constant) (t : Typ)
    (h : gepWalk E pre = some t) :
    gepWalk E (pre ++ [idx]) = gepStep t (unpackIndex idx) := by
  rw [gepWalk_append pre E [idx], h]
  simp only [gepWalk]
  cases gepStep t (unpackIndex idx) with
  | none => rfl
  | some t2 => rfl

theorem gepType_some_step (E : Typ) (i0 : Constant) (pre : List Constant) (idx : Constant)
    (post : List Constant) (t T : Typ) (h : gepWalk E pre = some t)
    (hT : gepType E (i0 :: (pre ++ idx :: post)) = some T) :
    ∃ t2, gepStep t (unpackIndex idx) = some t2 := by
  cases hs : gepStep t (unpackIndex idx) with
  | none =>
    rw [gepType_none_of_step E i0 pre idx post t h hs] at hT
    cases hT
  | some t2 => exact ⟨t2, rfl⟩

/-- C31, as stated, fails: on the struct `{ i32, [10 x i8] }`, which has two
fields, the index `i128 18446744073709551616` (the value 2^64, beyond the field
count) yields the type `i32*`, and the negative index
`i128 -18446744073709551615` yields `[10 x i8]*`: the index is read through
`Int64`, which keeps the low 64 bits, 0 and 1 here. -/
theorem C31_counterexample_index_beyond_int64 :
    gepType structS [Constant.Int 32 0, Constant.Int 128 (2 ^ 64)]
        = some (Typ.PointerType (Typ.IntType 32) 0)
      ∧ ¬ ((2 : Int) ^ 64 < 2)
      ∧ gepType structS [Constant.Int 32 0, Constant.Int 128 (-(2 ^ 64) + 1)]
        = some (Typ.PointerType (Typ.ArrayType 10 (Typ.IntType 8)) 0)
      ∧ (-(2 : Int) ^ 64 + 1 < 0) :=
  ⟨rfl, by decide, rfl, by decide⟩

/-- C31, amended: on a struct step with an integer constant index of value `k`
(or a uniform vector index of value `k`) the bound is tested on `Int64(k)`,
the value `Int64` reads off the constant, which is `k` itself in the `int64`
range: the step yields `fields[Int64(k)]`, `gepType` yields a type only if
`0 <= Int64(k) < number of fields`, and fails when `Int64(k)` is negative or
at or beyond the field count; for `k` in the `int64` range all of that holds
of `k` itself. A zeroinitializer index selects field 0 and fails on a struct
with no fields. On array and vector steps every index, of whatever value, is
accepted and the walk moves to the element type. -/
theorem C31_struct_index_bound_on_int64_value (E : Typ) (pre : List Constant) :
    (∀ (name : Option String) (fields : List Typ) (packed opaq : Bool) (idx : Constant)
        (k : Int),
        gepWalk E pre = some (Typ.StructType name fields packed opaq) →
        indexOfValue (unpackIndex idx) k →
        gepWalk E (pre ++ [idx]) = sliceAt fields (bigInt64 k)
          ∧ (∀ i0 post T, gepType E (i0 :: (pre ++ idx :: post)) = some T →
              0 ≤ bigInt64 k ∧ bigInt64 k < (fields.length : Int))
          ∧ (bigInt64 k < 0 ∨ (fields.length : Int) ≤ bigInt64 k →
              ∀ i0 post, gepType E (i0 :: (pre ++ idx :: post)) = none)
          ∧ (-(2 ^ 63) ≤ k → k < 2 ^ 63 →
              (∀ i0 post T, gepType E (i0 :: (pre ++ idx :: post)) = some T →
                0 ≤ k ∧ k < (fields.length : Int))
              ∧ (k < 0 ∨ (fields.length : Int) ≤ k →
                ∀ i0 post, gepType E (i0 :: (pre ++ idx :: post)) = none)
              ∧ (0 ≤ k → k < (fields.length : Int) →
                ∃ T, fields[k.toNat]? = some T ∧ gepWalk E (pre ++ [idx]) = some T
                  ∧ ∀ i0, gepType E (i0 :: (pre ++ [idx])) = some (gepWrap i0 T))))
      ∧ (∀ (name : Option String) (fields : List Typ) (packed opaq : Bool) (idx : Constant)
          (t : Typ),
          gepWalk E pre = some (Typ.StructType name fields packed opaq) →
          unpackIndex idx = Constant.ZeroInitializer t →
          gepWalk E (pre ++ [idx]) = fields[0]?
            ∧ (fields = [] → ∀ i0 post, gepType E (i0 :: (pre ++ idx :: post)) = none))
      ∧ (∀ (len : Nat) (elem : Typ) (idx : Constant),
          gepWalk E pre = some (Typ.ArrayType len elem) →
          gepWalk E (pre ++ [idx]) = some elem
            ∧ ∀ i0, gepType E (i0 :: (pre ++ [idx])) = some (gepWrap i0 elem))
      ∧ (∀ (len : Nat) (sc : Bool) (elem : Typ) (idx : Constant),
          gepWalk E pre = some (Typ.VectorType len sc elem) →
          gepWalk E (pre ++ [idx]) = some elem
            ∧ ∀ i0, gepType E (i0 :: (pre ++ [idx])) = some (gepWrap i0 elem)) := by
  have bound : ∀ (name : Option String) (fields : List Typ) (packed opaq : Bool)
      (idx : Constant) (k : Int),
      gepWalk E pre = some (Typ.StructType name fields packed opaq) →
      indexOfValue (unpackIndex idx) k →
      gepWalk E (pre ++ [idx]) = sliceAt fields (bigInt64 k)
        ∧ (∀ i0 post T, gepType E (i0 :: (pre ++ idx :: post)) = some T →
            0 ≤ bigInt64 k ∧ bigInt64 k < (fields.length : Int))
        ∧ (bigInt64 k < 0 ∨ (fields.length : Int) ≤ bigInt64 k →
            ∀ i0 post, gepType E (i0 :: (pre ++ idx :: post)) = none) := by
    intro name fields packed opaq idx k h hv
    have hstep := gepStep_struct_of_value name fields packed opaq (unpackIndex idx) k hv
    refine ⟨?_, ?_, ?_⟩
    · rw [gepWalk_step E pre idx _ h, hstep]
    · intro i0 post T hT
      obtain ⟨t2, ht2⟩ := gepType_some_step E i0 pre idx post _ T h hT
      rw [hstep] at ht2
      have hnot : ¬ (bigInt64 k < 0 ∨ (fields.length : Int) ≤ bigInt64 k) := by
        intro hb
        rw [(sliceAt_eq_none_iff fields (bigInt64 k)).2 hb] at ht2
        cases ht2
      omega
    · intro hb i0 post
      apply gepType_none_of_step E i0 pre idx post _ h
      rw [hstep]
      exact (sliceAt_eq_none_iff fields (bigInt64 k)).2 hb
  refine ⟨?_, ?_, ?_, ?_⟩
  · intro name fields packed opaq idx k h hv
    obtain ⟨b1, b2, b3⟩ := bound name fields packed opaq idx k h hv
    refine ⟨b1, b2, b3, ?_⟩
    intro hlo hhi
    have hk : bigInt64 k = k := bigInt64_of_int64 k hlo hhi
    rw [hk] at b1 b2 b3
    refine ⟨b2, b3, ?_⟩
    intro h0 h1
    have hlt : k.toNat < fields.length := by omega
    refine ⟨fields[k.toNat], List.getElem?_eq_getElem hlt, ?_, ?_⟩
    · rw [b1]
      exact (sliceAt_eq_some_iff fields k _).2 ⟨h0, List.getElem?_eq_getElem hlt⟩
    · intro i0
      apply gepType_cons
      rw [b1]
      exact (sliceAt_eq_some_iff fields k _).2 ⟨h0, List.getElem?_eq_getElem hlt⟩
  · intro name fields packed opaq idx t h hz
    have hstep : gepStep (Typ.StructType name fields packed opaq) (unpackIndex idx)
        = fields[0]? := by
      rw [hz]
      rfl
    refine ⟨by rw [gepWalk_step E pre idx _ h, hstep], ?_⟩
    intro hf i0 post
    apply gepType_none_of_step E i0 pre idx post _ h
    rw [hstep, hf]
    rfl
  · intro len elem idx h
    have hw : gepWalk E (pre ++ [idx]) = some elem := by
      rw [gepWalk_step E pre idx _ h]
      rfl
    exact ⟨hw, fun i0 => gepType_cons E i0 _ elem hw⟩
  · intro len sc elem idx h
    have hw : gepWalk E (pre ++ [idx]) = some elem := by
      rw [gepWalk_step E pre idx _ h]
      rfl
    exact ⟨hw, fun i0 => gepType_cons E i0 _ elem hw⟩

/-- C31, amended, on the struct `{ i32, [10 x i8] }`: the index `i32 5`, at or
beyond the field count 2, makes `gepType` fail. -/
theorem C31_struct_index_bound_on_int64_value_witness :
    gepWalk structS [] = some structS
      ∧ indexOfValue (unpackIndex (Constant.Int 32 5)) 5
      ∧ gepType structS [Constant.Int 32 0, Constant.Int 32 5] = none :=
  ⟨rfl, Or.inl ⟨32, rfl⟩,
    ((C31_struct_index_bound_on_int64_value structS []).1 none
      [Typ.IntType 32, Typ.ArrayType 10 (Typ.IntType 8)] false false (Constant.Int 32 5) 5 rfl
      (Or.inl ⟨32, rfl⟩)).2.2.2 (by norm_num) (by norm_num) |>.2.1 (Or.inr (by decide))
      (Constant.Int 32 0) []⟩

/-! ## getelementptr: the descent of the specification -/

theorem specUntag_eq_unpackIndex (c : Constant) : specUntag c = unpackIndex c := by
  cases c <;> rfl

theorem all_isIntOfValue (k : Int) (lanes : List Constant)
    (h : lanes.all (isIntOfValue k) = true) : ∀ lane ∈ lanes, ∃ b, lane = Constant.Int b k := by
  intro lane hl
  have hv := List.all_eq_true.1 h lane hl
  cases lane with
  | Int b x =>
    simp only [isIntOfValue, decide_eq_true_eq] at hv
    exact ⟨b, by rw [hv]⟩
  | Vector l s e es => simp [isIntOfValue] at hv
  | ZeroInitializer t => simp [isIntOfValue] at hv
  | Index c2 r => simp [isIntOfValue] at hv
  | Other t => simp [isIntOfValue] at hv

theorem gepStep_struct_of_specFieldIndex (name : Option String) (fields : List Typ)
    (packed opaq : Bool) (c : Constant) (k : Int) (h : specFieldIndex c = some k) :
    gepStep (Typ.StructType name fields packed opaq) c = sliceAt fields (bigInt64 k) := by
  cases c with
  | Int b x =>
    simp only [specFieldIndex, Option.some.injEq] at h
    subst h
    rfl
  | Vector len sc elem lanes =>
    cases lanes with
    | nil => simp [specFieldIndex] at h
    | cons first rest =>
      cases first with
      | Int b x =>
        simp only [specFieldIndex] at h
        by_cases hall : rest.all (isIntOfValue x) = true
        · simp only [hall, if_true, Option.some.injEq] at h
          subst h
          exact gepStep_struct_of_value name fields packed opaq _ x
            (Or.inr ⟨len, sc, elem, b, rest, rfl, all_isIntOfValue x rest hall⟩)
        · simp [hall] at h
      | Vector l s e es => simp [specFieldIndex] at h
      | ZeroInitializer t => simp [specFieldIndex] at h
      | Index c2 r => simp [specFieldIndex] at h
      | Other t => simp [specFieldIndex] at h
  | ZeroInitializer t =>
    simp only [specFieldIndex, Option.some.injEq] at h
    subst h
    rfl
  | Index c2 r => simp [specFieldIndex] at h
  | Other t => simp [specFieldIndex] at h

theorem gepStep_of_specDescend (t : Typ) (index : Constant) (t2 : Typ)
    (hlen : ∀ name fields packed opaq, t = Typ.StructType name fields packed opaq →
      fields.length < 2 ^ 63)
    (h : specDescend t index = some t2) :
    gepStep t (unpackIndex index) = some t2 := by
  cases t with
  | ArrayType len elem => simpa [specDescend, gepStep] using h
  | VectorType len sc elem => simpa [specDescend, gepStep] using h
  | StructType name fields packed opaq =>
    simp only [specDescend] at h
    cases hk : specFieldIndex (specUntag index) with
    | none => simp [hk] at h
    | some k =>
      simp only [hk] at h
      by_cases h0 : 0 ≤ k
      · simp only [h0, if_true] at h
        have hlt : k.toNat < fields.length := by
          by_contra hge
          rw [List.getElem?_eq_none (by omega)] at h
          cases h
        have hl := hlen name fields packed opaq rfl
        have hb : bigInt64 k = k := bigInt64_of_small k h0 (by omega)
        rw [specUntag_eq_unpackIndex] at hk
        rw [gepStep_struct_of_specFieldIndex name fields packed opaq _ k hk, hb]
        exact (sliceAt_eq_some_iff fields k t2).2 ⟨h0, h⟩
      · simp [h0] at h
  | VoidType => simp [specDescend] at h
  | IntType bits => simp [specDescend] at h
  | FloatType kind => simp [specDescend] at h
  | PointerType elem a => simp [specDescend] at h
  | FuncType ret params v => simp [specDescend] at h
  | LabelType => simp [specDescend] at h
  | TokenType => simp [specDescend] at h
  | MetadataType => simp [specDescend] at h

theorem gepWalk_of_specLeaf (rest : List Constant) :
    ∀ (t leaf : Typ), fieldsFit t rest → specLeaf t rest = some leaf →
      gepWalk t rest = some leaf := by
  induction rest with
  | nil => intro t leaf _ h; simpa [specLeaf, gepWalk] using h
  | cons index rest ih =>
    intro t leaf hfit h
    simp only [specLeaf] at h
    cases hd : specDescend t index with
    | none => simp [hd] at h
    | some t2 =>
      simp only [hd] at h
      simp only [fieldsFit, hd] at hfit
      have hlen : ∀ name fields packed opaq, t = Typ.StructType name fields packed opaq →
          fields.length < 2 ^ 63 := by
        intro name fields packed opaq ht
        have h1 := hfit.1
        rw [ht] at h1
        exact h1
      have hstep := gepStep_of_specDescend t index t2 hlen hd
      simp only [gepWalk, hstep]
      exact ih t2 leaf hfit.2 h

/-- C2: for every element type `E` and index list `i0 :: rest` whose 0th index
is not of vector type and whose remaining indices form a well-typed walk in the
sense of the specification (`specLeaf E rest = some L`: arrays and vectors
descend to their element for any index whatsoever; structs to `fields[k]` for
an integer constant `k`, for a uniform vector of `k` and, with `k = 0`, for a
zeroinitializer, each with or without the inrange tag), `gepType` returns the
pointer to `L`. The only assumption besides the claim is that the field lists
met on the walk are Go slices, shorter than `2^63`; the index values are not
restricted. -/
theorem C2_gepType_folds_descent (E : Typ) (i0 : Constant) (rest : List Constant) (L : Typ)
    (hscalar : ∀ len sc el, i0.type ≠ Typ.VectorType len sc el)
    (hfit : fieldsFit E rest)
    (hwalk : specLeaf E rest = some L) :
    gepType E (i0 :: rest) = some (NewPointer L) := by
  have hw := gepWalk_of_specLeaf rest E L hfit hwalk
  rw [gepType_cons E i0 rest L hw]
  have hs : ∀ len sc el, (unpackIndex i0).type ≠ Typ.VectorType len sc el := by
    intro len sc el heq
    obtain ⟨l2, s2, e2, h2⟩ := unpackIndex_type_of_type i0 len sc el heq
    exact hscalar l2 s2 e2 h2
  rw [gepWrap_of_scalar i0 L hs]

/-- C2, the scenario of the specification: for `S = { i32, [10 x i8] }` and the
indices `(i32 0, i32 1, i32 3)` the result type is `i8*`; and so it is for the
indices `(i32 0, inrange i32 1, i128 9223372036854775808)`, an inrange-tagged
struct index followed by an array index beyond the `int64` range. -/
theorem C2_gepType_folds_descent_witness :
    specLeaf structS [Constant.Int 32 1, Constant.Int 32 3] = some (Typ.IntType 8)
      ∧ fieldsFit structS [Constant.Int 32 1, Constant.Int 32 3]
      ∧ gepType structS [Constant.Int 32 0, Constant.Int 32 1, Constant.Int 32 3]
          = some (NewPointer (Typ.IntType 8))
      ∧ gepType structS
          [Constant.Int 32 0, Constant.Index (Constant.Int 32 1) true, Constant.Int 128 (2 ^ 63)]
          = some (NewPointer (Typ.IntType 8)) :=
  ⟨rfl, ⟨by norm_num [structS], trivial, trivial⟩,
    C2_gepType_folds_descent structS (Constant.Int 32 0)
      [Constant.Int 32 1, Constant.Int 32 3] (Typ.IntType 8)
      (by intro len sc el h; simp [Constant.type] at h)
      ⟨by norm_num [structS], trivial, trivial⟩
      rfl,
    C2_gepType_folds_descent structS (Constant.Int 32 0)
      [Constant.Index (Constant.Int 32 1) true, Constant.Int 128 (2 ^ 63)] (Typ.IntType 8)
      (by intro len sc el h; simp [Constant.type] at h)
      ⟨by norm_num [structS], trivial, trivial⟩
      rfl⟩

/-- C11 at the failing input: on the struct `{ i32, [10 x i8] }` the vector index
`<2 x i128> <i128 0, i128 18446744073709551616>` has two integer lanes of
different values, 0 and 2^64, yet `gepType` does not fail: the lanes are
compared on `Int64()`, which reads both as 0, and the result is `i32*`. -/
theorem C11_failing_input_lanes_equal_in_low_bits :
    (0 : Int) ≠ 2 ^ 64
      ∧ gepType structS
          [Constant.Int 32 0,
            Constant.Vector 2 false (Typ.IntType 128)
              [Constant.Int 128 0, Constant.Int 128 (2 ^ 64)]]
          = some (Typ.PointerType (Typ.IntType 32) 0) :=
  ⟨by decide, rfl⟩
